import Mathlib

/-!
# f3vita: pattern codec and write/verify state machine

A shallow embedding of `src/src/pattern.c` and of the state machine of
`src/src/main.c`, with the storage and pad calls of `src/src/storage.c` and
`src/src/ui.c` taken as a collaborator interface.

Conventions of the embedding
* `uint32_t` values are naturals reduced with `u32` (modulo `2^32`) at every
  operation that can leave the range; the `(uint8_t)` cast is `u8`.
* A byte buffer is a function from offsets to byte values.
* The `uint64_t` byte counters and time stamps of `TestContext` are naturals;
  they move by at most one block per tick and the `2^64` boundary is not
  modelled, except in `total_secs`, where the `uint64_t` subtraction of the
  results screen is taken modulo `2^64`.
* `int` flags holding only 0 or 1 are `Bool`; `int` results of the storage
  calls (descriptors, byte counts, error codes) are `Int`.
* The drawing calls of `ui.c` return nothing and do not touch the program
  state; they are left out. `f3v_enumerate_storage` runs before the loop of
  `main`; its result is the device table given to `boot`.
-/

namespace F3Vita

/-! ## Constants of `types.h` -/

/-- The constant `F3V_BLOCK_SIZE` of types.h: 1 MB blocks. -/
def F3V_BLOCK_SIZE : Nat := 1024 * 1024

/-- The constant `F3V_FILE_SIZE` of types.h: 1 GB per file. -/
def F3V_FILE_SIZE : Nat := 1024 * 1024 * 1024

/-- The constant `F3V_BLOCKS_PER_FILE` of types.h. -/
def F3V_BLOCKS_PER_FILE : Nat := F3V_FILE_SIZE / F3V_BLOCK_SIZE

/-- The constant `F3V_MAX_DEVICES` of types.h. -/
def F3V_MAX_DEVICES : Nat := 8

/-! ## Machine integers and buffers -/

/-- Reduction of a natural to the range of `uint32_t`. -/
def u32 (x : Nat) : Nat := x % 2 ^ 32

/-- The cast `(uint8_t)x`. -/
def u8 (x : Nat) : Nat := x % 256

/-- A byte buffer `uint8_t *buf`: the byte stored at each offset. -/
abbrev Buffer := Nat → Nat

/-- The assignment `buf[i] = v`. -/
def Buffer.set (buf : Buffer) (i v : Nat) : Buffer :=
  fun j => if j = i then v else buf j

/-! ## `pattern.c` -/

/-- The word `base = (file_idx << 24) ^ (block_idx << 16)` computed on
`uint32_t` operands (pattern.c lines 18 and 38). -/
def pattern_base (file_idx block_idx : Nat) : Nat :=
  u32 (file_idx <<< 24) ^^^ u32 (block_idx <<< 16)

/-- The byte both loops of pattern.c compute at offset `i`:
`val = base ^ i` followed by `(uint8_t)(val >> ((i & 3) * 8))`. -/
def pattern_byte (base i : Nat) : Nat :=
  let val := base ^^^ i
  u8 (val >>> ((i &&& 3) * 8))

/-- The helper `expected_byte` of tests/test_pattern.c. -/
def expected_byte (file_idx block_idx offset : Nat) : Nat :=
  let base := u32 (file_idx <<< 24) ^^^ u32 (block_idx <<< 16)
  let val := base ^^^ offset
  u8 (val >>> ((offset &&& 3) * 8))

/-- The loop of `f3v_fill_pattern` run for `i = 0 .. n-1`. -/
@[irreducible] def fill_loop (base n : Nat) (buf : Buffer) : Buffer :=
  (List.range n).foldl (fun b i => b.set i (pattern_byte base i)) buf

/-- The function `f3v_fill_pattern(buf, file_idx, block_idx)`: the buffer
after the call. -/
def f3v_fill_pattern (buf : Buffer) (file_idx block_idx : Nat) : Buffer :=
  let base := pattern_base file_idx block_idx
  fill_loop base F3V_BLOCK_SIZE buf

/-- The locals of `f3v_verify_pattern` together with the cell behind the
pointer `first_error_offset`: `out = none` is the NULL pointer, `out = some v`
a cell currently holding `v`. -/
structure VerifyState where
  corrupted : Nat
  found_first : Bool
  out : Option Nat
deriving DecidableEq, Repr

/-- One iteration of the loop of `f3v_verify_pattern`. -/
def verify_step (buf : Buffer) (base : Nat) (s : VerifyState) (i : Nat) : VerifyState :=
  let expected := pattern_byte base i
  if buf i ≠ expected then
    let s1 : VerifyState := { s with corrupted := u32 (s.corrupted + 1) }
    if !s1.found_first && s1.out.isSome then
      { s1 with out := some i, found_first := true }
    else s1
  else s

/-- The loop of `f3v_verify_pattern` run for `i = 0 .. n-1`. -/
@[irreducible] def verify_loop (buf : Buffer) (base n : Nat) (s : VerifyState) : VerifyState :=
  (List.range n).foldl (verify_step buf base) s

/-- The function `f3v_verify_pattern(buf, file_idx, block_idx, first_error_offset)`:
the returned count and the cell behind `first_error_offset` after the call. -/
def f3v_verify_pattern (buf : Buffer) (file_idx block_idx : Nat)
    (first_error_offset : Option Nat) : Nat × Option Nat :=
  let base := pattern_base file_idx block_idx
  let s := verify_loop buf base F3V_BLOCK_SIZE
    { corrupted := 0, found_first := false, out := first_error_offset }
  (s.corrupted, s.out)

/-- The statement `buf[i] = ~buf[i]` of the tests: the bitwise complement of
one byte, cast back to `uint8_t`. -/
def flip_byte (v : Nat) : Nat := u8 (255 - u8 v)

/-- The buffer after `buf[i] = ~buf[i]` for every offset `i` of `offs`. -/
def flip_at (buf : Buffer) (offs : Finset Nat) : Buffer :=
  fun i => if i ∈ offs then flip_byte (buf i) else buf i

/-! ## Specification-side definitions for the codec -/

/-- The byte formula in the words of the specification:
`value = ((file_idx << 24) XOR (block_idx << 16)) XOR i` with 32-bit shifts and
`block[i] = (value >> ((i & 3) * 8)) & 0xFF`. -/
def spec_byte (file_idx block_idx i : Nat) : Nat :=
  let value := (((file_idx <<< 24) % 2 ^ 32) ^^^ ((block_idx <<< 16) % 2 ^ 32)) ^^^ i
  (value >>> ((i &&& 3) * 8)) &&& 0xFF

/-- The offsets of the block at which `buf` differs from the expected pattern
byte of `(file_idx, block_idx)`. -/
def mismatch_set (buf : Buffer) (file_idx block_idx : Nat) : Finset Nat :=
  (Finset.range F3V_BLOCK_SIZE).filter (fun i => buf i ≠ expected_byte file_idx block_idx i)

/-! ## Types of `types.h` -/

/-- The enumeration `AppState` of types.h. -/
inductive AppState where
  | STATE_MENU
  | STATE_WRITE
  | STATE_VERIFY
  | STATE_RESULTS
  | STATE_CLEANUP
  | STATE_EXIT
deriving DecidableEq, Repr

/-- The struct `StorageDevice` of types.h. -/
structure StorageDevice where
  path : String
  name : String
  total_bytes : Nat
  free_bytes : Nat
  writable : Bool
deriving DecidableEq, Repr

/-- The struct `TestContext` of types.h. -/
structure TestContext where
  target : StorageDevice
  test_dir : String
  files_written : Nat
  current_file_blocks : Nat
  bytes_written : Nat
  total_expected : Nat
  current_file : Nat
  current_block : Nat
  bytes_verified : Nat
  bytes_corrupted : Nat
  has_first_error : Bool
  first_error_file : Nat
  first_error_block : Nat
  first_error_offset : Nat
  start_time : Nat
  phase_start_time : Nat
  end_time : Nat
  cleanup_requested : Bool
  cancelled : Bool
deriving DecidableEq, Repr

/-- The enumeration `TestResult` of types.h. -/
inductive TestResult where
  | RESULT_UNKNOWN
  | RESULT_PASS
  | RESULT_FAIL
  | RESULT_CANCELLED
deriving DecidableEq, Repr

/-- A `StorageDevice` after `memset(.., 0, ..)`. -/
def StorageDevice.zero : StorageDevice :=
  { path := "", name := "", total_bytes := 0, free_bytes := 0, writable := false }

/-- A `TestContext` after `memset(&g_ctx, 0, sizeof(g_ctx))`. -/
def TestContext.zero : TestContext :=
  { target := StorageDevice.zero, test_dir := "", files_written := 0, current_file_blocks := 0,
    bytes_written := 0, total_expected := 0, current_file := 0, current_block := 0,
    bytes_verified := 0, bytes_corrupted := 0, has_first_error := false, first_error_file := 0,
    first_error_block := 0, first_error_offset := 0, start_time := 0, phase_start_time := 0,
    end_time := 0, cleanup_requested := false, cancelled := false }

/-- The string constant `F3V_TEST_DIR` of types.h. -/
def F3V_TEST_DIR : String := "data/f3vita"

/-- The string constant `F3V_FILE_PREFIX` of types.h. -/
def F3V_FILE_PREFIX : String := "f3vita_"

/-- The string constant `F3V_FILE_EXT` of types.h. -/
def F3V_FILE_EXT : String := ".dat"

/-! ## The platform: the SDK calls made by `storage.c` and `ui.c`

The calls are functions on a world `W` that the platform owns; the program
sees only what they return. -/

/-- What `f3v_ui_read_buttons` tests in `pad.buttons` after
`sceCtrlPeekBufferPositive`: one flag for each `SCE_CTRL_*` bit it looks at. -/
structure PadData where
  cross : Bool
  circle : Bool
  up : Bool
  down : Bool
  left : Bool
  right : Bool
  start : Bool
deriving DecidableEq, Repr

/-- The two ways `storage.c` calls `sceIoOpen`: `f3v_open_write` with
`SCE_O_WRONLY | SCE_O_CREAT | SCE_O_TRUNC` and `f3v_open_read` with
`SCE_O_RDONLY`. -/
inductive OpenMode where
  | wronly_creat_trunc
  | rdonly
deriving DecidableEq, Repr

/-- The SDK calls used by the program. `sceAppMgrGetDevInfo` returns its
result code with the two sizes it stores; `sceIoRead` returns its result code
with the content of the buffer after the call. -/
structure Platform (W : Type) where
  sceCtrlPeekBufferPositive : W → PadData × W
  sceKernelDelayThread : Nat → W → W
  sceRtcGetCurrentTick : W → Nat × W
  sceAppMgrGetDevInfo : String → W → (Int × Nat × Nat) × W
  sceIoMkdir : String → W → Int × W
  sceIoOpen : String → OpenMode → W → Int × W
  sceIoWrite : Int → Buffer → Nat → W → Int × W
  sceIoRead : Int → Buffer → Nat → W → (Int × Buffer) × W
  sceIoClose : Int → W → Int × W
  sceIoRemove : String → W → Int × W
  sceIoRmdir : String → W → Int × W

/-! ## `ui.h` and `ui.c`: buttons and time -/

/-- The button mask `F3V_BTN_CROSS` of ui.h. -/
def F3V_BTN_CROSS : Nat := 1 <<< 0
/-- The button mask `F3V_BTN_CIRCLE` of ui.h. -/
def F3V_BTN_CIRCLE : Nat := 1 <<< 1
/-- The button mask `F3V_BTN_UP` of ui.h. -/
def F3V_BTN_UP : Nat := 1 <<< 2
/-- The button mask `F3V_BTN_DOWN` of ui.h. -/
def F3V_BTN_DOWN : Nat := 1 <<< 3
/-- The button mask `F3V_BTN_LEFT` of ui.h. -/
def F3V_BTN_LEFT : Nat := 1 <<< 4
/-- The button mask `F3V_BTN_RIGHT` of ui.h. -/
def F3V_BTN_RIGHT : Nat := 1 <<< 5
/-- The button mask `F3V_BTN_START` of ui.h. -/
def F3V_BTN_START : Nat := 1 <<< 6
/-- The button mask `F3V_BTN_ANY` of ui.h. -/
def F3V_BTN_ANY : Nat := 0xFF

/-- The word `current` that `f3v_ui_read_buttons` builds from the pad. -/
def pad_current (pad : PadData) : Nat :=
  let current := 0
  let current := if pad.cross then current ||| F3V_BTN_CROSS else current
  let current := if pad.circle then current ||| F3V_BTN_CIRCLE else current
  let current := if pad.up then current ||| F3V_BTN_UP else current
  let current := if pad.down then current ||| F3V_BTN_DOWN else current
  let current := if pad.left then current ||| F3V_BTN_LEFT else current
  let current := if pad.right then current ||| F3V_BTN_RIGHT else current
  let current := if pad.start then current ||| F3V_BTN_START else current
  current

/-- The function `f3v_ui_read_buttons`: given `g_last_buttons`, the newly
pressed buttons `current & ~g_last_buttons`, the new `g_last_buttons` and the
world after the pad was read. -/
def f3v_ui_read_buttons {W : Type} (P : Platform W) (g_last_buttons : Nat) (w : W) :
    Nat × Nat × W :=
  let r := P.sceCtrlPeekBufferPositive w
  let current := pad_current r.1
  let pressed := current &&& (0xFFFFFFFF ^^^ g_last_buttons)
  (pressed, current, r.2)

/-- The first loop of `f3v_ui_wait_button` ("wait for release"): it peeks the
pad and sleeps while `g_last_buttons != 0`; `none` when the fuel is used up. -/
def wait_release {W : Type} (P : Platform W) (g_last_buttons : Nat) : Nat → W → Option W
  | 0, _ => none
  | fuel + 1, w =>
    let w1 := (P.sceCtrlPeekBufferPositive w).2
    let w2 := P.sceKernelDelayThread 50000 w1
    if g_last_buttons ≠ 0 then wait_release P g_last_buttons fuel w2 else some w2

/-- The second loop of `f3v_ui_wait_button` ("wait for press"): it reads the
buttons and sleeps while `(btn & mask) == 0`; the result is `btn`, the new
`g_last_buttons` and the world. -/
def wait_press {W : Type} (P : Platform W) (mask : Nat) : Nat → Nat → W → Option (Nat × Nat × W)
  | 0, _, _ => none
  | fuel + 1, g_last_buttons, w =>
    let r := f3v_ui_read_buttons P g_last_buttons w
    let btn := r.1
    let w2 := P.sceKernelDelayThread 50000 r.2.2
    if btn &&& mask = 0 then wait_press P mask fuel r.2.1 w2 else some (btn, r.2.1, w2)

/-- The function `f3v_ui_wait_button(mask)`: the returned `btn & mask`, the new
`g_last_buttons` and the world; `none` when a loop does not end within the
fuel. -/
def f3v_ui_wait_button {W : Type} (P : Platform W) (fuel : Nat) (mask : Nat)
    (g_last_buttons : Nat) (w : W) : Option (Nat × Nat × W) :=
  match wait_release P g_last_buttons fuel w with
  | none => none
  | some w1 =>
    match wait_press P mask fuel g_last_buttons w1 with
    | none => none
    | some r => some (r.1 &&& mask, r.2.1, r.2.2)

/-- The function `f3v_get_time_usec`. -/
def f3v_get_time_usec {W : Type} (P : Platform W) (w : W) : Nat × W :=
  P.sceRtcGetCurrentTick w

/-! ## `storage.c` -/

/-- The function `f3v_get_storage_info`: result code, the device after the
call and the world. -/
def f3v_get_storage_info {W : Type} (P : Platform W) (device : StorageDevice) (w : W) :
    Int × StorageDevice × W :=
  let r := P.sceAppMgrGetDevInfo device.path w
  let ret := r.1.1
  let max_size := r.1.2.1
  let free_size := r.1.2.2
  if ret < 0 then (ret, device, r.2)
  else (0, { device with total_bytes := max_size, free_bytes := free_size }, r.2)

/-- The function `f3v_create_test_dir`; `(int)0x80010011` is the "already
exists" code. -/
def f3v_create_test_dir {W : Type} (P : Platform W) (ctx : TestContext) (w : W) :
    Int × TestContext × W :=
  let ctx1 : TestContext := { ctx with test_dir := ctx.target.path ++ F3V_TEST_DIR }
  let parent_dir := ctx.target.path ++ "data"
  let r1 := P.sceIoMkdir parent_dir w
  let r2 := P.sceIoMkdir ctx1.test_dir r1.2
  let ret := r2.1
  if ret < 0 ∧ ret ≠ (0x80010011 : Int) - 2 ^ 32 then (ret, ctx1, r2.2)
  else (0, ctx1, r2.2)

/-- The conversion `%03u` of `snprintf`. -/
def fmt_03u (index : Nat) : String :=
  if index < 10 then "00" ++ toString index
  else if index < 100 then "0" ++ toString index
  else toString index

/-- The function `f3v_get_test_filename`: `"%s/%s%03u%s"` of the test
directory, the prefix, the index and the extension. -/
def f3v_get_test_filename (ctx : TestContext) (index : Nat) : String :=
  ctx.test_dir ++ "/" ++ F3V_FILE_PREFIX ++ fmt_03u index ++ F3V_FILE_EXT

/-- The function `f3v_open_write`. -/
def f3v_open_write {W : Type} (P : Platform W) (path : String) (w : W) : Int × W :=
  P.sceIoOpen path OpenMode.wronly_creat_trunc w

/-- The function `f3v_open_read`. -/
def f3v_open_read {W : Type} (P : Platform W) (path : String) (w : W) : Int × W :=
  P.sceIoOpen path OpenMode.rdonly w

/-- The function `f3v_write_block`. -/
def f3v_write_block {W : Type} (P : Platform W) (fd : Int) (buf : Buffer) (size : Nat) (w : W) :
    Int × W :=
  P.sceIoWrite fd buf size w

/-- The function `f3v_read_block`. -/
def f3v_read_block {W : Type} (P : Platform W) (fd : Int) (buf : Buffer) (size : Nat) (w : W) :
    (Int × Buffer) × W :=
  P.sceIoRead fd buf size w

/-- The function `f3v_close`. -/
def f3v_close {W : Type} (P : Platform W) (fd : Int) (w : W) : Int × W :=
  P.sceIoClose fd w

/-- The loop of `f3v_cleanup_files` from the value `i` of its `uint32_t`
counter on, with `deleted` removals counted so far; `none` when the loop does
not end within the fuel. -/
def cleanup_loop {W : Type} (P : Platform W) (ctx : TestContext) :
    Nat → Nat → Int → W → Option (Int × W)
  | 0, _, _, _ => none
  | fuel + 1, i, deleted, w =>
    if i ≤ u32 (ctx.files_written + 1) then
      let filename := f3v_get_test_filename ctx i
      let r := P.sceIoRemove filename w
      let deleted1 := if r.1 ≥ 0 then deleted + 1 else deleted
      cleanup_loop P ctx fuel (u32 (i + 1)) deleted1 r.2
    else some (deleted, w)

/-- The function `f3v_cleanup_files`: the number of removed files and the
world; the context is not written. -/
def f3v_cleanup_files {W : Type} (P : Platform W) (fuel : Nat) (ctx : TestContext) (w : W) :
    Option (Int × W) :=
  match cleanup_loop P ctx fuel 1 0 w with
  | none => none
  | some r => some (r.1, (P.sceIoRmdir ctx.test_dir r.2).2)

/-- The function `f3v_has_space`: its result, the context with the refreshed
device information, and the world. -/
def f3v_has_space {W : Type} (P : Platform W) (ctx : TestContext) (w : W) :
    Bool × TestContext × W :=
  let r := f3v_get_storage_info P ctx.target w
  let ctx1 : TestContext := { ctx with target := r.2.1 }
  (decide (ctx1.target.free_bytes ≥ F3V_BLOCK_SIZE), ctx1, r.2.2)

/-! ## `main.c`: the state machine -/

/-- The globals of main.c and ui.c and the function-local statics of
`state_write` and `state_verify`. -/
structure Machine where
  g_state : AppState
  g_ctx : TestContext
  g_devices : Nat → StorageDevice
  g_device_count : Int
  g_selected_device : Int
  g_buffer : Buffer
  g_last_buttons : Nat
  write_fd : Int
  write_current_file_idx : Nat
  verify_fd : Int
  verify_current_file_idx : Nat

/-- The globals when `main` enters its loop: `g_devices` and `g_device_count`
as `f3v_enumerate_storage` left them, the context cleared, the statics at
their initialisers. -/
def boot (devices : Nat → StorageDevice) (count : Int) : Machine :=
  { g_state := AppState.STATE_MENU, g_ctx := TestContext.zero, g_devices := devices,
    g_device_count := count, g_selected_device := 0, g_buffer := fun _ => 0,
    g_last_buttons := 0, write_fd := -1, write_current_file_idx := 0, verify_fd := -1,
    verify_current_file_idx := 0 }

/-- The index `file_idx = (uint32_t)(bytes / F3V_FILE_SIZE) + 1`. -/
def file_index (bytes : Nat) : Nat := u32 (u32 (bytes / F3V_FILE_SIZE) + 1)

/-- The index `block_idx = (uint32_t)((bytes % F3V_FILE_SIZE) / F3V_BLOCK_SIZE)`. -/
def block_index (bytes : Nat) : Nat := u32 ((bytes % F3V_FILE_SIZE) / F3V_BLOCK_SIZE)

/-- The statements of `state_menu` that handle `F3V_BTN_UP` and
`F3V_BTN_DOWN`. -/
def menu_move (m : Machine) (btn : Nat) : Machine :=
  let m2 : Machine :=
    if btn &&& F3V_BTN_UP ≠ 0 then
      if m.g_selected_device > 0 then
        { m with g_selected_device := m.g_selected_device - 1 }
      else m
    else m
  let m3 : Machine :=
    if btn &&& F3V_BTN_DOWN ≠ 0 then
      if m2.g_selected_device < m2.g_device_count - 1 then
        { m2 with g_selected_device := m2.g_selected_device + 1 }
      else m2
    else m2
  m3

/-- The context `state_menu` builds when a test is started: cleared, the
target copied from the selected device. -/
def start_ctx (m : Machine) : TestContext :=
  { TestContext.zero with target := m.g_devices m.g_selected_device.toNat }

/-- The context of a started test after "Initialize test" in `state_menu`:
`ctx` is the context `f3v_create_test_dir` left, `t` the time read. -/
def init_test (ctx : TestContext) (t : Nat) : TestContext :=
  let ctx1 : TestContext := { ctx with total_expected := ctx.target.free_bytes }
  let ctx2 : TestContext := { ctx1 with start_time := t }
  let ctx3 : TestContext := { ctx2 with phase_start_time := ctx2.start_time }
  { ctx3 with files_written := 0, bytes_written := 0 }

/-- The body of `if (btn & F3V_BTN_CROSS)` in `state_menu` together with the
`F3V_BTN_CIRCLE` test that follows it when the body does not return. -/
def menu_start {W : Type} (P : Platform W) (fuel : Nat) (m : Machine) (btn : Nat) (w : W) :
    Option (Machine × W) :=
  let d := f3v_create_test_dir P (start_ctx m) w
  if d.1 < 0 then
    match f3v_ui_wait_button P fuel F3V_BTN_ANY m.g_last_buttons d.2.2 with
    | none => none
    | some b => some ({ m with g_ctx := d.2.1, g_last_buttons := b.2.1 }, b.2.2)
  else
    let t := f3v_get_time_usec P d.2.2
    let m4 : Machine := { m with g_ctx := init_test d.2.1 t.1, g_state := AppState.STATE_WRITE }
    if btn &&& F3V_BTN_CIRCLE ≠ 0 then
      some ({ m4 with g_state := AppState.STATE_EXIT }, t.2)
    else some (m4, t.2)

/-- The function `state_menu`; `none` when `f3v_ui_wait_button` does not
return within the fuel. -/
def state_menu {W : Type} (P : Platform W) (fuel : Nat) (m : Machine) (w : W) :
    Option (Machine × W) :=
  if m.g_device_count = 0 then
    let r := f3v_ui_read_buttons P m.g_last_buttons w
    let btn := r.1
    let m1 : Machine := { m with g_last_buttons := r.2.1 }
    if btn &&& F3V_BTN_CIRCLE ≠ 0 then
      some ({ m1 with g_state := AppState.STATE_EXIT }, r.2.2)
    else some (m1, r.2.2)
  else
    let r := f3v_ui_read_buttons P m.g_last_buttons w
    let btn := r.1
    let m1 : Machine := { m with g_last_buttons := r.2.1 }
    let m3 : Machine := menu_move m1 btn
    if btn &&& F3V_BTN_CROSS ≠ 0 then menu_start P fuel m3 btn r.2.2
    else if btn &&& F3V_BTN_CIRCLE ≠ 0 then
      some ({ m3 with g_state := AppState.STATE_EXIT }, r.2.2)
    else some (m3, r.2.2)

/-- The statements that open `state_write` and `state_verify`: the time is
read for the elapsed seconds of the progress display and the buttons are
polled. The result is the polled buttons, the new `g_last_buttons` and the
world. -/
def poll_buttons {W : Type} (P : Platform W) (m : Machine) (w : W) : Nat × Nat × W :=
  let e := f3v_get_time_usec P w
  f3v_ui_read_buttons P m.g_last_buttons e.2

/-- The statements "close previous file if open" and "open new file" of
`state_write` and `state_verify`: `fd` is the static descriptor, `open_call`
the open function called on the file name. -/
def reopen {W : Type} (P : Platform W) (fd : Int) (open_call : String → W → Int × W)
    (filename : String) (w : W) : Int × W :=
  let w1 := if fd ≥ 0 then (f3v_close P fd w).2 else w
  open_call filename w1

/-- The transition to the verify phase that `state_write` makes at its three
exits: time stamp, verify cursors reset, `g_state = STATE_VERIFY`. -/
def enter_verify {W : Type} (P : Platform W) (m : Machine) (w : W) : Machine × W :=
  let t := f3v_get_time_usec P w
  ({ m with
      g_ctx := { m.g_ctx with phase_start_time := t.1, current_file := 1, current_block := 0,
                              bytes_verified := 0 },
      g_state := AppState.STATE_VERIFY }, t.2)

/-- The part of `state_write` from "Generate pattern for this block" to its
end. -/
def write_block {W : Type} (P : Platform W) (m : Machine) (file_idx block_idx : Nat) (w : W) :
    Machine × W :=
  let m1 : Machine := { m with g_buffer := f3v_fill_pattern m.g_buffer file_idx block_idx }
  let x := f3v_write_block P m1.write_fd m1.g_buffer F3V_BLOCK_SIZE w
  let written := x.1
  if written ≤ 0 then
    let c := f3v_close P m1.write_fd x.2
    enter_verify P { m1 with write_fd := -1, write_current_file_idx := 0 } c.2
  else
    ({ m1 with g_ctx := { m1.g_ctx with
        bytes_written := m1.g_ctx.bytes_written + written.toNat } }, x.2)

/-- The function `state_write`. -/
def state_write {W : Type} (P : Platform W) (m : Machine) (w : W) : Machine × W :=
  let r := poll_buttons P m w
  let btn := r.1
  let m1 : Machine := { m with g_last_buttons := r.2.1 }
  if btn &&& F3V_BTN_CIRCLE ≠ 0 then
    ({ m1 with g_ctx := { m1.g_ctx with cancelled := true }, g_state := AppState.STATE_RESULTS },
      r.2.2)
  else
    let h := f3v_has_space P m1.g_ctx r.2.2
    let m2 : Machine := { m1 with g_ctx := h.2.1 }
    if h.1 = false then enter_verify P m2 h.2.2
    else
      let file_idx := file_index m2.g_ctx.bytes_written
      let block_idx := block_index m2.g_ctx.bytes_written
      if file_idx ≠ m2.write_current_file_idx then
        let filename := f3v_get_test_filename m2.g_ctx file_idx
        let o := reopen P m2.write_fd (f3v_open_write P) filename h.2.2
        let m3 : Machine := { m2 with write_fd := o.1 }
        if o.1 < 0 then enter_verify P m3 o.2
        else
          let m4 : Machine :=
            { m3 with
              write_current_file_idx := file_idx
              g_ctx := { m3.g_ctx with files_written := file_idx } }
          write_block P m4 file_idx block_idx o.2
      else
        write_block P m2 file_idx block_idx h.2.2

/-- The statements of `state_verify` that record the first error at offset
`off` of `(file_idx, block_idx)` when none is recorded yet. -/
def record_first_error (ctx : TestContext) (file_idx block_idx off : Nat) : TestContext :=
  if ctx.has_first_error = false then
    { ctx with has_first_error := true, first_error_file := file_idx,
               first_error_block := block_idx, first_error_offset := off }
  else ctx

/-- The part of `state_verify` from "Read block" to its end. -/
def verify_block {W : Type} (P : Platform W) (m : Machine) (file_idx block_idx : Nat) (w : W) :
    Machine × W :=
  let x := f3v_read_block P m.verify_fd m.g_buffer F3V_BLOCK_SIZE w
  let bytes_read := x.1.1
  let m1 : Machine := { m with g_buffer := x.1.2 }
  if bytes_read ≤ 0 then
    let ctx1 : TestContext := { m1.g_ctx with bytes_corrupted := m1.g_ctx.bytes_corrupted + F3V_BLOCK_SIZE }
    let ctx2 : TestContext := { ctx1 with bytes_verified := ctx1.bytes_verified + F3V_BLOCK_SIZE }
    ({ m1 with g_ctx := record_first_error ctx2 file_idx block_idx 0 }, x.2)
  else
    let v := f3v_verify_pattern m1.g_buffer file_idx block_idx (some 0)
    let corrupted := v.1
    let first_offset := v.2.getD 0
    let ctx1 : TestContext :=
      if corrupted > 0 then
        record_first_error { m1.g_ctx with bytes_corrupted := m1.g_ctx.bytes_corrupted + corrupted }
          file_idx block_idx first_offset
      else m1.g_ctx
    ({ m1 with g_ctx := { ctx1 with bytes_verified := ctx1.bytes_verified + bytes_read.toNat } },
      x.2)

/-- The function `state_verify`. -/
def state_verify {W : Type} (P : Platform W) (m : Machine) (w : W) : Machine × W :=
  let r := poll_buttons P m w
  let btn := r.1
  let m1 : Machine := { m with g_last_buttons := r.2.1 }
  if btn &&& F3V_BTN_CIRCLE ≠ 0 then
    ({ m1 with g_ctx := { m1.g_ctx with cancelled := true }, g_state := AppState.STATE_RESULTS },
      r.2.2)
  else if m1.g_ctx.bytes_verified ≥ m1.g_ctx.bytes_written then
    let t := f3v_get_time_usec P r.2.2
    ({ m1 with g_ctx := { m1.g_ctx with end_time := t.1 }, g_state := AppState.STATE_RESULTS },
      t.2)
  else
    let file_idx := file_index m1.g_ctx.bytes_verified
    let block_idx := block_index m1.g_ctx.bytes_verified
    if file_idx ≠ m1.verify_current_file_idx then
      let filename := f3v_get_test_filename m1.g_ctx file_idx
      let o := reopen P m1.verify_fd (f3v_open_read P) filename r.2.2
      let m2 : Machine := { m1 with verify_fd := o.1 }
      if o.1 < 0 then
        let remaining := m2.g_ctx.bytes_written - m2.g_ctx.bytes_verified
        let ctx1 : TestContext := { m2.g_ctx with bytes_corrupted := m2.g_ctx.bytes_corrupted + remaining }
        let ctx2 : TestContext := { ctx1 with bytes_verified := ctx1.bytes_written }
        let ctx3 := record_first_error ctx2 file_idx block_idx 0
        let t := f3v_get_time_usec P o.2
        ({ m2 with g_ctx := { ctx3 with end_time := t.1 }, g_state := AppState.STATE_RESULTS },
          t.2)
      else
        verify_block P { m2 with verify_current_file_idx := file_idx } file_idx block_idx o.2
    else
      verify_block P m1 file_idx block_idx r.2.2

/-- The first-error record of the ledger: the flag with the triple
`(first_error_file, first_error_block, first_error_offset)`. -/
def first_error_record (ctx : TestContext) : Bool × Nat × Nat × Nat :=
  (ctx.has_first_error, ctx.first_error_file, ctx.first_error_block, ctx.first_error_offset)

/-- The value of the local `result` of `state_results`. -/
def classify_result (ctx : TestContext) : TestResult :=
  if ctx.cancelled then TestResult.RESULT_CANCELLED
  else if ctx.bytes_corrupted > 0 then TestResult.RESULT_FAIL
  else TestResult.RESULT_PASS

/-- The function `state_results`. -/
def state_results {W : Type} (P : Platform W) (m : Machine) (w : W) : Machine × W :=
  let r := f3v_ui_read_buttons P m.g_last_buttons w
  let btn := r.1
  let m1 : Machine := { m with g_last_buttons := r.2.1 }
  let m2 : Machine :=
    if btn &&& F3V_BTN_CROSS ≠ 0 then
      { m1 with g_ctx := { m1.g_ctx with cleanup_requested := true },
                g_state := AppState.STATE_CLEANUP }
    else m1
  let m3 : Machine :=
    if btn &&& F3V_BTN_CIRCLE ≠ 0 then
      { m2 with g_ctx := { m2.g_ctx with cleanup_requested := false },
                g_state := AppState.STATE_EXIT }
    else m2
  (m3, r.2.2)

/-- The function `state_cleanup`; `none` when `f3v_cleanup_files` or
`f3v_ui_wait_button` does not return within the fuel. -/
def state_cleanup {W : Type} (P : Platform W) (fuel : Nat) (m : Machine) (w : W) :
    Option (Machine × W) :=
  match f3v_cleanup_files P fuel m.g_ctx w with
  | none => none
  | some d =>
    match f3v_ui_wait_button P fuel F3V_BTN_ANY m.g_last_buttons d.2 with
    | none => none
    | some b => some ({ m with g_last_buttons := b.2.1, g_state := AppState.STATE_EXIT }, b.2.2)

/-- One iteration of the loop of `main`: the `switch` on `g_state`. -/
def tick {W : Type} (P : Platform W) (fuel : Nat) (m : Machine) (w : W) : Option (Machine × W) :=
  match m.g_state with
  | AppState.STATE_MENU => state_menu P fuel m w
  | AppState.STATE_WRITE => some (state_write P m w)
  | AppState.STATE_VERIFY => some (state_verify P m w)
  | AppState.STATE_RESULTS => some (state_results P m w)
  | AppState.STATE_CLEANUP => state_cleanup P fuel m w
  | AppState.STATE_EXIT => some ({ m with g_state := AppState.STATE_EXIT }, w)

/-- The loop `while (g_state != STATE_EXIT)` of `main` run for at most `n`
iterations. -/
def main_loop {W : Type} (P : Platform W) (fuel : Nat) : Nat → Machine → W → Option (Machine × W)
  | 0, m, w => some (m, w)
  | n + 1, m, w =>
    if m.g_state = AppState.STATE_EXIT then some (m, w)
    else
      match tick P fuel m w with
      | none => none
      | some r => main_loop P fuel n r.1 r.2

/-- The states the program passes through: the state at the loop entry and
every state a returning iteration of the loop of `main` leads to. -/
inductive Reachable {W : Type} (P : Platform W) : Machine → W → Prop where
  | boot (devices : Nat → StorageDevice) (count : Int) (w : W) :
      Reachable P (boot devices count) w
  | step (fuel : Nat) (m : Machine) (w : W) (m2 : Machine) (w2 : W) :
      Reachable P m w → m.g_state ≠ AppState.STATE_EXIT →
      tick P fuel m w = some (m2, w2) → Reachable P m2 w2

/-- The mismatch test of the verify loop as a Boolean predicate. -/
def bad (buf : Buffer) (base : Nat) (i : Nat) : Bool :=
  decide (buf i ≠ pattern_byte base i)

/-- Closed form of the verify loop started from its initial locals. -/
def verify_closed (buf : Buffer) (base n : Nat) (p : Option Nat) : VerifyState :=
  { corrupted := ((List.range n).filter (bad buf base)).length
    found_first := p.isSome && ((List.range n).find? (bad buf base)).isSome
    out := match p with
      | none => none
      | some v => some (((List.range n).find? (bad buf base)).getD v) }

/-! ## Properties of the ledger and of the platform used in the statements -/

/-- The first-error flag is backed by a positive corruption count. -/
def FlagBacked (ctx : TestContext) : Prop :=
  ctx.has_first_error = true → 0 < ctx.bytes_corrupted

/-- A ledger with the byte counters and the first-error flag clear. -/
def Fresh (ctx : TestContext) : Prop :=
  ctx.bytes_written = 0 ∧ ctx.bytes_verified = 0 ∧ ctx.bytes_corrupted = 0 ∧
  ctx.has_first_error = false

/-- The platform never reports more bytes read than were asked for. -/
def ReadsBounded {W : Type} (P : Platform W) : Prop :=
  ∀ fd buf n w, (P.sceIoRead fd buf n w).1.1 ≤ (n : Int)

/-- Every write and every read of the platform either fails (a result of zero
or less) or transfers exactly the number of bytes asked for. -/
def WholeBlocks {W : Type} (P : Platform W) : Prop :=
  (∀ fd buf n w, (P.sceIoWrite fd buf n w).1 ≤ 0 ∨ (P.sceIoWrite fd buf n w).1 = (n : Int)) ∧
  (∀ fd buf n w, (P.sceIoRead fd buf n w).1.1 ≤ 0 ∨ (P.sceIoRead fd buf n w).1.1 = (n : Int))

/-- The phases before the verify phase. -/
def BeforeVerify (s : AppState) : Prop :=
  s = AppState.STATE_MENU ∨ s = AppState.STATE_WRITE

/-- The invariant of the byte counters: nothing is verified or charged before
the verify phase, `bytes_verified` stays below `bytes_written` plus one block,
and on a platform with whole-block transfers the counters are block-aligned
and ordered. -/
def LedgerInv {W : Type} (P : Platform W) (m : Machine) : Prop :=
  (BeforeVerify m.g_state → m.g_ctx.bytes_verified = 0 ∧ m.g_ctx.bytes_corrupted = 0) ∧
  m.g_ctx.bytes_verified < m.g_ctx.bytes_written + F3V_BLOCK_SIZE ∧
  (WholeBlocks P →
    F3V_BLOCK_SIZE ∣ m.g_ctx.bytes_written ∧ F3V_BLOCK_SIZE ∣ m.g_ctx.bytes_verified ∧
    m.g_ctx.bytes_verified ≤ m.g_ctx.bytes_written ∧
    m.g_ctx.bytes_corrupted ≤ m.g_ctx.bytes_verified)

/-- The phase and the three byte counters `(bytes_written, bytes_verified,
bytes_corrupted)` at the end of a run. -/
def counters {W : Type} (o : Option (Machine × W)) : Option (AppState × Nat × Nat × Nat) :=
  o.map (fun r =>
    (r.1.g_state, r.1.g_ctx.bytes_written, r.1.g_ctx.bytes_verified, r.1.g_ctx.bytes_corrupted))

/-! ## Concrete platforms and inputs -/

/-- A pad on which the cross button is held down all the time: the first
`f3v_ui_read_buttons` reports the press, the later ones report nothing. -/
def pad_cross : PadData :=
  { cross := true, circle := false, up := false, down := false, left := false, right := false,
    start := false }

/-- A device table with the memory card in every slot. -/
def one_device : Nat → StorageDevice :=
  fun _ => { path := "ux0:", name := "Memory Card", total_bytes := 4 * F3V_BLOCK_SIZE,
             free_bytes := F3V_BLOCK_SIZE, writable := true }

/-- A platform whose world counts the `sceAppMgrGetDevInfo` calls: one block
is free at the first call and none later, every write stores a single byte and
every read fails with result 0, leaving the buffer as it was. -/
def short_write_platform : Platform Nat :=
  { sceCtrlPeekBufferPositive := fun w => (pad_cross, w)
    sceKernelDelayThread := fun _ w => w
    sceRtcGetCurrentTick := fun w => (0, w)
    sceAppMgrGetDevInfo := fun _ w =>
      ((0, 4 * F3V_BLOCK_SIZE, if w = 0 then F3V_BLOCK_SIZE else 0), w + 1)
    sceIoMkdir := fun _ w => (0, w)
    sceIoOpen := fun _ _ w => (3, w)
    sceIoWrite := fun _ _ _ w => (1, w)
    sceIoRead := fun _ buf _ w => ((0, buf), w)
    sceIoClose := fun _ w => (0, w)
    sceIoRemove := fun _ w => (0, w)
    sceIoRmdir := fun _ w => (0, w) }

/-- A platform whose world counts the `sceAppMgrGetDevInfo` calls: a block is
free at the first two calls and none later, every write stores all the bytes
asked for, and every read attempt fails with result 0. -/
def failing_read_platform : Platform Nat :=
  { sceCtrlPeekBufferPositive := fun w => (pad_cross, w)
    sceKernelDelayThread := fun _ w => w
    sceRtcGetCurrentTick := fun w => (0, w)
    sceAppMgrGetDevInfo := fun _ w =>
      ((0, 4 * F3V_BLOCK_SIZE, if w < 2 then F3V_BLOCK_SIZE else 0), w + 1)
    sceIoMkdir := fun _ w => (0, w)
    sceIoOpen := fun _ _ w => (3, w)
    sceIoWrite := fun _ _ n w => ((n : Int), w)
    sceIoRead := fun _ buf _ w => ((0, buf), w)
    sceIoClose := fun _ w => (0, w)
    sceIoRemove := fun _ w => (0, w)
    sceIoRmdir := fun _ w => (0, w) }

/-- A platform whose world counts the `sceAppMgrGetDevInfo` calls: a block is
free at the first two calls and none later, every write stores all the bytes
asked for, and every read transfers one byte only, the byte the file of block
(1, 0) holds at its start, and leaves the rest of the buffer as it was. -/
def short_read_platform : Platform Nat :=
  { sceCtrlPeekBufferPositive := fun w => (pad_cross, w)
    sceKernelDelayThread := fun _ w => w
    sceRtcGetCurrentTick := fun w => (0, w)
    sceAppMgrGetDevInfo := fun _ w =>
      ((0, 4 * F3V_BLOCK_SIZE, if w < 2 then F3V_BLOCK_SIZE else 0), w + 1)
    sceIoMkdir := fun _ w => (0, w)
    sceIoOpen := fun _ _ w => (3, w)
    sceIoWrite := fun _ _ n w => ((n : Int), w)
    sceIoRead := fun _ buf _ w => ((1, buf.set 0 (expected_byte 1 0 0)), w)
    sceIoClose := fun _ w => (0, w)
    sceIoRemove := fun _ w => (0, w)
    sceIoRmdir := fun _ w => (0, w) }

/-- The machine of `short_read_platform` after four iterations of the loop of
`main`: the test was started, the blocks (1, 0) and (1, 1) were written, the
third write tick found the device full and entered the verify phase. -/
def short_read_machine : Machine :=
  { g_state := AppState.STATE_VERIFY
    g_ctx :=
      { target := { path := "ux0:", name := "Memory Card", total_bytes := 4 * F3V_BLOCK_SIZE,
                    free_bytes := 0, writable := true }
        test_dir := "ux0:data/f3vita", files_written := 1, current_file_blocks := 0,
        bytes_written := 2 * F3V_BLOCK_SIZE, total_expected := F3V_BLOCK_SIZE, current_file := 1,
        current_block := 0, bytes_verified := 0, bytes_corrupted := 0, has_first_error := false,
        first_error_file := 0, first_error_block := 0, first_error_offset := 0, start_time := 0,
        phase_start_time := 0, end_time := 0, cleanup_requested := false, cancelled := false }
    g_devices := one_device
    g_device_count := 1
    g_selected_device := 0
    g_buffer := f3v_fill_pattern (f3v_fill_pattern (fun _ => 0) 1 0) 1 1
    g_last_buttons := 1
    write_fd := 3
    write_current_file_idx := 1
    verify_fd := -1
    verify_current_file_idx := 0 }

/-- A machine in the verify phase with a first error already recorded at
(1, 0, 5): two blocks written, one verified. -/
def verifying_machine : Machine :=
  { boot one_device 1 with
    g_state := AppState.STATE_VERIFY
    g_ctx :=
      { TestContext.zero with
        bytes_written := 2 * F3V_BLOCK_SIZE, bytes_verified := F3V_BLOCK_SIZE,
        bytes_corrupted := 1, has_first_error := true, first_error_file := 1,
        first_error_block := 0, first_error_offset := 5 }
    verify_fd := 3
    verify_current_file_idx := 1 }

/-- A platform on which every read returns a full block of the byte 0xAA. -/
def garbage_platform : Platform Unit :=
  { sceCtrlPeekBufferPositive := fun w =>
      ({ cross := false, circle := false, up := false, down := false, left := false,
         right := false, start := false }, w)
    sceKernelDelayThread := fun _ w => w
    sceRtcGetCurrentTick := fun w => (0, w)
    sceAppMgrGetDevInfo := fun _ w => ((0, 0, 0), w)
    sceIoMkdir := fun _ w => (0, w)
    sceIoOpen := fun _ _ w => (3, w)
    sceIoWrite := fun _ _ n w => ((n : Int), w)
    sceIoRead := fun _ _ n w => (((n : Int), fun _ => 0xAA), w)
    sceIoClose := fun _ w => (0, w)
    sceIoRemove := fun _ w => (0, w)
    sceIoRmdir := fun _ w => (0, w) }

/-! ## The ideal storage of the end-to-end scenario -/

/-- The world of the ideal storage of the end-to-end scenario: the free space
of the device, the blocks stored in each file (by file name, in order), the
open descriptors with their file name and block position, and the next
descriptor to hand out. -/
structure IdealStore where
  free_bytes : Nat
  files : String → List Buffer
  handles : Int → Option (String × Nat)
  next_fd : Int

/-- The call `sceIoOpen` on the ideal storage: it always succeeds with a fresh
descriptor positioned at block 0; opening for writing truncates the file. -/
def ideal_open (path : String) (mode : OpenMode) (st : IdealStore) : Int × IdealStore :=
  (st.next_fd,
   { st with
     files := fun p =>
       if p = path ∧ mode = OpenMode.wronly_creat_trunc then [] else st.files p
     handles := fun d => if d = st.next_fd then some (path, 0) else st.handles d
     next_fd := st.next_fd + 1 })

/-- The call `sceIoWrite` on the ideal storage: on an open descriptor it stores
the whole block at the position of the descriptor, advances the position,
lowers the free space by the size written and returns that size. -/
def ideal_write (fd : Int) (buf : Buffer) (n : Nat) (st : IdealStore) : Int × IdealStore :=
  match st.handles fd with
  | none => (-1, st)
  | some h =>
    ((n : Int),
     { st with
       files := fun p => if p = h.1 then (st.files h.1).take h.2 ++ [buf] else st.files p
       handles := fun d => if d = fd then some (h.1, h.2 + 1) else st.handles d
       free_bytes := st.free_bytes - n })

/-- The call `sceIoRead` on the ideal storage: on an open descriptor it returns
the block stored at the position of the descriptor, with the full size, and
advances the position; past the last block it returns 0. -/
def ideal_read (fd : Int) (buf : Buffer) (n : Nat) (st : IdealStore) :
    (Int × Buffer) × IdealStore :=
  match st.handles fd with
  | none => ((-1, buf), st)
  | some h =>
    match (st.files h.1)[h.2]? with
    | none => ((0, buf), st)
    | some blk =>
      (((n : Int), blk),
       { st with handles := fun d => if d = fd then some (h.1, h.2 + 1) else st.handles d })

/-- The call `sceIoClose` on the ideal storage. -/
def ideal_close (fd : Int) (st : IdealStore) : Int × IdealStore :=
  (0, { st with handles := fun d => if d = fd then none else st.handles d })

/-- The ideal platform of the end-to-end scenario: the cross button is held
down (the first poll starts the test, no later poll reports a button, circle is
never pressed), the clock stands at 0, the device reports the free space of
the store, and files behave as `ideal_open`, `ideal_write`, `ideal_read` and
`ideal_close` say. -/
def ideal_platform : Platform IdealStore :=
  { sceCtrlPeekBufferPositive := fun st => (pad_cross, st)
    sceKernelDelayThread := fun _ st => st
    sceRtcGetCurrentTick := fun st => (0, st)
    sceAppMgrGetDevInfo := fun _ st => ((0, 4 * F3V_FILE_SIZE, st.free_bytes), st)
    sceIoMkdir := fun _ st => (0, st)
    sceIoOpen := ideal_open
    sceIoWrite := ideal_write
    sceIoRead := ideal_read
    sceIoClose := ideal_close
    sceIoRemove := fun _ st => (0, st)
    sceIoRmdir := fun _ st => (0, st) }

/-- The ideal storage at program start: 2.5 x `F3V_FILE_SIZE` bytes free, no
file, no open descriptor. -/
def ideal_start : IdealStore :=
  { free_bytes := 5 * F3V_FILE_SIZE / 2, files := fun _ => [], handles := fun _ => none,
    next_fd := 3 }

/-- The device table of the end-to-end scenario: the memory card with
2.5 x `F3V_FILE_SIZE` bytes free. -/
def ideal_devices : Nat → StorageDevice :=
  fun _ => { path := "ux0:", name := "Memory Card", total_bytes := 4 * F3V_FILE_SIZE,
             free_bytes := 5 * F3V_FILE_SIZE / 2, writable := true }

/-- The name `f3v_get_test_filename` gives to file `c` in the test directory
of the device `ux0:`. -/
def ideal_file (c : Nat) : String :=
  "ux0:data/f3vita" ++ "/" ++ F3V_FILE_PREFIX ++ fmt_03u c ++ F3V_FILE_EXT

/-- The first `k` blocks of the run are on the ideal storage: block `p` is in
file `p / 1024 + 1` at position `p % 1024` and holds the pattern of its
location. -/
def Stored (st : IdealStore) (k : Nat) : Prop :=
  ∀ p, p < k → ∃ B, (st.files (ideal_file (p / 1024 + 1)))[p % 1024]? = some B ∧
    ∀ i, i < F3V_BLOCK_SIZE → B i = expected_byte (p / 1024 + 1) (p % 1024) i

/-- The state of the end-to-end run after `k` blocks have been written. -/
structure WriteInv (k : Nat) (m : Machine) (st : IdealStore) : Prop where
  state : m.g_state = AppState.STATE_WRITE
  written : m.g_ctx.bytes_written = k * F3V_BLOCK_SIZE
  verified : m.g_ctx.bytes_verified = 0
  corrupted : m.g_ctx.bytes_corrupted = 0
  flag : m.g_ctx.has_first_error = false
  cancelled : m.g_ctx.cancelled = false
  dir : m.g_ctx.test_dir = "ux0:data/f3vita"
  last : m.g_last_buttons = 1
  fw : m.g_ctx.files_written = if k = 0 then 0 else (k - 1) / 1024 + 1
  cur : m.write_current_file_idx = if k = 0 then 0 else (k - 1) / 1024 + 1
  fd : 0 < k → st.handles m.write_fd = some (ideal_file ((k - 1) / 1024 + 1), (k - 1) % 1024 + 1)
  len : 0 < k → (st.files (ideal_file ((k - 1) / 1024 + 1))).length = (k - 1) % 1024 + 1
  vfd : m.verify_fd = -1
  vcur : m.verify_current_file_idx = 0
  free : st.free_bytes = (2560 - k) * F3V_BLOCK_SIZE
  nfd : 0 ≤ st.next_fd
  stored : Stored st k

/-- The state of the end-to-end run after `j` blocks have been verified. -/
structure VerifyInv (j : Nat) (m : Machine) (st : IdealStore) : Prop where
  state : m.g_state = AppState.STATE_VERIFY
  written : m.g_ctx.bytes_written = 2560 * F3V_BLOCK_SIZE
  verified : m.g_ctx.bytes_verified = j * F3V_BLOCK_SIZE
  corrupted : m.g_ctx.bytes_corrupted = 0
  flag : m.g_ctx.has_first_error = false
  cancelled : m.g_ctx.cancelled = false
  dir : m.g_ctx.test_dir = "ux0:data/f3vita"
  last : m.g_last_buttons = 1
  fw : m.g_ctx.files_written = 3
  vcur : m.verify_current_file_idx = if j = 0 then 0 else (j - 1) / 1024 + 1
  vfd : 0 < j →
    st.handles m.verify_fd = some (ideal_file ((j - 1) / 1024 + 1), (j - 1) % 1024 + 1)
  nfd : 0 ≤ st.next_fd
  stored : Stored st 2560

/-- The phase, the byte counters and `files_written` of a machine. -/
def ledger_snapshot (m : Machine) : AppState × Nat × Nat × Nat × Nat :=
  (m.g_state, m.g_ctx.bytes_written, m.g_ctx.bytes_verified, m.g_ctx.bytes_corrupted,
    m.g_ctx.files_written)

/-- The flags and the test directory of a machine. -/
def flags_snapshot (m : Machine) : Bool × Bool × String :=
  (m.g_ctx.has_first_error, m.g_ctx.cancelled, m.g_ctx.test_dir)

/-- The button state and the static descriptors and file indices of a
machine. -/
def statics_snapshot (m : Machine) : Nat × Int × Nat × Int × Nat :=
  (m.g_last_buttons, m.write_fd, m.write_current_file_idx, m.verify_fd,
    m.verify_current_file_idx)

/-! ## The order of the phases -/

/-- The position of a state in the order Menu, Write, Verify, Results,
Cleanup, Exit, which is the order of the enum `AppState`. -/
def phase_rank : AppState → Nat
  | AppState.STATE_MENU => 0
  | AppState.STATE_WRITE => 1
  | AppState.STATE_VERIFY => 2
  | AppState.STATE_RESULTS => 3
  | AppState.STATE_CLEANUP => 4
  | AppState.STATE_EXIT => 5

/-- The steps of the phase diagram: Menu to Menu, Write or Exit; Write to
Write, Verify or Results; Verify to Verify or Results; Results to Results,
Cleanup or Exit; Cleanup to Exit. -/
def allowed_step : AppState → AppState → Bool
  | AppState.STATE_MENU, AppState.STATE_MENU => true
  | AppState.STATE_MENU, AppState.STATE_WRITE => true
  | AppState.STATE_MENU, AppState.STATE_EXIT => true
  | AppState.STATE_WRITE, AppState.STATE_WRITE => true
  | AppState.STATE_WRITE, AppState.STATE_VERIFY => true
  | AppState.STATE_WRITE, AppState.STATE_RESULTS => true
  | AppState.STATE_VERIFY, AppState.STATE_VERIFY => true
  | AppState.STATE_VERIFY, AppState.STATE_RESULTS => true
  | AppState.STATE_RESULTS, AppState.STATE_RESULTS => true
  | AppState.STATE_RESULTS, AppState.STATE_CLEANUP => true
  | AppState.STATE_RESULTS, AppState.STATE_EXIT => true
  | AppState.STATE_CLEANUP, AppState.STATE_EXIT => true
  | _, _ => false

/-! ## The calls of a run -/

/-- One SDK call as the call log records it: the calls on paths with the path,
the calls on descriptors with the descriptor, `sceIoOpen`, `sceIoWrite` and
`sceIoRead` also with the result code. -/
inductive Call where
  | sceCtrlPeekBufferPositive
  | sceKernelDelayThread (usec : Nat)
  | sceRtcGetCurrentTick
  | sceAppMgrGetDevInfo (path : String)
  | sceIoMkdir (path : String)
  | sceIoOpen (path : String) (mode : OpenMode) (ret : Int)
  | sceIoWrite (fd : Int) (size : Nat) (ret : Int)
  | sceIoRead (fd : Int) (size : Nat) (ret : Int)
  | sceIoClose (fd : Int)
  | sceIoRemove (path : String)
  | sceIoRmdir (path : String)
deriving DecidableEq, Repr

/-- The platform `P` with a call log: every call does what it does on `P` and
is appended to the log. -/
def traced {W : Type} (P : Platform W) : Platform (W × List Call) :=
  { sceCtrlPeekBufferPositive := fun s =>
      let r := P.sceCtrlPeekBufferPositive s.1
      (r.1, (r.2, s.2 ++ [Call.sceCtrlPeekBufferPositive]))
    sceKernelDelayThread := fun usec s =>
      (P.sceKernelDelayThread usec s.1, s.2 ++ [Call.sceKernelDelayThread usec])
    sceRtcGetCurrentTick := fun s =>
      let r := P.sceRtcGetCurrentTick s.1
      (r.1, (r.2, s.2 ++ [Call.sceRtcGetCurrentTick]))
    sceAppMgrGetDevInfo := fun path s =>
      let r := P.sceAppMgrGetDevInfo path s.1
      (r.1, (r.2, s.2 ++ [Call.sceAppMgrGetDevInfo path]))
    sceIoMkdir := fun path s =>
      let r := P.sceIoMkdir path s.1
      (r.1, (r.2, s.2 ++ [Call.sceIoMkdir path]))
    sceIoOpen := fun path mode s =>
      let r := P.sceIoOpen path mode s.1
      (r.1, (r.2, s.2 ++ [Call.sceIoOpen path mode r.1]))
    sceIoWrite := fun fd buf size s =>
      let r := P.sceIoWrite fd buf size s.1
      (r.1, (r.2, s.2 ++ [Call.sceIoWrite fd size r.1]))
    sceIoRead := fun fd buf size s =>
      let r := P.sceIoRead fd buf size s.1
      (r.1, (r.2, s.2 ++ [Call.sceIoRead fd size r.1.1]))
    sceIoClose := fun fd s =>
      let r := P.sceIoClose fd s.1
      (r.1, (r.2, s.2 ++ [Call.sceIoClose fd]))
    sceIoRemove := fun path s =>
      let r := P.sceIoRemove path s.1
      (r.1, (r.2, s.2 ++ [Call.sceIoRemove path]))
    sceIoRmdir := fun path s =>
      let r := P.sceIoRmdir path s.1
      (r.1, (r.2, s.2 ++ [Call.sceIoRmdir path])) }

/-- The effect of one logged call on the list of open descriptors: a
successful `sceIoOpen` adds its descriptor, `sceIoClose` removes its
argument. -/
def handle_step (hs : List Int) : Call → List Int
  | Call.sceIoOpen _ _ ret => if ret ≥ 0 then hs ++ [ret] else hs
  | Call.sceIoClose fd => hs.erase fd
  | _ => hs

/-- The descriptors a call log leaves open. -/
def open_handles (log : List Call) : List Int :=
  log.foldl handle_step []

/-- The ideal storage with one block of free space. -/
def ideal_small : IdealStore :=
  { ideal_start with free_bytes := F3V_BLOCK_SIZE }

/-- The file operations of a call log. -/
def file_calls (log : List Call) : List Call :=
  log.filter (fun c => match c with
    | Call.sceIoOpen _ _ _ => true
    | Call.sceIoWrite _ _ _ => true
    | Call.sceIoRead _ _ _ => true
    | Call.sceIoClose _ => true
    | _ => false)

/-- A pad on which only the circle button is held down. -/
def pad_circle : PadData :=
  { cross := false, circle := true, up := false, down := false, left := false, right := false,
    start := false }

/-- A platform without state: the pad reads `pad`, the clock stands at 7, the
device reports `free` bytes free, `sceIoOpen` returns `open_ret`, `sceIoWrite`
returns `write_ret`, and every read returns a full block and leaves the buffer
as it was. -/
def fixed_platform (pad : PadData) (free : Nat) (open_ret write_ret : Int) : Platform Unit :=
  { sceCtrlPeekBufferPositive := fun w => (pad, w)
    sceKernelDelayThread := fun _ w => w
    sceRtcGetCurrentTick := fun w => (7, w)
    sceAppMgrGetDevInfo := fun _ w => ((0, 4 * F3V_FILE_SIZE, free), w)
    sceIoMkdir := fun _ w => (0, w)
    sceIoOpen := fun _ _ w => (open_ret, w)
    sceIoWrite := fun _ _ _ w => (write_ret, w)
    sceIoRead := fun _ buf n w => (((n : Int), buf), w)
    sceIoClose := fun _ w => (0, w)
    sceIoRemove := fun _ w => (0, w)
    sceIoRmdir := fun _ w => (0, w) }

/-- A machine in the write phase with `bytes` bytes written, the cross button
still held down, and the statics of `state_write` at `fd` and `idx`; the
verify cursors hold values that the transition to the verify phase has to
reset. -/
def write_machine (bytes : Nat) (fd : Int) (idx : Nat) : Machine :=
  { boot one_device 1 with
    g_state := AppState.STATE_WRITE
    g_ctx :=
      { TestContext.zero with
        target := one_device 0, test_dir := "ux0:data/f3vita", files_written := idx,
        bytes_written := bytes, current_file := 9, current_block := 9, start_time := 5,
        phase_start_time := 5 }
    g_last_buttons := 1
    write_fd := fd
    write_current_file_idx := idx }

/-- The outcome of a write tick that hands over to the verify phase: state
Verify, `bytes_written` as before the tick, the verify cursors at file 1,
block 0, and nothing verified. -/
def EntersVerify (m r : Machine) : Prop :=
  r.g_state = AppState.STATE_VERIFY ∧ r.g_ctx.bytes_written = m.g_ctx.bytes_written ∧
  r.g_ctx.current_file = 1 ∧ r.g_ctx.current_block = 0 ∧ r.g_ctx.bytes_verified = 0

/-- The outcome of a verify tick whose read for block `(f, b)` returned
`n > 0` and left `buf` in `g_buffer`: state Verify, `bytes_corrupted` raised by
the count `f3v_verify_pattern` returns for `buf` at `(f, b)`, `bytes_verified`
raised by `n`, `bytes_written` as before; when the count is positive and no
first error was recorded the first error is `(f, b, off)` with `off` the lowest
mismatching offset of `buf`; otherwise the first-error record is as before. -/
def VerifyAdvanced (m r : Machine) (f b : Nat) (n : Int) (buf : Buffer) : Prop :=
  r.g_state = AppState.STATE_VERIFY ∧
  r.g_ctx.bytes_corrupted = m.g_ctx.bytes_corrupted + (f3v_verify_pattern buf f b (some 0)).1 ∧
  (r.g_ctx.bytes_verified : Int) = (m.g_ctx.bytes_verified : Int) + n ∧
  r.g_ctx.bytes_written = m.g_ctx.bytes_written ∧
  (0 < (f3v_verify_pattern buf f b (some 0)).1 → m.g_ctx.has_first_error = false →
    ∃ off, first_error_record r.g_ctx = (true, f, b, off) ∧ off < F3V_BLOCK_SIZE ∧
      buf off ≠ expected_byte f b off ∧ ∀ j, j < off → buf j = expected_byte f b j) ∧
  ((f3v_verify_pattern buf f b (some 0)).1 = 0 ∨ m.g_ctx.has_first_error = true →
    first_error_record r.g_ctx = first_error_record m.g_ctx)

/-- The outcome of a verify tick whose read for block `(f, b)` failed: state
Verify, `F3V_BLOCK_SIZE` added to `bytes_corrupted` and to `bytes_verified`,
the first error recorded as `(f, b, 0)` when none was recorded and left as it
was otherwise. -/
def ReadFailed (m r : Machine) (f b : Nat) : Prop :=
  r.g_state = AppState.STATE_VERIFY ∧
  r.g_ctx.bytes_corrupted = m.g_ctx.bytes_corrupted + F3V_BLOCK_SIZE ∧
  r.g_ctx.bytes_verified = m.g_ctx.bytes_verified + F3V_BLOCK_SIZE ∧
  r.g_ctx.bytes_written = m.g_ctx.bytes_written ∧
  (m.g_ctx.has_first_error = false → first_error_record r.g_ctx = (true, f, b, 0)) ∧
  (m.g_ctx.has_first_error = true → first_error_record r.g_ctx = first_error_record m.g_ctx)

/-- The outcome of a verify tick whose open of the file of block `(f, b)`
failed, with `t` the time read after it: state Results, the unverified rest
`bytes_written - bytes_verified` added to `bytes_corrupted`, `bytes_verified`
set to `bytes_written`, the first error recorded as `(f, b, 0)` when none was
recorded and left as it was otherwise, `end_time` set to `t`. -/
def OpenFailed (m r : Machine) (f b t : Nat) : Prop :=
  r.g_state = AppState.STATE_RESULTS ∧
  r.g_ctx.bytes_corrupted
    = m.g_ctx.bytes_corrupted + (m.g_ctx.bytes_written - m.g_ctx.bytes_verified) ∧
  r.g_ctx.bytes_verified = m.g_ctx.bytes_written ∧
  r.g_ctx.bytes_written = m.g_ctx.bytes_written ∧
  (m.g_ctx.has_first_error = false → first_error_record r.g_ctx = (true, f, b, 0)) ∧
  (m.g_ctx.has_first_error = true → first_error_record r.g_ctx = first_error_record m.g_ctx) ∧
  r.g_ctx.end_time = t

/-- A machine in the verify phase with `written` bytes written and `verified`
bytes verified, no first error recorded, no button held, and the statics of
`state_verify` at `fd` and `idx`. -/
def verify_machine (written verified : Nat) (fd : Int) (idx : Nat) : Machine :=
  { boot one_device 1 with
    g_state := AppState.STATE_VERIFY
    g_ctx :=
      { TestContext.zero with
        target := one_device 0, test_dir := "ux0:data/f3vita", files_written := 1,
        bytes_written := written, bytes_verified := verified, current_file := 1,
        start_time := 5, phase_start_time := 6 }
    verify_fd := fd
    verify_current_file_idx := idx }

/-- Reduction of a natural to the range of `uint64_t`. -/
def u64 (x : Nat) : Nat := x % 2 ^ 64

/-- The local `total_secs` of `f3v_ui_results`:
`(uint32_t)((ctx->end_time - ctx->start_time) / 1000000)`, the subtraction
taken on `uint64_t` operands (time stamps below `2^64`). -/
def total_secs (ctx : TestContext) : Nat :=
  u32 (u64 (ctx.end_time + 2 ^ 64 - ctx.start_time) / 1000000)

/-- Every charge of corruption has a recorded location. -/
def Located (ctx : TestContext) : Prop :=
  0 < ctx.bytes_corrupted → ctx.has_first_error = true

/-- A Results state is either cancelled or has every written byte verified. -/
def ScanComplete (m : Machine) : Prop :=
  m.g_state = AppState.STATE_RESULTS →
    m.g_ctx.cancelled = true ∨ m.g_ctx.bytes_written ≤ m.g_ctx.bytes_verified

/-- A pad with all buttons released. -/
def pad_none : PadData :=
  { cross := false, circle := false, up := false, down := false, left := false, right := false,
    start := false }

/-- A platform whose world counts the reads of the pad: the read number `k`
returns `pads k`, the clock shows 5000000 plus the number of pad reads made so
far (it never goes back), the device reports `free` bytes free, opens return
descriptor 3, writes and reads transfer the size asked for, removals
succeed. -/
def scripted_platform (pads : Nat → PadData) (free : Nat) : Platform Nat :=
  { sceCtrlPeekBufferPositive := fun w => (pads w, w + 1)
    sceKernelDelayThread := fun _ w => w
    sceRtcGetCurrentTick := fun w => (5000000 + w, w)
    sceAppMgrGetDevInfo := fun _ w => ((0, 4 * F3V_FILE_SIZE, free), w)
    sceIoMkdir := fun _ w => (0, w)
    sceIoOpen := fun _ _ w => (3, w)
    sceIoWrite := fun _ _ n w => ((n : Int), w)
    sceIoRead := fun _ buf n w => (((n : Int), buf), w)
    sceIoClose := fun _ w => (0, w)
    sceIoRemove := fun _ w => (0, w)
    sceIoRmdir := fun _ w => (0, w) }

/-- The pad of a run that ends in the cleanup: cross is down at the first read
(the menu) and at the fourth read (the results screen), every other read finds
all buttons released. -/
def pads_cleanup : Nat → PadData :=
  fun k => if k = 0 ∨ k = 3 then pad_cross else pad_none

/-- The pad of a cancelled run: cross is down at the first read (the menu),
circle at the second read (the first write tick), then all buttons are
released. -/
def pads_cancel : Nat → PadData :=
  fun k => if k = 0 then pad_cross else if k = 1 then pad_circle else pad_none

/-! ## Lemmas on the codec -/

theorem block_size_val : F3V_BLOCK_SIZE = 1048576 := by decide

theorem expected_byte_eq (f b i : Nat) :
    expected_byte f b i = pattern_byte (pattern_base f b) i := rfl

theorem fill_loop_succ (base n : Nat) (buf : Buffer) :
    fill_loop base (n + 1) buf = (fill_loop base n buf).set n (pattern_byte base n) := by
  simp [fill_loop, List.range_succ, List.foldl_append]

theorem fill_loop_apply (base n : Nat) (buf : Buffer) (i : Nat) :
    fill_loop base n buf i = if i < n then pattern_byte base i else buf i := by
  induction n with
  | zero => simp [fill_loop]
  | succ n ih =>
    rw [fill_loop_succ]
    by_cases h : i = n
    · subst h
      simp [Buffer.set]
    · have hset : (fill_loop base n buf).set n (pattern_byte base n) i = fill_loop base n buf i := by
        simp [Buffer.set, h]
      rw [hset, ih]
      by_cases h2 : i < n
      · have h3 : i < n + 1 := by omega
        simp [h2, h3]
      · have h3 : ¬ i < n + 1 := by omega
        simp [h2, h3]

theorem fill_apply (buf : Buffer) (f b i : Nat) :
    f3v_fill_pattern buf f b i
      = if i < F3V_BLOCK_SIZE then expected_byte f b i else buf i := by
  simp only [f3v_fill_pattern, fill_loop_apply, expected_byte_eq]

theorem fill_apply_lt (buf : Buffer) (f b i : Nat) (h : i < F3V_BLOCK_SIZE) :
    f3v_fill_pattern buf f b i = expected_byte f b i := by
  rw [fill_apply, if_pos h]

theorem verify_loop_succ (buf : Buffer) (base n : Nat) (s : VerifyState) :
    verify_loop buf base (n + 1) s = verify_step buf base (verify_loop buf base n s) n := by
  simp [verify_loop, List.range_succ, List.foldl_append]

theorem filter_range_length_le (q : Nat → Bool) (n : Nat) :
    ((List.range n).filter q).length ≤ n := by
  have h := List.length_filter_le q (List.range n)
  simpa using h

theorem verify_loop_closed (buf : Buffer) (base : Nat) (p : Option Nat) (n : Nat)
    (hn : n < 2 ^ 32) :
    verify_loop buf base n { corrupted := 0, found_first := false, out := p }
      = verify_closed buf base n p := by
  induction n with
  | zero => cases p <;> simp [verify_loop, verify_closed]
  | succ n ih =>
    rw [verify_loop_succ, ih (by omega)]
    have hlen := filter_range_length_le (bad buf base) n
    by_cases hb : buf n = pattern_byte base n
    · have hbad : bad buf base n = false := by simp [bad, hb]
      cases p <;>
        simp [verify_step, verify_closed, hb, hbad, List.range_succ, List.filter_append,
          List.find?_append]
    · have hbad : bad buf base n = true := by simp [bad, hb]
      have hmod : ((List.range n).filter (bad buf base)).length + 1 < 4294967296 := by
        norm_num at hn
        omega
      cases p with
      | none =>
        simp [verify_step, verify_closed, hb, hbad, List.range_succ, List.filter_append,
          List.find?_append, u32, hmod]
      | some v =>
        cases hf : (List.range n).find? (bad buf base) <;>
          simp [verify_step, verify_closed, hb, hbad, List.range_succ, List.filter_append,
            List.find?_append, u32, hmod, hf]

theorem verify_eq_closed (buf : Buffer) (f b : Nat) (p : Option Nat) :
    f3v_verify_pattern buf f b p
      = ((verify_closed buf (pattern_base f b) F3V_BLOCK_SIZE p).corrupted,
         (verify_closed buf (pattern_base f b) F3V_BLOCK_SIZE p).out) := by
  have h : F3V_BLOCK_SIZE < 2 ^ 32 := by decide
  simp only [f3v_verify_pattern, verify_loop_closed buf (pattern_base f b) p F3V_BLOCK_SIZE h]

theorem find_range_none (q : Nat → Bool) (n : Nat) :
    (List.range n).find? q = none ↔ ∀ i, i < n → q i = false := by
  simp [List.find?_eq_none]

theorem find_range_some (q : Nat → Bool) (n m : Nat)
    (h : (List.range n).find? q = some m) :
    m < n ∧ q m = true ∧ ∀ j, j < m → q j = false := by
  induction n with
  | zero => simp at h
  | succ n ih =>
    rw [List.range_succ, List.find?_append] at h
    cases hf : (List.range n).find? q with
    | some k =>
      rw [hf] at h
      simp at h
      subst h
      have := ih hf
      exact ⟨by omega, this.2.1, this.2.2⟩
    | none =>
      rw [hf] at h
      have hnone := (find_range_none q n).1 hf
      by_cases hq : q n = true
      · simp [hq] at h
        subst h
        exact ⟨by omega, hq, hnone⟩
      · simp [hq] at h

theorem filter_range_card (q : Nat → Bool) (n : Nat) :
    ((List.range n).filter q).length
      = ((Finset.range n).filter (fun i => q i = true)).card := by
  induction n with
  | zero => simp
  | succ n ih =>
    rw [List.range_succ, List.filter_append, List.length_append, ih, Finset.range_succ,
      Finset.filter_insert]
    by_cases hq : q n = true
    · have hnot : n ∉ (Finset.range n).filter (fun i => q i = true) := by simp
      simp [hq, Finset.card_insert_of_not_mem hnot]
    · simp [hq]

theorem bad_iff (buf : Buffer) (f b i : Nat) :
    bad buf (pattern_base f b) i = true ↔ buf i ≠ expected_byte f b i := by
  simp [bad, expected_byte_eq]

theorem bad_false_iff (buf : Buffer) (f b i : Nat) :
    bad buf (pattern_base f b) i = false ↔ buf i = expected_byte f b i := by
  simp [bad, expected_byte_eq]

theorem verify_count_eq (buf : Buffer) (f b : Nat) (p : Option Nat) :
    (f3v_verify_pattern buf f b p).1 = (mismatch_set buf f b).card := by
  have hset : (Finset.range F3V_BLOCK_SIZE).filter
      (fun i => bad buf (pattern_base f b) i = true) = mismatch_set buf f b := by
    unfold mismatch_set
    apply Finset.filter_congr
    intro i _
    exact bad_iff buf f b i
  rw [verify_eq_closed]
  simp only [verify_closed]
  rw [filter_range_card, hset]

theorem verify_clean (buf : Buffer) (f b : Nat) (p : Option Nat)
    (h : ∀ i, i < F3V_BLOCK_SIZE → buf i = expected_byte f b i) :
    f3v_verify_pattern buf f b p = (0, p) := by
  have hnone : (List.range F3V_BLOCK_SIZE).find? (bad buf (pattern_base f b)) = none :=
    (find_range_none _ _).2 (fun i hi => (bad_false_iff buf f b i).2 (h i hi))
  have hfil : (List.range F3V_BLOCK_SIZE).filter (bad buf (pattern_base f b)) = [] := by
    rw [List.filter_eq_nil_iff]
    intro i hi
    have := (bad_false_iff buf f b i).2 (h i (List.mem_range.1 hi))
    simp [this]
  rw [verify_eq_closed]
  cases p <;> simp [verify_closed, hnone, hfil]

theorem verify_first (buf : Buffer) (f b v : Nat)
    (h : ∃ i, i < F3V_BLOCK_SIZE ∧ buf i ≠ expected_byte f b i) :
    ∃ m, (f3v_verify_pattern buf f b (some v)).2 = some m ∧ m < F3V_BLOCK_SIZE ∧
      buf m ≠ expected_byte f b m ∧ ∀ j, j < m → buf j = expected_byte f b j := by
  obtain ⟨i, hi, hne⟩ := h
  cases hf : (List.range F3V_BLOCK_SIZE).find? (bad buf (pattern_base f b)) with
  | none =>
    have := (find_range_none _ _).1 hf i hi
    exact absurd ((bad_false_iff buf f b i).1 this) hne
  | some m =>
    have hm := find_range_some _ _ _ hf
    refine ⟨m, ?_, hm.1, (bad_iff buf f b m).1 hm.2.1, ?_⟩
    · rw [verify_eq_closed]
      simp [verify_closed, hf]
    · intro j hj
      exact (bad_false_iff buf f b j).1 (hm.2.2 j hj)

theorem flip_byte_ne (x : Nat) : flip_byte x ≠ x := by
  simp only [flip_byte, u8]
  omega

theorem flip_at_mem (buf : Buffer) (S : Finset Nat) (i : Nat) (h : i ∈ S) :
    flip_at buf S i ≠ buf i := by
  simp only [flip_at, if_pos h]
  exact flip_byte_ne _

theorem flip_at_not_mem (buf : Buffer) (S : Finset Nat) (i : Nat) (h : i ∉ S) :
    flip_at buf S i = buf i := by
  simp only [flip_at, if_neg h]

theorem mismatch_set_eq (buf0 buf : Buffer) (f b : Nat) (S : Finset Nat)
    (hsub : ∀ i ∈ S, i < F3V_BLOCK_SIZE)
    (hin : ∀ i ∈ S, buf i ≠ f3v_fill_pattern buf0 f b i)
    (hout : ∀ i, i < F3V_BLOCK_SIZE → i ∉ S → buf i = f3v_fill_pattern buf0 f b i) :
    mismatch_set buf f b = S := by
  ext i
  unfold mismatch_set
  rw [Finset.mem_filter, Finset.mem_range]
  constructor
  · rintro ⟨hi, hne⟩
    by_contra hmem
    exact hne ((hout i hi hmem).trans (fill_apply_lt buf0 f b i hi))
  · intro hmem
    refine ⟨hsub i hmem, ?_⟩
    have := hin i hmem
    rwa [fill_apply_lt buf0 f b i (hsub i hmem)] at this

/-! ## Theorems on the codec -/

/-- C1. Round trip: verifying the block produced by `f3v_fill_pattern` for
`(f, b)` against the same `(f, b)` returns count 0 and leaves the first-offset
cell as the caller passed it (absent or holding its old value), for all
indices and every previous buffer content. -/
theorem C1_round_trip (buf0 : Buffer) (f b : Nat) (p : Option Nat) :
    f3v_verify_pattern (f3v_fill_pattern buf0 f b) f b p = (0, p) :=
  verify_clean _ f b p (fun i hi => fill_apply_lt buf0 f b i hi)

/-- C2. Fill formula: after `f3v_fill_pattern` the byte at every offset
`i < F3V_BLOCK_SIZE = 1048576` is `(value >> ((i & 3) * 8)) & 0xFF` with
`value = ((file_idx << 24) XOR (block_idx << 16)) XOR i` in 32-bit arithmetic,
whatever the buffer held before: every byte of the block is written. -/
theorem C2_fill_formula (buf : Buffer) (file_idx block_idx i : Nat)
    (hi : i < F3V_BLOCK_SIZE) :
    F3V_BLOCK_SIZE = 1048576 ∧
    f3v_fill_pattern buf file_idx block_idx i = spec_byte file_idx block_idx i ∧
    ∀ buf2 : Buffer, f3v_fill_pattern buf2 file_idx block_idx i
      = f3v_fill_pattern buf file_idx block_idx i := by
  refine ⟨by decide, ?_, ?_⟩
  · rw [fill_apply_lt buf file_idx block_idx i hi]
    simp only [expected_byte, spec_byte, u32, u8]
    exact (Nat.and_pow_two_sub_one_eq_mod _ 8).symm
  · intro buf2
    rw [fill_apply_lt buf file_idx block_idx i hi, fill_apply_lt buf2 file_idx block_idx i hi]

/-- Witness of C2 at the indices of `test_fill_large_indices` and the last
offset of the block. -/
theorem C2_fill_formula_witness :
    1048575 < F3V_BLOCK_SIZE ∧
    f3v_fill_pattern (fun _ => 0) 255 65535 1048575 = spec_byte 255 65535 1048575 :=
  ⟨by decide, (C2_fill_formula (fun _ => 0) 255 65535 1048575 (by decide)).2.1⟩

/-- C3. Verify count: the value returned by `f3v_verify_pattern` is the number
of offsets of the block at which the buffer differs from the expected byte,
and it is 0 exactly when the buffer equals the filled block. -/
theorem C3_verify_count (buf buf0 : Buffer) (f b : Nat) (p : Option Nat) :
    (f3v_verify_pattern buf f b p).1 = (mismatch_set buf f b).card ∧
    ((f3v_verify_pattern buf f b p).1 = 0 ↔
      ∀ i, i < F3V_BLOCK_SIZE → buf i = f3v_fill_pattern buf0 f b i) := by
  refine ⟨verify_count_eq buf f b p, ?_⟩
  rw [verify_count_eq, Finset.card_eq_zero]
  unfold mismatch_set
  rw [Finset.filter_eq_empty_iff]
  constructor
  · intro h i hi
    rw [fill_apply_lt buf0 f b i hi]
    exact not_not.1 (h (Finset.mem_range.2 hi))
  · intro h i hi
    have := h i (Finset.mem_range.1 hi)
    rw [fill_apply_lt buf0 f b i (Finset.mem_range.1 hi)] at this
    exact not_not.2 this

/-- C4. Verify first offset: when the buffer has a mismatching byte and the
first-offset output is requested, `f3v_verify_pattern` leaves in it the lowest
offset at which the buffer differs from the expected byte. -/
theorem C4_verify_first_offset (buf : Buffer) (f b v : Nat)
    (h : ∃ i, i < F3V_BLOCK_SIZE ∧ buf i ≠ expected_byte f b i) :
    ∃ m, (f3v_verify_pattern buf f b (some v)).2 = some m ∧ m < F3V_BLOCK_SIZE ∧
      buf m ≠ expected_byte f b m ∧ ∀ j, j < m → buf j = expected_byte f b j :=
  verify_first buf f b v h

/-- Witness of C4 on the buffer of `test_verify_first_error_offset`: the block
of (2, 3) with the bytes at 200 and at 100 complemented. -/
theorem C4_verify_first_offset_witness :
    ∃ m, (f3v_verify_pattern (flip_at (f3v_fill_pattern (fun _ => 0) 2 3) {200, 100})
        2 3 (some 4294967295)).2 = some m ∧ m < F3V_BLOCK_SIZE ∧
      flip_at (f3v_fill_pattern (fun _ => 0) 2 3) {200, 100} m ≠ expected_byte 2 3 m ∧
      ∀ j, j < m → flip_at (f3v_fill_pattern (fun _ => 0) 2 3) {200, 100} j
        = expected_byte 2 3 j :=
  C4_verify_first_offset (flip_at (f3v_fill_pattern (fun _ => 0) 2 3) {200, 100}) 2 3
    4294967295
    ⟨100, by decide, by
      have h := flip_at_mem (f3v_fill_pattern (fun _ => 0) 2 3) {200, 100} 100 (by decide)
      rwa [fill_apply_lt (fun _ => 0) 2 3 100 (by decide)] at h⟩

/-- C5. Corruption counting: a buffer that agrees with the block filled for
`(f, b)` outside a non-empty set `S` of offsets of the block and differs from
it at every offset of `S` verifies with count `|S|` and first offset `min S`. -/
theorem C5_corruption_counting (buf0 buf : Buffer) (f b v : Nat) (S : Finset Nat)
    (hS : S.Nonempty)
    (hsub : ∀ i ∈ S, i < F3V_BLOCK_SIZE)
    (hin : ∀ i ∈ S, buf i ≠ f3v_fill_pattern buf0 f b i)
    (hout : ∀ i, i < F3V_BLOCK_SIZE → i ∉ S → buf i = f3v_fill_pattern buf0 f b i) :
    f3v_verify_pattern buf f b (some v) = (S.card, some (S.min' hS)) := by
  have hset := mismatch_set_eq buf0 buf f b S hsub hin hout
  have hcount := verify_count_eq buf f b (some v)
  rw [hset] at hcount
  obtain ⟨i, hi⟩ := hS
  have hex : ∃ i, i < F3V_BLOCK_SIZE ∧ buf i ≠ expected_byte f b i := by
    refine ⟨i, hsub i hi, ?_⟩
    have := hin i hi
    rwa [fill_apply_lt buf0 f b i (hsub i hi)] at this
  obtain ⟨m, hm, hlt, hne, hlow⟩ := verify_first buf f b v hex
  have hmS : m ∈ S := by
    rw [← hset]
    unfold mismatch_set
    exact Finset.mem_filter.2 ⟨Finset.mem_range.2 hlt, hne⟩
  have hmin : S.min' ⟨i, hi⟩ = m := by
    apply le_antisymm (Finset.min'_le S m hmS)
    apply Finset.le_min'
    intro y hy
    by_contra hlt2
    have hy2 : y < m := Nat.lt_of_not_le hlt2
    have hbad := hin y hy
    rw [fill_apply_lt buf0 f b y (hsub y hy)] at hbad
    exact hbad (hlow y hy2)
  apply Prod.ext
  · exact hcount
  · rw [hm, hmin]

/-- Witness of C5, the concrete case of the specification: the block of (1, 0)
with the bytes at 10, 50, 100, 500 and 1000 complemented gives (5, 10). -/
theorem C5_corruption_counting_witness :
    f3v_verify_pattern (flip_at (f3v_fill_pattern (fun _ => 0) 1 0) {10, 50, 100, 500, 1000})
      1 0 (some 0) = (5, some 10) := by
  have h := C5_corruption_counting (fun _ => 0)
    (flip_at (f3v_fill_pattern (fun _ => 0) 1 0) {10, 50, 100, 500, 1000}) 1 0 0
    {10, 50, 100, 500, 1000} ⟨10, by decide⟩ (by decide)
    (fun i hi => flip_at_mem _ _ i hi) (fun i _ hi => flip_at_not_mem _ _ i hi)
  have hmin : ({10, 50, 100, 500, 1000} : Finset Nat).min' ⟨10, by decide⟩ = 10 :=
    le_antisymm (Finset.min'_le _ 10 (by decide)) (Finset.le_min' _ _ _ (by decide))
  rw [hmin] at h
  exact h

/-! ## Lemmas on the state machine -/

theorem record_first_error_of_set (ctx : TestContext) (f b o : Nat)
    (h : ctx.has_first_error = true) : record_first_error ctx f b o = ctx := by
  unfold record_first_error
  rw [if_neg]
  rw [h]
  exact Bool.noConfusion

theorem first_error_record_has_space {W : Type} (P : Platform W) (ctx : TestContext) (w : W) :
    first_error_record (f3v_has_space P ctx w).2.1 = first_error_record ctx := rfl

theorem first_error_record_enter_verify {W : Type} (P : Platform W) (m : Machine) (w : W) :
    first_error_record (enter_verify P m w).1.g_ctx = first_error_record m.g_ctx := rfl

theorem first_error_record_write_block {W : Type} (P : Platform W) (m : Machine)
    (f b : Nat) (w : W) :
    first_error_record (write_block P m f b w).1.g_ctx = first_error_record m.g_ctx := by
  unfold write_block
  dsimp only
  split_ifs
  · rfl
  · rfl

theorem first_error_record_state_write {W : Type} (P : Platform W) (m : Machine) (w : W) :
    first_error_record (state_write P m w).1.g_ctx = first_error_record m.g_ctx := by
  unfold state_write
  dsimp only
  split_ifs
  all_goals first | rfl | (rw [first_error_record_write_block]; rfl)

theorem first_error_record_verify_block {W : Type} (P : Platform W) (m : Machine)
    (f b : Nat) (w : W) (h : m.g_ctx.has_first_error = true) :
    first_error_record (verify_block P m f b w).1.g_ctx = first_error_record m.g_ctx := by
  unfold verify_block
  dsimp only
  split_ifs
  all_goals first
    | rfl
    | (rw [record_first_error_of_set] <;> first | rfl | exact h)

theorem first_error_record_state_verify {W : Type} (P : Platform W) (m : Machine) (w : W)
    (h : m.g_ctx.has_first_error = true) :
    first_error_record (state_verify P m w).1.g_ctx = first_error_record m.g_ctx := by
  unfold state_verify
  dsimp only
  split_ifs
  all_goals first
    | rfl
    | (rw [record_first_error_of_set] <;> first | rfl | exact h)
    | (rw [first_error_record_verify_block]; first | rfl | exact h)

theorem first_error_record_state_results {W : Type} (P : Platform W) (m : Machine) (w : W) :
    first_error_record (state_results P m w).1.g_ctx = first_error_record m.g_ctx := by
  unfold state_results
  dsimp only
  split_ifs <;> rfl

theorem g_ctx_state_cleanup {W : Type} (P : Platform W) (fuel : Nat) (m : Machine) (w : W)
    (r : Machine × W) (h : state_cleanup P fuel m w = some r) : r.1.g_ctx = m.g_ctx := by
  unfold state_cleanup at h
  split at h
  · exact absurd h (by simp)
  · split at h
    · exact absurd h (by simp)
    · simp only [Option.some.injEq] at h
      rw [← h]

@[simp] theorem record_first_error_bytes_corrupted (ctx : TestContext) (f b o : Nat) :
    (record_first_error ctx f b o).bytes_corrupted = ctx.bytes_corrupted := by
  unfold record_first_error; split <;> rfl

@[simp] theorem record_first_error_bytes_verified (ctx : TestContext) (f b o : Nat) :
    (record_first_error ctx f b o).bytes_verified = ctx.bytes_verified := by
  unfold record_first_error; split <;> rfl

@[simp] theorem record_first_error_bytes_written (ctx : TestContext) (f b o : Nat) :
    (record_first_error ctx f b o).bytes_written = ctx.bytes_written := by
  unfold record_first_error; split <;> rfl

theorem verify_count_le (buf : Buffer) (f b : Nat) (p : Option Nat) :
    (f3v_verify_pattern buf f b p).1 ≤ F3V_BLOCK_SIZE := by
  rw [verify_eq_closed]
  simp only [verify_closed]
  exact filter_range_length_le (bad buf (pattern_base f b)) F3V_BLOCK_SIZE

theorem verify_block_state {W : Type} (P : Platform W) (m : Machine) (f b : Nat) (w : W) :
    (verify_block P m f b w).1.g_state = m.g_state := by
  unfold verify_block
  dsimp only
  split_ifs <;> rfl

theorem ledger_verify_block {W : Type} (P : Platform W) (m : Machine)
    (f b : Nat) (w : W) (hread : ReadsBounded P) (hs : ¬ BeforeVerify m.g_state)
    (hlt : m.g_ctx.bytes_verified < m.g_ctx.bytes_written)
    (h : LedgerInv P m) : LedgerInv P (verify_block P m f b w).1 := by
  obtain ⟨_, h2, h3⟩ := h
  have hb := hread m.verify_fd m.g_buffer F3V_BLOCK_SIZE w
  have hc := verify_count_le (f3v_read_block P m.verify_fd m.g_buffer F3V_BLOCK_SIZE w).1.2 f b
    (some 0)
  refine ⟨fun hbv => absurd (by rwa [verify_block_state] at hbv) hs, ?_, ?_⟩
  · unfold verify_block
    dsimp only
    unfold f3v_read_block
    rw [block_size_val] at *
    split_ifs
    all_goals simp
    all_goals omega
  · intro hw
    obtain ⟨a1, a2, a3, a4⟩ := h3 hw
    have hwr := hw.2 m.verify_fd m.g_buffer F3V_BLOCK_SIZE w
    unfold verify_block
    dsimp only
    unfold f3v_read_block at *
    rw [block_size_val] at *
    split_ifs
    all_goals simp
    all_goals omega

theorem ledger_of_zero {W : Type} (P : Platform W) (m : Machine)
    (h1 : m.g_ctx.bytes_written = 0) (h2 : m.g_ctx.bytes_verified = 0)
    (h3 : m.g_ctx.bytes_corrupted = 0) : LedgerInv P m := by
  unfold LedgerInv
  rw [h1, h2, h3, block_size_val]
  simp

theorem ledger_of_same {W : Type} (P : Platform W) (m m2 : Machine)
    (h1 : m2.g_ctx.bytes_written = m.g_ctx.bytes_written)
    (h2 : m2.g_ctx.bytes_verified = m.g_ctx.bytes_verified)
    (h3 : m2.g_ctx.bytes_corrupted = m.g_ctx.bytes_corrupted)
    (hs : BeforeVerify m2.g_state → BeforeVerify m.g_state)
    (h : LedgerInv P m) : LedgerInv P m2 := by
  unfold LedgerInv at *
  rw [h1, h2, h3]
  exact ⟨fun hb => h.1 (hs hb), h.2⟩

theorem state_verify_state {W : Type} (P : Platform W) (m : Machine) (w : W)
    (hs : m.g_state = AppState.STATE_VERIFY) :
    (state_verify P m w).1.g_state = AppState.STATE_VERIFY ∨
    (state_verify P m w).1.g_state = AppState.STATE_RESULTS := by
  unfold state_verify
  dsimp only
  split_ifs
  all_goals first
    | (right; rfl)
    | (left; rw [verify_block_state]; exact hs)

theorem ledger_state_verify {W : Type} (P : Platform W) (m : Machine) (w : W)
    (hread : ReadsBounded P) (hs : m.g_state = AppState.STATE_VERIFY)
    (h : LedgerInv P m) : LedgerInv P (state_verify P m w).1 := by
  have hnb : ¬ BeforeVerify m.g_state := by simp [BeforeVerify, hs]
  unfold state_verify
  dsimp only
  split_ifs with c1 c2 c3 c4
  · exact ledger_of_same P m _ rfl rfl rfl (fun hb => by simp [BeforeVerify] at hb) h
  · exact ledger_of_same P m _ rfl rfl rfl (fun hb => by simp [BeforeVerify] at hb) h
  all_goals first
    | (apply ledger_verify_block P _ _ _ _ hread
       · exact hnb
       · exact Nat.lt_of_not_le c2
       · exact ledger_of_same P m _ rfl rfl rfl (fun hb => hb) h)
    | (obtain ⟨_, h2, h3⟩ := h
       refine ⟨fun hb => by simp [BeforeVerify] at hb, ?_, ?_⟩
       · simp
         rw [block_size_val]
         omega
       · intro hw
         obtain ⟨a1, a2, a3, a4⟩ := h3 hw
         refine ⟨?_, ?_, ?_, ?_⟩
         all_goals (try simp)
         all_goals first | exact a1 | omega)

theorem write_block_counters {W : Type} (P : Platform W) (m : Machine) (f b : Nat) (w : W)
    (h2 : m.g_ctx.bytes_verified = 0) :
    (write_block P m f b w).1.g_ctx.bytes_verified = 0 ∧
    (write_block P m f b w).1.g_ctx.bytes_corrupted = m.g_ctx.bytes_corrupted ∧
    ((write_block P m f b w).1.g_ctx.bytes_written = m.g_ctx.bytes_written ∨
      (0 < (P.sceIoWrite m.write_fd (f3v_fill_pattern m.g_buffer f b) F3V_BLOCK_SIZE w).1 ∧
       (write_block P m f b w).1.g_ctx.bytes_written = m.g_ctx.bytes_written +
        (P.sceIoWrite m.write_fd (f3v_fill_pattern m.g_buffer f b) F3V_BLOCK_SIZE w).1.toNat)) := by
  unfold write_block
  dsimp only
  unfold f3v_write_block
  split_ifs with c
  · exact ⟨rfl, rfl, Or.inl rfl⟩
  · exact ⟨h2, rfl, Or.inr ⟨Int.lt_of_not_ge c, rfl⟩⟩

theorem ledger_of_write {W : Type} (P : Platform W) (m m2 : Machine)
    (fd : Int) (buf : Buffer) (w : W)
    (hm : m.g_ctx.bytes_verified = 0 ∧ m.g_ctx.bytes_corrupted = 0)
    (hc : m2.g_ctx.bytes_verified = 0 ∧
      m2.g_ctx.bytes_corrupted = m.g_ctx.bytes_corrupted ∧
      (m2.g_ctx.bytes_written = m.g_ctx.bytes_written ∨
        (0 < (P.sceIoWrite fd buf F3V_BLOCK_SIZE w).1 ∧
          m2.g_ctx.bytes_written = m.g_ctx.bytes_written +
            (P.sceIoWrite fd buf F3V_BLOCK_SIZE w).1.toNat)))
    (h : LedgerInv P m) : LedgerInv P m2 := by
  obtain ⟨_, h2, h3⟩ := h
  obtain ⟨c1, c2, c3⟩ := hc
  refine ⟨fun _ => ⟨c1, by rw [c2]; exact hm.2⟩, ?_, ?_⟩
  · rw [c1, block_size_val]
    omega
  · intro hw
    obtain ⟨a1, a2, a3, a4⟩ := h3 hw
    have hwr := hw.1 fd buf F3V_BLOCK_SIZE w
    rw [c1, c2, hm.2]
    rw [block_size_val] at *
    rcases c3 with c3 | ⟨c3, c4⟩
    · rw [c3]
      refine ⟨a1, by simp, by omega, by omega⟩
    · rw [c4]
      refine ⟨?_, by simp, by omega, by omega⟩
      omega

theorem ledger_state_write {W : Type} (P : Platform W) (m : Machine) (w : W)
    (hs : m.g_state = AppState.STATE_WRITE)
    (h : LedgerInv P m) : LedgerInv P (state_write P m w).1 := by
  have hz := h.1 (Or.inr hs)
  unfold state_write
  dsimp only
  split_ifs
  all_goals first
    | exact ledger_of_same P m _ rfl rfl rfl (fun hb => by simp [BeforeVerify] at hb) h
    | exact ledger_of_write P m _ 0 m.g_buffer w hz ⟨rfl, rfl, Or.inl rfl⟩ h
    | exact ledger_of_write P m _ _ _ _ hz (write_block_counters P _ _ _ _ hz.1) h

theorem create_test_dir_fresh {W : Type} (P : Platform W) (ctx : TestContext) (w : W)
    (h : Fresh ctx) : Fresh (f3v_create_test_dir P ctx w).2.1 := by
  unfold f3v_create_test_dir
  dsimp only
  split_ifs <;> exact h

theorem menu_start_fresh {W : Type} (P : Platform W) (fuel : Nat) (m : Machine) (btn : Nat)
    (w : W) (r : Machine × W) (hr : menu_start P fuel m btn w = some r) :
    Fresh r.1.g_ctx := by
  have hd := create_test_dir_fresh P (start_ctx m) w ⟨rfl, rfl, rfl, rfl⟩
  unfold menu_start at hr
  dsimp only at hr
  split_ifs at hr
  · split at hr
    · exact absurd hr (by simp)
    · simp only [Option.some.injEq] at hr
      rw [← hr]
      exact hd
  · simp only [Option.some.injEq] at hr
    rw [← hr]
    exact ⟨rfl, hd.2.1, hd.2.2.1, hd.2.2.2⟩
  · simp only [Option.some.injEq] at hr
    rw [← hr]
    exact ⟨rfl, hd.2.1, hd.2.2.1, hd.2.2.2⟩

theorem menu_move_ctx (m : Machine) (btn : Nat) :
    (menu_move m btn).g_ctx = m.g_ctx ∧ (menu_move m btn).g_state = m.g_state := by
  unfold menu_move
  dsimp only
  split_ifs <;> exact ⟨rfl, rfl⟩

theorem state_menu_ctx {W : Type} (P : Platform W) (fuel : Nat) (m : Machine) (w : W)
    (r : Machine × W) (hr : state_menu P fuel m w = some r) :
    Fresh r.1.g_ctx ∨
    (r.1.g_ctx = m.g_ctx ∧
      (r.1.g_state = m.g_state ∨ r.1.g_state = AppState.STATE_EXIT)) := by
  unfold state_menu at hr
  dsimp only at hr
  split_ifs at hr
  all_goals first
    | (left; exact menu_start_fresh P fuel _ _ _ r hr)
    | (right
       simp only [Option.some.injEq] at hr
       rw [← hr]
       first
         | exact ⟨rfl, Or.inr rfl⟩
         | exact ⟨rfl, Or.inl rfl⟩
         | exact ⟨(menu_move_ctx _ _).1, Or.inr rfl⟩
         | exact ⟨(menu_move_ctx _ _).1, Or.inl (menu_move_ctx _ _).2⟩)

theorem state_results_ctx {W : Type} (P : Platform W) (m : Machine) (w : W)
    (hs : m.g_state = AppState.STATE_RESULTS) :
    (state_results P m w).1.g_ctx.bytes_written = m.g_ctx.bytes_written ∧
    (state_results P m w).1.g_ctx.bytes_verified = m.g_ctx.bytes_verified ∧
    (state_results P m w).1.g_ctx.bytes_corrupted = m.g_ctx.bytes_corrupted ∧
    (state_results P m w).1.g_ctx.has_first_error = m.g_ctx.has_first_error ∧
    ¬ BeforeVerify (state_results P m w).1.g_state := by
  unfold state_results
  dsimp only
  split_ifs
  all_goals simp [BeforeVerify, hs]

theorem state_cleanup_state {W : Type} (P : Platform W) (fuel : Nat) (m : Machine) (w : W)
    (r : Machine × W) (h : state_cleanup P fuel m w = some r) :
    r.1.g_state = AppState.STATE_EXIT := by
  unfold state_cleanup at h
  split at h
  · exact absurd h (by simp)
  · split at h
    · exact absurd h (by simp)
    · simp only [Option.some.injEq] at h
      rw [← h]

theorem ledger_tick {W : Type} (P : Platform W) (fuel : Nat) (m : Machine) (w : W)
    (r : Machine × W) (hread : ReadsBounded P) (hr : tick P fuel m w = some r)
    (h : LedgerInv P m) : LedgerInv P r.1 := by
  unfold tick at hr
  split at hr
  next hs =>
    rcases state_menu_ctx P fuel m w r hr with hf | ⟨hc, hst⟩
    · exact ledger_of_zero P r.1 hf.1 hf.2.1 hf.2.2.1
    · refine ledger_of_same P m r.1 (by rw [hc]) (by rw [hc]) (by rw [hc]) ?_ h
      intro _
      exact Or.inl hs
  next hs =>
    simp only [Option.some.injEq] at hr
    rw [← hr]
    exact ledger_state_write P m w hs h
  next hs =>
    simp only [Option.some.injEq] at hr
    rw [← hr]
    exact ledger_state_verify P m w hread hs h
  next hs =>
    simp only [Option.some.injEq] at hr
    rw [← hr]
    have hc := state_results_ctx P m w hs
    exact ledger_of_same P m _ hc.1 hc.2.1 hc.2.2.1 (fun hb => absurd hb hc.2.2.2.2) h
  next hs =>
    have hc := g_ctx_state_cleanup P fuel m w r hr
    have hst := state_cleanup_state P fuel m w r hr
    refine ledger_of_same P m r.1 (by rw [hc]) (by rw [hc]) (by rw [hc]) ?_ h
    intro hb
    rw [hst] at hb
    simp [BeforeVerify] at hb
  next hs =>
    simp only [Option.some.injEq] at hr
    rw [← hr]
    refine ledger_of_same P m _ rfl rfl rfl ?_ h
    intro hb
    simp [BeforeVerify] at hb

theorem ledger_reachable {W : Type} (P : Platform W) (m : Machine) (w : W)
    (hread : ReadsBounded P) (h : Reachable P m w) : LedgerInv P m := by
  induction h with
  | boot devices count w => exact ledger_of_zero P _ rfl rfl rfl
  | step fuel m w m2 w2 _ _ ht ih => exact ledger_tick P fuel m w (m2, w2) hread ht ih

theorem flag_backed_verify_block {W : Type} (P : Platform W) (m : Machine)
    (f b : Nat) (w : W) (h : FlagBacked m.g_ctx) :
    FlagBacked (verify_block P m f b w).1.g_ctx := by
  unfold FlagBacked at h ⊢
  unfold verify_block
  dsimp only
  split_ifs
  all_goals first
    | exact h
    | (intro _; simp [block_size_val]; done)
    | (intro _; simp; omega)

theorem flag_backed_state_verify {W : Type} (P : Platform W) (m : Machine) (w : W)
    (h : FlagBacked m.g_ctx) : FlagBacked (state_verify P m w).1.g_ctx := by
  unfold state_verify
  dsimp only
  split_ifs
  all_goals first
    | exact h
    | exact flag_backed_verify_block P _ _ _ _ h
    | (intro _; simp; omega)

theorem flag_backed_write_block {W : Type} (P : Platform W) (m : Machine)
    (f b : Nat) (w : W) (h : FlagBacked m.g_ctx) :
    FlagBacked (write_block P m f b w).1.g_ctx := by
  unfold write_block
  dsimp only
  split_ifs
  all_goals exact h

theorem flag_backed_state_write {W : Type} (P : Platform W) (m : Machine) (w : W)
    (h : FlagBacked m.g_ctx) : FlagBacked (state_write P m w).1.g_ctx := by
  unfold state_write
  dsimp only
  split_ifs
  all_goals first
    | exact h
    | exact flag_backed_write_block P _ _ _ _ h

theorem flag_backed_state_results {W : Type} (P : Platform W) (m : Machine) (w : W)
    (h : FlagBacked m.g_ctx) : FlagBacked (state_results P m w).1.g_ctx := by
  unfold state_results
  dsimp only
  split_ifs
  all_goals exact h

theorem flag_backed_tick {W : Type} (P : Platform W) (fuel : Nat) (m : Machine) (w : W)
    (r : Machine × W) (hr : tick P fuel m w = some r)
    (h : FlagBacked m.g_ctx) : FlagBacked r.1.g_ctx := by
  unfold tick at hr
  split at hr
  next hs =>
    rcases state_menu_ctx P fuel m w r hr with hf | ⟨hc, _⟩
    · intro hset
      rw [hf.2.2.2] at hset
      exact absurd hset (by simp)
    · rw [hc]
      exact h
  next hs =>
    simp only [Option.some.injEq] at hr
    rw [← hr]
    exact flag_backed_state_write P m w h
  next hs =>
    simp only [Option.some.injEq] at hr
    rw [← hr]
    exact flag_backed_state_verify P m w h
  next hs =>
    simp only [Option.some.injEq] at hr
    rw [← hr]
    exact flag_backed_state_results P m w h
  next hs =>
    rw [g_ctx_state_cleanup P fuel m w r hr]
    exact h
  next hs =>
    simp only [Option.some.injEq] at hr
    rw [← hr]
    exact h

theorem flag_backed_reachable {W : Type} (P : Platform W) (m : Machine) (w : W)
    (h : Reachable P m w) : FlagBacked m.g_ctx := by
  induction h with
  | boot devices count w =>
    intro hset
    exact absurd hset (by simp [boot, TestContext.zero])
  | step fuel m w m2 w2 _ _ ht ih => exact flag_backed_tick P fuel m w (m2, w2) ht ih

theorem main_loop_reachable {W : Type} (P : Platform W) (fuel n : Nat) (m : Machine) (w : W)
    (m2 : Machine) (w2 : W) (h : Reachable P m w)
    (hr : main_loop P fuel n m w = some (m2, w2)) : Reachable P m2 w2 := by
  induction n generalizing m w with
  | zero =>
    simp only [main_loop, Option.some.injEq, Prod.mk.injEq] at hr
    rw [← hr.1, ← hr.2]
    exact h
  | succ n ih =>
    unfold main_loop at hr
    split_ifs at hr with hs
    · simp only [Option.some.injEq, Prod.mk.injEq] at hr
      rw [← hr.1, ← hr.2]
      exact h
    · split at hr
      · exact absurd hr (by simp)
      · next r ht =>
        exact ih r.1 r.2 (Reachable.step fuel m w r.1 r.2 h hs ht) hr

theorem counters_some {W : Type} (o : Option (Machine × W)) (s : AppState) (a b c : Nat)
    (h : counters o = some (s, a, b, c)) :
    ∃ m w, o = some (m, w) ∧ m.g_state = s ∧ m.g_ctx.bytes_written = a ∧
      m.g_ctx.bytes_verified = b ∧ m.g_ctx.bytes_corrupted = c := by
  cases o with
  | none => simp [counters] at h
  | some r =>
    simp only [counters, Option.map_some', Option.some.injEq, Prod.mk.injEq] at h
    exact ⟨r.1, r.2, rfl, h.1, h.2.1, h.2.2.1, h.2.2.2⟩

theorem main_loop_snoc {W : Type} (P : Platform W) (fuel n : Nat) (m : Machine) (w : W)
    (m1 : Machine) (w1 : W) (h : main_loop P fuel n m w = some (m1, w1))
    (hs : m1.g_state ≠ AppState.STATE_EXIT) :
    main_loop P fuel (n + 1) m w = tick P fuel m1 w1 := by
  induction n generalizing m w with
  | zero =>
    simp only [main_loop, Option.some.injEq, Prod.mk.injEq] at h
    obtain ⟨rfl, rfl⟩ := h
    unfold main_loop
    rw [if_neg hs]
    cases tick P fuel m w with
    | none => rfl
    | some r => simp [main_loop]
  | succ n ih =>
    unfold main_loop at h
    split_ifs at h with hm
    · simp only [Option.some.injEq, Prod.mk.injEq] at h
      rw [← h.1] at hs
      exact absurd hm hs
    · rw [main_loop, if_neg hm]
      split at h
      · exact absurd h (by simp)
      · next r ht =>
        exact ih r.1 r.2 h

theorem short_read_run :
    main_loop short_read_platform 0 4 (boot one_device 1) 0 = some (short_read_machine, 3) := by
  rfl

theorem verify_block_read_ok {W : Type} (P : Platform W) (m : Machine) (f b : Nat) (w : W)
    (h : 0 < (P.sceIoRead m.verify_fd m.g_buffer F3V_BLOCK_SIZE w).1.1) :
    (verify_block P m f b w).1.g_ctx.bytes_verified
      = m.g_ctx.bytes_verified + (P.sceIoRead m.verify_fd m.g_buffer F3V_BLOCK_SIZE w).1.1.toNat ∧
    (verify_block P m f b w).1.g_ctx.bytes_corrupted
      = m.g_ctx.bytes_corrupted +
        (f3v_verify_pattern (P.sceIoRead m.verify_fd m.g_buffer F3V_BLOCK_SIZE w).1.2 f b
          (some 0)).1 := by
  unfold verify_block
  dsimp only
  unfold f3v_read_block
  rw [if_neg (Int.not_le.2 h)]
  split_ifs with hc
  · simp
  · simp only [gt_iff_lt, Nat.pos_iff_ne_zero, ne_eq, not_not] at hc
    simp [hc]

theorem card_ge_two_of_mem (S : Finset Nat) (a b : Nat) (hab : a ≠ b) (ha : a ∈ S) (hb : b ∈ S) :
    2 ≤ S.card := by
  have hsub : ({a, b} : Finset Nat) ⊆ S := by
    intro x hx
    rcases Finset.mem_insert.1 hx with h | h
    · rw [h]; exact ha
    · rw [Finset.mem_singleton.1 h]; exact hb
  have := Finset.card_le_card hsub
  rwa [Finset.card_pair hab] at this


theorem state_verify_open_read {W : Type} (P : Platform W) (m : Machine) (w : W)
    (hbtn : (poll_buttons P m w).1 &&& F3V_BTN_CIRCLE = 0)
    (hlt : m.g_ctx.bytes_verified < m.g_ctx.bytes_written)
    (hidx : file_index m.g_ctx.bytes_verified ≠ m.verify_current_file_idx)
    (hopen : 0 ≤ (reopen P m.verify_fd (f3v_open_read P)
        (f3v_get_test_filename m.g_ctx (file_index m.g_ctx.bytes_verified))
        (poll_buttons P m w).2.2).1) :
    state_verify P m w =
      verify_block P
        { m with
          g_last_buttons := (poll_buttons P m w).2.1
          verify_fd := (reopen P m.verify_fd (f3v_open_read P)
            (f3v_get_test_filename m.g_ctx (file_index m.g_ctx.bytes_verified))
            (poll_buttons P m w).2.2).1
          verify_current_file_idx := file_index m.g_ctx.bytes_verified }
        (file_index m.g_ctx.bytes_verified) (block_index m.g_ctx.bytes_verified)
        (reopen P m.verify_fd (f3v_open_read P)
          (f3v_get_test_filename m.g_ctx (file_index m.g_ctx.bytes_verified))
          (poll_buttons P m w).2.2).2 := by
  unfold state_verify
  dsimp only
  rw [if_neg (not_not.2 hbtn), if_neg (Nat.not_le.2 hlt), if_pos hidx, if_neg (Int.not_lt.2 hopen)]

theorem state_verify_same_file {W : Type} (P : Platform W) (m : Machine) (w : W)
    (hbtn : (poll_buttons P m w).1 &&& F3V_BTN_CIRCLE = 0)
    (hlt : m.g_ctx.bytes_verified < m.g_ctx.bytes_written)
    (hidx : file_index m.g_ctx.bytes_verified = m.verify_current_file_idx) :
    state_verify P m w =
      verify_block P { m with g_last_buttons := (poll_buttons P m w).2.1 }
        (file_index m.g_ctx.bytes_verified) (block_index m.g_ctx.bytes_verified)
        (poll_buttons P m w).2.2 := by
  unfold state_verify
  dsimp only
  rw [if_neg (not_not.2 hbtn), if_neg (Nat.not_le.2 hlt), if_neg (not_not.2 hidx)]

theorem failing_read_bounded : ReadsBounded failing_read_platform := by
  intro fd buf n w
  exact Int.ofNat_nonneg n

theorem failing_read_whole : WholeBlocks failing_read_platform :=
  ⟨fun _ _ _ _ => Or.inr rfl, fun _ _ _ _ => Or.inl (le_refl _)⟩

/-- On a platform whose writes and reads either fail or transfer exactly the
bytes asked for, `bytes_corrupted <= bytes_verified` in every reachable state. -/
theorem corrupted_le_verified_whole_blocks {W : Type} (P : Platform W) (m : Machine) (w : W)
    (hread : ReadsBounded P) (hwhole : WholeBlocks P) (hreach : Reachable P m w) :
    m.g_ctx.bytes_corrupted ≤ m.g_ctx.bytes_verified :=
  ((ledger_reachable P m w hread hreach).2.2 hwhole).2.2.2

/-! ## Lemmas on the end-to-end run -/

theorem has_space_bytes_written {W : Type} (P : Platform W) (ctx : TestContext) (w : W) :
    (f3v_has_space P ctx w).2.1.bytes_written = ctx.bytes_written := rfl

theorem state_write_full {W : Type} (P : Platform W) (m : Machine) (w : W)
    (hbtn : (poll_buttons P m w).1 &&& F3V_BTN_CIRCLE = 0)
    (hfull : (f3v_has_space P m.g_ctx (poll_buttons P m w).2.2).1 = false) :
    state_write P m w =
      enter_verify P
        { m with
          g_last_buttons := (poll_buttons P m w).2.1
          g_ctx := (f3v_has_space P m.g_ctx (poll_buttons P m w).2.2).2.1 }
        (f3v_has_space P m.g_ctx (poll_buttons P m w).2.2).2.2 := by
  unfold state_write
  dsimp only
  rw [if_neg (not_not.2 hbtn), if_pos hfull]

theorem state_write_same_file {W : Type} (P : Platform W) (m : Machine) (w : W)
    (hbtn : (poll_buttons P m w).1 &&& F3V_BTN_CIRCLE = 0)
    (hspace : (f3v_has_space P m.g_ctx (poll_buttons P m w).2.2).1 = true)
    (hidx : file_index m.g_ctx.bytes_written = m.write_current_file_idx) :
    state_write P m w =
      write_block P
        { m with
          g_last_buttons := (poll_buttons P m w).2.1
          g_ctx := (f3v_has_space P m.g_ctx (poll_buttons P m w).2.2).2.1 }
        (file_index m.g_ctx.bytes_written) (block_index m.g_ctx.bytes_written)
        (f3v_has_space P m.g_ctx (poll_buttons P m w).2.2).2.2 := by
  unfold state_write
  dsimp only
  rw [if_neg (not_not.2 hbtn), if_neg (by rw [hspace]; exact Bool.noConfusion)]
  simp only [has_space_bytes_written]
  rw [if_neg (not_not.2 hidx)]

theorem state_write_new_file {W : Type} (P : Platform W) (m : Machine) (w : W)
    (hbtn : (poll_buttons P m w).1 &&& F3V_BTN_CIRCLE = 0)
    (hspace : (f3v_has_space P m.g_ctx (poll_buttons P m w).2.2).1 = true)
    (hidx : file_index m.g_ctx.bytes_written ≠ m.write_current_file_idx)
    (hopen : 0 ≤ (reopen P m.write_fd (f3v_open_write P)
      (f3v_get_test_filename (f3v_has_space P m.g_ctx (poll_buttons P m w).2.2).2.1
        (file_index m.g_ctx.bytes_written))
      (f3v_has_space P m.g_ctx (poll_buttons P m w).2.2).2.2).1) :
    state_write P m w =
      write_block P
        { m with
          g_last_buttons := (poll_buttons P m w).2.1
          g_ctx := { (f3v_has_space P m.g_ctx (poll_buttons P m w).2.2).2.1 with
                     files_written := file_index m.g_ctx.bytes_written }
          write_fd := (reopen P m.write_fd (f3v_open_write P)
            (f3v_get_test_filename (f3v_has_space P m.g_ctx (poll_buttons P m w).2.2).2.1
              (file_index m.g_ctx.bytes_written))
            (f3v_has_space P m.g_ctx (poll_buttons P m w).2.2).2.2).1
          write_current_file_idx := file_index m.g_ctx.bytes_written }
        (file_index m.g_ctx.bytes_written) (block_index m.g_ctx.bytes_written)
        (reopen P m.write_fd (f3v_open_write P)
            (f3v_get_test_filename (f3v_has_space P m.g_ctx (poll_buttons P m w).2.2).2.1
              (file_index m.g_ctx.bytes_written))
            (f3v_has_space P m.g_ctx (poll_buttons P m w).2.2).2.2).2 := by
  unfold state_write
  dsimp only
  rw [if_neg (not_not.2 hbtn), if_neg (by rw [hspace]; exact Bool.noConfusion)]
  simp only [has_space_bytes_written]
  rw [if_pos hidx, if_neg (Int.not_lt.2 hopen)]

theorem write_block_ok {W : Type} (P : Platform W) (m : Machine) (f b : Nat) (w : W)
    (hpos : 0 < (f3v_write_block P m.write_fd (f3v_fill_pattern m.g_buffer f b)
      F3V_BLOCK_SIZE w).1) :
    write_block P m f b w =
      ({ m with
          g_buffer := f3v_fill_pattern m.g_buffer f b
          g_ctx := { m.g_ctx with
            bytes_written := m.g_ctx.bytes_written +
              (f3v_write_block P m.write_fd (f3v_fill_pattern m.g_buffer f b)
                F3V_BLOCK_SIZE w).1.toNat } },
       (f3v_write_block P m.write_fd (f3v_fill_pattern m.g_buffer f b) F3V_BLOCK_SIZE w).2) := by
  unfold write_block
  dsimp only
  rw [if_neg (Int.not_le.2 hpos)]

theorem verify_block_clean {W : Type} (P : Platform W) (m : Machine) (f b : Nat) (w : W)
    (hpos : 0 < (f3v_read_block P m.verify_fd m.g_buffer F3V_BLOCK_SIZE w).1.1)
    (hclean : (f3v_verify_pattern (f3v_read_block P m.verify_fd m.g_buffer F3V_BLOCK_SIZE w).1.2
      f b (some 0)).1 = 0) :
    verify_block P m f b w =
      ({ m with
          g_buffer := (f3v_read_block P m.verify_fd m.g_buffer F3V_BLOCK_SIZE w).1.2
          g_ctx := { m.g_ctx with
            bytes_verified := m.g_ctx.bytes_verified +
              (f3v_read_block P m.verify_fd m.g_buffer F3V_BLOCK_SIZE w).1.1.toNat } },
       (f3v_read_block P m.verify_fd m.g_buffer F3V_BLOCK_SIZE w).2) := by
  unfold verify_block
  dsimp only
  rw [if_neg (Int.not_le.2 hpos), if_neg (by rw [hclean]; exact Nat.lt_irrefl 0)]

theorem state_verify_done {W : Type} (P : Platform W) (m : Machine) (w : W)
    (hbtn : (poll_buttons P m w).1 &&& F3V_BTN_CIRCLE = 0)
    (hge : m.g_ctx.bytes_written ≤ m.g_ctx.bytes_verified) :
    state_verify P m w =
      ({ m with
          g_last_buttons := (poll_buttons P m w).2.1
          g_ctx := { m.g_ctx with end_time := (f3v_get_time_usec P (poll_buttons P m w).2.2).1 }
          g_state := AppState.STATE_RESULTS },
       (f3v_get_time_usec P (poll_buttons P m w).2.2).2) := by
  unfold state_verify
  dsimp only
  rw [if_neg (not_not.2 hbtn), if_pos hge]

theorem file_index_block (k : Nat) (hk : k < 2560) :
    file_index (k * F3V_BLOCK_SIZE) = k / 1024 + 1 := by
  simp only [file_index, u32, F3V_BLOCK_SIZE, F3V_FILE_SIZE]
  omega

theorem block_index_block (k : Nat) :
    block_index (k * F3V_BLOCK_SIZE) = k % 1024 := by
  simp only [block_index, u32, F3V_BLOCK_SIZE, F3V_FILE_SIZE]
  omega

theorem ideal_file_inj (a b : Nat) (ha : a < 3) (hb : b < 3)
    (h : ideal_file (a + 1) = ideal_file (b + 1)) : a = b := by
  interval_cases a <;> interval_cases b <;> first | rfl | (exact absurd h (by decide))

theorem test_filename_ideal (ctx : TestContext) (c : Nat) (h : ctx.test_dir = "ux0:data/f3vita") :
    f3v_get_test_filename ctx c = ideal_file c := by
  unfold f3v_get_test_filename ideal_file
  rw [h]

theorem poll_ideal (m : Machine) (st : IdealStore) (h : m.g_last_buttons = 1) :
    poll_buttons ideal_platform m st = (0, 1, st) := by
  have h1 : pad_current pad_cross = 1 := by decide
  have h2 : 1 &&& (0xFFFFFFFF ^^^ 1) = 0 := by decide
  unfold poll_buttons
  rw [h]
  show (pad_current pad_cross &&& (0xFFFFFFFF ^^^ 1), pad_current pad_cross, st) = (0, 1, st)
  rw [h1, h2]

theorem has_space_ideal (ctx : TestContext) (st : IdealStore) :
    f3v_has_space ideal_platform ctx st =
      (decide (st.free_bytes ≥ F3V_BLOCK_SIZE),
       { ctx with target := { ctx.target with total_bytes := 4 * F3V_FILE_SIZE,
                                              free_bytes := st.free_bytes } }, st) := rfl

theorem reopen_write_ideal (fd : Int) (name : String) (st : IdealStore) :
    reopen ideal_platform fd (f3v_open_write ideal_platform) name st
      = ideal_open name OpenMode.wronly_creat_trunc
          (if fd ≥ 0 then (ideal_close fd st).2 else st) := rfl

theorem close_if_files (fd : Int) (st : IdealStore) :
    (if fd ≥ 0 then (ideal_close fd st).2 else st).files = st.files ∧
    (if fd ≥ 0 then (ideal_close fd st).2 else st).free_bytes = st.free_bytes ∧
    (if fd ≥ 0 then (ideal_close fd st).2 else st).next_fd = st.next_fd := by
  split_ifs <;> exact ⟨rfl, rfl, rfl⟩

theorem ideal_write_open (path : String) (pos : Nat) (fd : Int) (buf : Buffer) (n : Nat)
    (st : IdealStore) (h : st.handles fd = some (path, pos)) :
    ideal_write fd buf n st =
      ((n : Int),
       { st with
         files := fun p => if p = path then (st.files path).take pos ++ [buf] else st.files p
         handles := fun d => if d = fd then some (path, pos + 1) else st.handles d
         free_bytes := st.free_bytes - n }) := by
  unfold ideal_write
  rw [h]

theorem stored_append (st : IdealStore) (k : Nat) (hk : k < 2560) (buf : Buffer)
    (files2 : String → List Buffer)
    (hst : Stored st k)
    (hlen : 0 < k → k % 1024 ≠ 0 → (st.files (ideal_file (k / 1024 + 1))).length = k % 1024)
    (hnew : files2 (ideal_file (k / 1024 + 1))
      = (st.files (ideal_file (k / 1024 + 1))).take (k % 1024) ++ [buf])
    (hold : ∀ c, c < k / 1024 → files2 (ideal_file (c + 1)) = st.files (ideal_file (c + 1)))
    (hbuf : ∀ i, i < F3V_BLOCK_SIZE → buf i = expected_byte (k / 1024 + 1) (k % 1024) i) :
    ∀ p, p < k + 1 → ∃ B, (files2 (ideal_file (p / 1024 + 1)))[p % 1024]? = some B ∧
      ∀ i, i < F3V_BLOCK_SIZE → B i = expected_byte (p / 1024 + 1) (p % 1024) i := by
  intro p hp
  by_cases hpk : p = k
  · subst hpk
    refine ⟨buf, ?_, hbuf⟩
    rw [hnew]
    by_cases h0 : p % 1024 = 0
    · rw [h0]
      simp
    · have hl := hlen (by omega) h0
      rw [List.take_of_length_le (by omega)]
      rw [List.getElem?_append_right (by omega), hl]
      simp
  · have hlt : p < k := by omega
    obtain ⟨B, hB, hbytes⟩ := hst p hlt
    refine ⟨B, ?_, hbytes⟩
    by_cases hf : p / 1024 = k / 1024
    · rw [hf] at hB ⊢
      rw [hnew]
      have h0 : k % 1024 ≠ 0 := by omega
      have hl := hlen (by omega) h0
      rw [List.take_of_length_le (by omega)]
      rw [List.getElem?_append_left (by omega)]
      exact hB
    · rw [hold (p / 1024) (by omega)]
      exact hB

theorem block_size_int_pos : (0 : Int) < (F3V_BLOCK_SIZE : Int) := by decide

theorem block_size_toNat : ((F3V_BLOCK_SIZE : Int)).toNat = F3V_BLOCK_SIZE := Int.toNat_natCast _

theorem write_inv_same (k : Nat) (m : Machine) (st : IdealStore) (h : WriteInv k m st)
    (hk : k < 2560) (hsame : k % 1024 ≠ 0) :
    WriteInv (k + 1) (state_write ideal_platform m st).1 (state_write ideal_platform m st).2 := by
  have hpoll := poll_ideal m st h.last
  have hbtn : (poll_buttons ideal_platform m st).1 &&& F3V_BTN_CIRCLE = 0 := by
    rw [hpoll]; exact Nat.zero_and _
  have hkpos : 0 < k := by omega
  have hspace : (f3v_has_space ideal_platform m.g_ctx (poll_buttons ideal_platform m st).2.2).1
      = true := by
    rw [hpoll, has_space_ideal]
    simp only [decide_eq_true_eq, h.free, block_size_val]
    omega
  have hfi : file_index m.g_ctx.bytes_written = k / 1024 + 1 := by
    rw [h.written]; exact file_index_block k hk
  have hbi : block_index m.g_ctx.bytes_written = k % 1024 := by
    rw [h.written]; exact block_index_block k
  have hidx : file_index m.g_ctx.bytes_written = m.write_current_file_idx := by
    rw [hfi, h.cur, if_neg (by omega)]
    omega
  have hfdk := h.fd hkpos
  have hc : (k - 1) / 1024 + 1 = k / 1024 + 1 := by omega
  have hp : (k - 1) % 1024 + 1 = k % 1024 := by omega
  rw [hc, hp] at hfdk
  have hlen := h.len hkpos
  rw [hc, hp] at hlen
  rw [state_write_same_file ideal_platform m st hbtn hspace hidx]
  rw [hpoll, has_space_ideal, hfi, hbi]
  dsimp only
  have hw : ∀ buf, f3v_write_block ideal_platform m.write_fd buf F3V_BLOCK_SIZE st
      = ((F3V_BLOCK_SIZE : Int),
         { st with
           files := fun p => if p = ideal_file (k / 1024 + 1) then
             (st.files (ideal_file (k / 1024 + 1))).take (k % 1024) ++ [buf] else st.files p
           handles := fun d => if d = m.write_fd then some (ideal_file (k / 1024 + 1), k % 1024 + 1)
             else st.handles d
           free_bytes := st.free_bytes - F3V_BLOCK_SIZE }) :=
    fun buf => ideal_write_open _ _ _ buf _ st hfdk
  rw [write_block_ok ideal_platform _ _ _ _ (by rw [hw]; exact block_size_int_pos)]
  dsimp only
  rw [hw]
  dsimp only
  refine
    { state := h.state, written := ?_, verified := h.verified, corrupted := h.corrupted,
      flag := h.flag, cancelled := h.cancelled, dir := h.dir, last := rfl, fw := ?_, cur := ?_,
      fd := ?_, len := ?_, vfd := h.vfd, vcur := h.vcur, free := ?_, nfd := h.nfd, stored := ?_ }
  · show m.g_ctx.bytes_written + (F3V_BLOCK_SIZE : Int).toNat = (k + 1) * F3V_BLOCK_SIZE
    rw [h.written, block_size_toNat]
    ring
  · show m.g_ctx.files_written = _
    rw [h.fw, if_neg (by omega), if_neg (by omega)]
    omega
  · show m.write_current_file_idx = _
    rw [h.cur, if_neg (by omega), if_neg (by omega)]
    omega
  · intro _
    simp only [if_true, Nat.add_sub_cancel]
  · intro _
    simp only [if_true, Nat.add_sub_cancel]
    rw [List.length_append, List.length_take, hlen]
    simp
  · show st.free_bytes - F3V_BLOCK_SIZE = _
    rw [h.free, block_size_val]
    omega
  · apply stored_append st k hk (f3v_fill_pattern m.g_buffer (k / 1024 + 1) (k % 1024)) _
      h.stored
    · intro _ _
      exact hlen
    · simp only [if_true]
    · intro c hc
      have hne : ideal_file (c + 1) ≠ ideal_file (k / 1024 + 1) := by
        intro heq
        have := ideal_file_inj c (k / 1024) (by omega) (by omega) heq
        omega
      simp only [if_neg hne]
    · intro i hi
      exact fill_apply_lt _ _ _ i hi

theorem ideal_open_eq (path : String) (mode : OpenMode) (st : IdealStore) :
    ideal_open path mode st =
      (st.next_fd,
       { st with
         files := fun p =>
           if p = path ∧ mode = OpenMode.wronly_creat_trunc then [] else st.files p
         handles := fun d => if d = st.next_fd then some (path, 0) else st.handles d
         next_fd := st.next_fd + 1 }) := rfl

theorem write_block_ideal (fd : Int) (buf : Buffer) (n : Nat) (st : IdealStore) :
    f3v_write_block ideal_platform fd buf n st = ideal_write fd buf n st := rfl

theorem write_inv_new (k : Nat) (m : Machine) (st : IdealStore) (h : WriteInv k m st)
    (hk : k < 2560) (hnew : k % 1024 = 0) :
    WriteInv (k + 1) (state_write ideal_platform m st).1 (state_write ideal_platform m st).2 := by
  have hpoll := poll_ideal m st h.last
  have hbtn : (poll_buttons ideal_platform m st).1 &&& F3V_BTN_CIRCLE = 0 := by
    rw [hpoll]; exact Nat.zero_and _
  have hspace : (f3v_has_space ideal_platform m.g_ctx (poll_buttons ideal_platform m st).2.2).1
      = true := by
    rw [hpoll, has_space_ideal]
    simp only [decide_eq_true_eq, h.free, block_size_val]
    omega
  have hfi : file_index m.g_ctx.bytes_written = k / 1024 + 1 := by
    rw [h.written]; exact file_index_block k hk
  have hbi : block_index m.g_ctx.bytes_written = k % 1024 := by
    rw [h.written]; exact block_index_block k
  have hidx : file_index m.g_ctx.bytes_written ≠ m.write_current_file_idx := by
    rw [hfi, h.cur]
    split_ifs <;> omega
  have hname : ∀ ctx : TestContext, ctx.test_dir = "ux0:data/f3vita" →
      f3v_get_test_filename ctx (k / 1024 + 1) = ideal_file (k / 1024 + 1) :=
    fun ctx hc => test_filename_ideal ctx _ hc
  have hcl := close_if_files m.write_fd st
  have hopen : 0 ≤ (reopen ideal_platform m.write_fd (f3v_open_write ideal_platform)
      (f3v_get_test_filename
        (f3v_has_space ideal_platform m.g_ctx (poll_buttons ideal_platform m st).2.2).2.1
        (file_index m.g_ctx.bytes_written))
      (f3v_has_space ideal_platform m.g_ctx (poll_buttons ideal_platform m st).2.2).2.2).1 := by
    rw [reopen_write_ideal, ideal_open_eq]
    dsimp only
    rw [hpoll, has_space_ideal]
    dsimp only
    rw [hcl.2.2]
    exact h.nfd
  rw [state_write_new_file ideal_platform m st hbtn hspace hidx hopen]
  rw [hpoll, has_space_ideal, hfi, hbi, hnew]
  dsimp only
  rw [reopen_write_ideal, hname _ (by exact h.dir), ideal_open_eq]
  dsimp only
  generalize (if m.write_fd ≥ 0 then (ideal_close m.write_fd st).2 else st) = st1 at hcl ⊢
  obtain ⟨hf1, hfree1, hn1⟩ := hcl
  rw [write_block_ok ideal_platform _ _ _ _ (by
    rw [write_block_ideal, ideal_write_open (ideal_file (k / 1024 + 1)) 0 _ _ _ _ (by simp)]
    exact block_size_int_pos)]
  dsimp only
  rw [write_block_ideal, ideal_write_open (ideal_file (k / 1024 + 1)) 0 _ _ _ _ (by simp)]
  dsimp only
  refine
    { state := h.state, written := ?_, verified := h.verified, corrupted := h.corrupted,
      flag := h.flag, cancelled := h.cancelled, dir := h.dir, last := rfl, fw := ?_, cur := ?_,
      fd := ?_, len := ?_, vfd := h.vfd, vcur := h.vcur, free := ?_, nfd := ?_, stored := ?_ }
  · show m.g_ctx.bytes_written + (F3V_BLOCK_SIZE : Int).toNat = (k + 1) * F3V_BLOCK_SIZE
    rw [h.written, block_size_toNat]
    ring
  · show k / 1024 + 1 = _
    rw [if_neg (by omega)]
    omega
  · show k / 1024 + 1 = _
    rw [if_neg (by omega)]
    omega
  · intro _
    simp only [if_true, Nat.add_sub_cancel, hnew]
  · intro _
    simp only [if_true, Nat.add_sub_cancel, hnew]
    simp
  · show st1.free_bytes - F3V_BLOCK_SIZE = _
    rw [hfree1, h.free, block_size_val]
    omega
  · show 0 ≤ st1.next_fd + 1
    rw [hn1]
    have := h.nfd
    omega
  · apply stored_append st k hk (f3v_fill_pattern m.g_buffer (k / 1024 + 1) 0) _ h.stored
    · intro _ h0
      exact absurd hnew h0
    · simp only [if_true, hnew]
      simp
    · intro c hc
      have hne : ideal_file (c + 1) ≠ ideal_file (k / 1024 + 1) := by
        intro heq
        have := ideal_file_inj c (k / 1024) (by omega) (by omega) heq
        omega
      simp only [if_neg hne, hne, false_and, if_false, hf1]
    · intro i hi
      rw [hnew]
      exact fill_apply_lt _ _ _ i hi

theorem write_inv_step (k : Nat) (m : Machine) (st : IdealStore) (h : WriteInv k m st)
    (hk : k < 2560) :
    WriteInv (k + 1) (state_write ideal_platform m st).1 (state_write ideal_platform m st).2 := by
  by_cases hnew : k % 1024 = 0
  · exact write_inv_new k m st h hk hnew
  · exact write_inv_same k m st h hk hnew

theorem write_inv_full (m : Machine) (st : IdealStore) (h : WriteInv 2560 m st) :
    VerifyInv 0 (state_write ideal_platform m st).1 (state_write ideal_platform m st).2 := by
  have hpoll := poll_ideal m st h.last
  have hbtn : (poll_buttons ideal_platform m st).1 &&& F3V_BTN_CIRCLE = 0 := by
    rw [hpoll]; exact Nat.zero_and _
  have hfull : (f3v_has_space ideal_platform m.g_ctx (poll_buttons ideal_platform m st).2.2).1
      = false := by
    rw [hpoll, has_space_ideal]
    simp only [decide_eq_false_iff_not, h.free, block_size_val]
    omega
  rw [state_write_full ideal_platform m st hbtn hfull]
  rw [hpoll, has_space_ideal]
  exact
    { state := rfl, written := h.written, verified := by show 0 = 0 * F3V_BLOCK_SIZE; omega,
      corrupted := h.corrupted, flag := h.flag, cancelled := h.cancelled, dir := h.dir,
      last := rfl, fw := by
        show m.g_ctx.files_written = 3
        rw [h.fw]
        decide,
      vcur := h.vcur, vfd := fun h0 => absurd h0 (Nat.lt_irrefl 0), nfd := h.nfd,
      stored := h.stored }

theorem ideal_read_open (path : String) (pos : Nat) (B : Buffer) (fd : Int) (buf : Buffer)
    (n : Nat) (st : IdealStore) (h : st.handles fd = some (path, pos))
    (hB : (st.files path)[pos]? = some B) :
    ideal_read fd buf n st =
      (((n : Int), B),
       { st with handles := fun d => if d = fd then some (path, pos + 1) else st.handles d }) := by
  unfold ideal_read
  rw [h]
  dsimp only
  rw [hB]

theorem read_block_ideal (fd : Int) (buf : Buffer) (n : Nat) (st : IdealStore) :
    f3v_read_block ideal_platform fd buf n st = ideal_read fd buf n st := rfl

theorem reopen_read_ideal (fd : Int) (name : String) (st : IdealStore) :
    reopen ideal_platform fd (f3v_open_read ideal_platform) name st
      = ideal_open name OpenMode.rdonly
          (if fd ≥ 0 then (ideal_close fd st).2 else st) := rfl

theorem verify_inv_same (j : Nat) (m : Machine) (st : IdealStore) (h : VerifyInv j m st)
    (hj : j < 2560) (hsame : j % 1024 ≠ 0) :
    VerifyInv (j + 1) (state_verify ideal_platform m st).1
      (state_verify ideal_platform m st).2 := by
  have hpoll := poll_ideal m st h.last
  have hbtn : (poll_buttons ideal_platform m st).1 &&& F3V_BTN_CIRCLE = 0 := by
    rw [hpoll]; exact Nat.zero_and _
  have hjpos : 0 < j := by omega
  have hlt : m.g_ctx.bytes_verified < m.g_ctx.bytes_written := by
    rw [h.verified, h.written, block_size_val]
    omega
  have hfi : file_index m.g_ctx.bytes_verified = j / 1024 + 1 := by
    rw [h.verified]; exact file_index_block j hj
  have hbi : block_index m.g_ctx.bytes_verified = j % 1024 := by
    rw [h.verified]; exact block_index_block j
  have hidx : file_index m.g_ctx.bytes_verified = m.verify_current_file_idx := by
    rw [hfi, h.vcur, if_neg (by omega)]
    omega
  have hfd := h.vfd hjpos
  have hc : (j - 1) / 1024 + 1 = j / 1024 + 1 := by omega
  have hp : (j - 1) % 1024 + 1 = j % 1024 := by omega
  rw [hc, hp] at hfd
  obtain ⟨B, hB, hbytes⟩ := h.stored j hj
  have hclean : (f3v_verify_pattern B (j / 1024 + 1) (j % 1024) (some 0)).1 = 0 := by
    rw [verify_clean B _ _ (some 0) hbytes]
  rw [state_verify_same_file ideal_platform m st hbtn hlt hidx]
  rw [hpoll, hfi, hbi]
  dsimp only
  rw [verify_block_clean ideal_platform _ _ _ _
    (by rw [read_block_ideal, ideal_read_open _ _ B _ _ _ _ hfd hB]; exact block_size_int_pos)
    (by rw [read_block_ideal, ideal_read_open _ _ B _ _ _ _ hfd hB]; exact hclean)]
  dsimp only
  rw [read_block_ideal, ideal_read_open _ _ B _ _ _ _ hfd hB]
  dsimp only
  refine
    { state := h.state, written := h.written, verified := ?_, corrupted := h.corrupted,
      flag := h.flag, cancelled := h.cancelled, dir := h.dir, last := rfl, fw := h.fw,
      vcur := ?_, vfd := ?_, nfd := h.nfd, stored := h.stored }
  · show m.g_ctx.bytes_verified + (F3V_BLOCK_SIZE : Int).toNat = (j + 1) * F3V_BLOCK_SIZE
    rw [h.verified, block_size_toNat]
    ring
  · show m.verify_current_file_idx = _
    rw [h.vcur, if_neg (by omega), if_neg (by omega)]
    omega
  · intro _
    simp only [if_true, Nat.add_sub_cancel]

theorem ideal_open_rdonly (path : String) (st : IdealStore) :
    ideal_open path OpenMode.rdonly st =
      (st.next_fd,
       { st with
         handles := fun d => if d = st.next_fd then some (path, 0) else st.handles d
         next_fd := st.next_fd + 1 }) := by
  unfold ideal_open
  have hf : (fun p => if p = path ∧ OpenMode.rdonly = OpenMode.wronly_creat_trunc then []
      else st.files p) = st.files := by
    funext p
    rw [if_neg (fun hc => OpenMode.noConfusion hc.2)]
  rw [hf]

theorem verify_inv_new (j : Nat) (m : Machine) (st : IdealStore) (h : VerifyInv j m st)
    (hj : j < 2560) (hnew : j % 1024 = 0) :
    VerifyInv (j + 1) (state_verify ideal_platform m st).1
      (state_verify ideal_platform m st).2 := by
  have hpoll := poll_ideal m st h.last
  have hbtn : (poll_buttons ideal_platform m st).1 &&& F3V_BTN_CIRCLE = 0 := by
    rw [hpoll]; exact Nat.zero_and _
  have hlt : m.g_ctx.bytes_verified < m.g_ctx.bytes_written := by
    rw [h.verified, h.written, block_size_val]
    omega
  have hfi : file_index m.g_ctx.bytes_verified = j / 1024 + 1 := by
    rw [h.verified]; exact file_index_block j hj
  have hbi : block_index m.g_ctx.bytes_verified = j % 1024 := by
    rw [h.verified]; exact block_index_block j
  have hidx : file_index m.g_ctx.bytes_verified ≠ m.verify_current_file_idx := by
    rw [hfi, h.vcur]
    split_ifs <;> omega
  have hname : ∀ ctx : TestContext, ctx.test_dir = "ux0:data/f3vita" →
      f3v_get_test_filename ctx (j / 1024 + 1) = ideal_file (j / 1024 + 1) :=
    fun ctx hc => test_filename_ideal ctx _ hc
  have hcl := close_if_files m.verify_fd st
  have hopen : 0 ≤ (reopen ideal_platform m.verify_fd (f3v_open_read ideal_platform)
      (f3v_get_test_filename m.g_ctx (file_index m.g_ctx.bytes_verified))
      (poll_buttons ideal_platform m st).2.2).1 := by
    rw [reopen_read_ideal, ideal_open_rdonly]
    dsimp only
    rw [hpoll]
    dsimp only
    rw [hcl.2.2]
    exact h.nfd
  obtain ⟨B, hB, hbytes⟩ := h.stored j hj
  rw [hnew] at hB hbytes
  have hclean : (f3v_verify_pattern B (j / 1024 + 1) 0 (some 0)).1 = 0 := by
    rw [verify_clean B _ _ (some 0) hbytes]
  rw [state_verify_open_read ideal_platform m st hbtn hlt hidx hopen]
  rw [hpoll, hfi, hbi, hnew]
  dsimp only
  rw [reopen_read_ideal, hname _ h.dir, ideal_open_rdonly]
  dsimp only
  generalize (if m.verify_fd ≥ 0 then (ideal_close m.verify_fd st).2 else st) = st1 at hcl ⊢
  obtain ⟨hf1, _, hn1⟩ := hcl
  have hB1 : (st1.files (ideal_file (j / 1024 + 1)))[0]? = some B := by
    rw [hf1]
    exact hB
  have hh1 : (if st1.next_fd = st1.next_fd then some (ideal_file (j / 1024 + 1), 0)
      else st1.handles st1.next_fd) = some (ideal_file (j / 1024 + 1), 0) := if_pos rfl
  rw [verify_block_clean ideal_platform _ _ _ _
    (by
      rw [read_block_ideal, ideal_read_open (ideal_file (j / 1024 + 1)) 0 B _ _ _ _ (by exact hh1)
        (by exact hB1)]
      exact block_size_int_pos)
    (by
      rw [read_block_ideal, ideal_read_open (ideal_file (j / 1024 + 1)) 0 B _ _ _ _ (by exact hh1)
        (by exact hB1)]
      exact hclean)]
  dsimp only
  rw [read_block_ideal, ideal_read_open (ideal_file (j / 1024 + 1)) 0 B _ _ _ _ (by exact hh1)
        (by exact hB1)]
  dsimp only
  refine
    { state := h.state, written := h.written, verified := ?_, corrupted := h.corrupted,
      flag := h.flag, cancelled := h.cancelled, dir := h.dir, last := rfl, fw := h.fw,
      vcur := ?_, vfd := ?_, nfd := ?_, stored := ?_ }
  · show m.g_ctx.bytes_verified + (F3V_BLOCK_SIZE : Int).toNat = (j + 1) * F3V_BLOCK_SIZE
    rw [h.verified, block_size_toNat]
    ring
  · show j / 1024 + 1 = _
    rw [if_neg (by omega)]
    omega
  · intro _
    simp only [if_true, Nat.add_sub_cancel, hnew]
  · show 0 ≤ st1.next_fd + 1
    rw [hn1]
    have := h.nfd
    omega
  · intro p hp
    obtain ⟨B2, hB2, hb2⟩ := h.stored p hp
    refine ⟨B2, ?_, hb2⟩
    show (st1.files _)[_]? = _
    rw [hf1]
    exact hB2

theorem verify_inv_step (j : Nat) (m : Machine) (st : IdealStore) (h : VerifyInv j m st)
    (hj : j < 2560) :
    VerifyInv (j + 1) (state_verify ideal_platform m st).1
      (state_verify ideal_platform m st).2 := by
  by_cases hnew : j % 1024 = 0
  · exact verify_inv_new j m st h hj hnew
  · exact verify_inv_same j m st h hj hnew

theorem tick_write {W : Type} (P : Platform W) (fuel : Nat) (m : Machine) (w : W)
    (h : m.g_state = AppState.STATE_WRITE) : tick P fuel m w = some (state_write P m w) := by
  unfold tick
  rw [h]

theorem tick_verify {W : Type} (P : Platform W) (fuel : Nat) (m : Machine) (w : W)
    (h : m.g_state = AppState.STATE_VERIFY) : tick P fuel m w = some (state_verify P m w) := by
  unfold tick
  rw [h]

theorem ideal_started :
    ∃ m st, main_loop ideal_platform 0 1 (boot ideal_devices 1) ideal_start = some (m, st) ∧
      WriteInv 0 m st := by
  have ha : (main_loop ideal_platform 0 1 (boot ideal_devices 1) ideal_start).map
      (fun r => ledger_snapshot r.1) = some (AppState.STATE_WRITE, 0, 0, 0, 0) := by
    decide
  have hc : (main_loop ideal_platform 0 1 (boot ideal_devices 1) ideal_start).map
      (fun r => flags_snapshot r.1) = some (false, false, "ux0:data/f3vita") := by
    decide
  have hb : (main_loop ideal_platform 0 1 (boot ideal_devices 1) ideal_start).map
      (fun r => (statics_snapshot r.1, r.2.free_bytes, r.2.next_fd))
      = some ((1, -1, 0, -1, 0), 2560 * F3V_BLOCK_SIZE, 3) := by
    decide
  cases hm : main_loop ideal_platform 0 1 (boot ideal_devices 1) ideal_start with
  | none => rw [hm] at ha; simp at ha
  | some r =>
    rw [hm] at ha hb hc
    simp only [Option.map_some', Option.some.injEq, Prod.mk.injEq, ledger_snapshot,
      statics_snapshot, flags_snapshot] at ha hb hc
    obtain ⟨h1, h2, h3, h4, h9⟩ := ha
    obtain ⟨h5, h6, h7⟩ := hc
    obtain ⟨⟨h8, _, h10, h11, h12⟩, h13, h14⟩ := hb
    refine ⟨r.1, r.2, rfl, ?_⟩
    exact
      { state := h1, written := by rw [h2]; rfl, verified := h3, corrupted := h4, flag := h5,
        cancelled := h6, dir := h7, last := h8, fw := by rw [h9]; rfl, cur := by rw [h10]; rfl,
        fd := fun h0 => absurd h0 (Nat.lt_irrefl 0), len := fun h0 => absurd h0 (Nat.lt_irrefl 0),
        vfd := h11, vcur := h12, free := by rw [h13], nfd := by rw [h14]; decide,
        stored := fun p hp => absurd hp (Nat.not_lt_zero p) }

theorem ideal_write_phase (k : Nat) (hk : k ≤ 2560) :
    ∃ m st, main_loop ideal_platform 0 (k + 1) (boot ideal_devices 1) ideal_start
      = some (m, st) ∧ WriteInv k m st := by
  induction k with
  | zero => exact ideal_started
  | succ k ih =>
    obtain ⟨m, st, hm, hinv⟩ := ih (by omega)
    have hne : m.g_state ≠ AppState.STATE_EXIT := by rw [hinv.state]; decide
    refine ⟨(state_write ideal_platform m st).1, (state_write ideal_platform m st).2, ?_,
      write_inv_step k m st hinv (by omega)⟩
    rw [main_loop_snoc ideal_platform 0 (k + 1) _ _ m st hm hne,
      tick_write ideal_platform 0 m st hinv.state]

theorem ideal_verify_phase (j : Nat) (hj : j ≤ 2560) :
    ∃ m st, main_loop ideal_platform 0 (j + 2562) (boot ideal_devices 1) ideal_start
      = some (m, st) ∧ VerifyInv j m st := by
  induction j with
  | zero =>
    obtain ⟨m, st, hm, hinv⟩ := ideal_write_phase 2560 (le_refl _)
    have hne : m.g_state ≠ AppState.STATE_EXIT := by rw [hinv.state]; decide
    refine ⟨(state_write ideal_platform m st).1, (state_write ideal_platform m st).2, ?_,
      write_inv_full m st hinv⟩
    rw [main_loop_snoc ideal_platform 0 2561 _ _ m st hm hne,
      tick_write ideal_platform 0 m st hinv.state]
  | succ j ih =>
    obtain ⟨m, st, hm, hinv⟩ := ih (by omega)
    have hne : m.g_state ≠ AppState.STATE_EXIT := by rw [hinv.state]; decide
    refine ⟨(state_verify ideal_platform m st).1, (state_verify ideal_platform m st).2, ?_,
      verify_inv_step j m st hinv (by omega)⟩
    have harith : j + 1 + 2562 = (j + 2562) + 1 := by omega
    rw [harith, main_loop_snoc ideal_platform 0 (j + 2562) _ _ m st hm hne,
      tick_verify ideal_platform 0 m st hinv.state]

/-! ## Theorems on the state machine -/

/-- C6. End-to-end on ideal storage: on `ideal_platform` (every open succeeds,
every block write stores the whole block and lowers the free space by
`F3V_BLOCK_SIZE`, every read returns the block stored at that position), a test
started on a device with 2.5 x `F3V_FILE_SIZE` = 2560 blocks free and never
cancelled is in `STATE_RESULTS` after 5123 iterations of the loop of `main`
(1 start, 2560 writes, 1 disk-full tick, 2560 verifies, 1 completion tick) with
`files_written = 3`, `bytes_written = 2560 * F3V_BLOCK_SIZE`,
`bytes_verified = bytes_written`, `bytes_corrupted = 0` and result Pass. -/
theorem C6_end_to_end_ideal :
    (ideal_devices 0).free_bytes = 5 * F3V_FILE_SIZE / 2 ∧
    (ideal_devices 0).free_bytes = 2560 * F3V_BLOCK_SIZE ∧
    ∃ m st, main_loop ideal_platform 0 5123 (boot ideal_devices 1) ideal_start = some (m, st) ∧
      m.g_state = AppState.STATE_RESULTS ∧
      m.g_ctx.files_written = 3 ∧
      m.g_ctx.bytes_written = 2560 * F3V_BLOCK_SIZE ∧
      m.g_ctx.bytes_verified = m.g_ctx.bytes_written ∧
      m.g_ctx.bytes_corrupted = 0 ∧
      m.g_ctx.cancelled = false ∧
      classify_result m.g_ctx = TestResult.RESULT_PASS := by
  refine ⟨rfl, by decide, ?_⟩
  obtain ⟨m, st, hm, hinv⟩ := ideal_verify_phase 2560 (le_refl _)
  have hne : m.g_state ≠ AppState.STATE_EXIT := by rw [hinv.state]; decide
  have hpoll := poll_ideal m st hinv.last
  have hbtn : (poll_buttons ideal_platform m st).1 &&& F3V_BTN_CIRCLE = 0 := by
    rw [hpoll]; exact Nat.zero_and _
  have hge : m.g_ctx.bytes_written ≤ m.g_ctx.bytes_verified := by
    rw [hinv.written, hinv.verified]
  have hstep := state_verify_done ideal_platform m st hbtn hge
  refine ⟨(state_verify ideal_platform m st).1, (state_verify ideal_platform m st).2, ?_, ?_⟩
  · rw [main_loop_snoc ideal_platform 0 5122 _ _ m st hm hne,
      tick_verify ideal_platform 0 m st hinv.state]
  · rw [hstep]
    refine ⟨rfl, hinv.fw, hinv.written, ?_, hinv.corrupted, hinv.cancelled, ?_⟩
    · show m.g_ctx.bytes_verified = m.g_ctx.bytes_written
      rw [hinv.written, hinv.verified]
    · unfold classify_result
      dsimp only
      rw [hinv.cancelled, hinv.corrupted]
      rfl


/-- C7, evaluation of the code at the failing input. On `short_read_platform`
the fifth iteration of the loop of `main` is the first verify tick: the read
returns one byte, `f3v_verify_pattern` still scans the whole buffer, whose
other bytes are those of block (1, 1) filled by the last write tick, and the
ledger ends with `bytes_verified = 1` and `bytes_corrupted >= 2`, so
`bytes_corrupted <= bytes_verified` does not hold in this reachable state. -/
theorem C7_short_read_overcharge :
    ∃ m w, Reachable short_read_platform m w ∧
      main_loop short_read_platform 0 5 (boot one_device 1) 0 = some (m, w) ∧
      m.g_ctx.bytes_verified = 1 ∧ 2 ≤ m.g_ctx.bytes_corrupted ∧
      ¬ m.g_ctx.bytes_corrupted ≤ m.g_ctx.bytes_verified := by
  have h4 := short_read_run
  have h5 : main_loop short_read_platform 0 5 (boot one_device 1) 0
      = some (state_verify short_read_platform short_read_machine 3) := by
    rw [main_loop_snoc _ 0 4 _ 0 _ _ h4 (by decide)]
    rfl
  have hreach := main_loop_reachable short_read_platform 0 5 (boot one_device 1) 0
    (state_verify short_read_platform short_read_machine 3).1
    (state_verify short_read_platform short_read_machine 3).2 (Reachable.boot one_device 1 0) h5
  have hstep := state_verify_open_read short_read_platform short_read_machine 3
    (by decide) (by decide) (by decide) (by decide)
  have hv1 : (state_verify short_read_platform short_read_machine 3).1.g_ctx.bytes_verified
      = 1 := by
    rw [hstep]
    exact (verify_block_read_ok short_read_platform _ _ _ _ (by decide)).1.trans (by decide)
  have hc2 : 2 ≤ (state_verify short_read_platform short_read_machine 3).1.g_ctx.bytes_corrupted := by
    rw [hstep, (verify_block_read_ok short_read_platform _ _ _ _ (by decide)).2, verify_count_eq]
    refine le_trans (card_ge_two_of_mem _ 2 6 (by decide) ?_ ?_) (Nat.le_add_left _ _)
    · unfold mismatch_set
      refine Finset.mem_filter.2 ⟨Finset.mem_range.2 (by decide), ?_⟩
      show (f3v_fill_pattern (f3v_fill_pattern (fun _ => 0) 1 0) 1 1).set 0 (expected_byte 1 0 0) 2
        ≠ expected_byte 1 0 2
      simp only [Buffer.set]
      rw [if_neg (by decide), fill_apply_lt _ 1 1 2 (by decide)]
      decide
    · unfold mismatch_set
      refine Finset.mem_filter.2 ⟨Finset.mem_range.2 (by decide), ?_⟩
      show (f3v_fill_pattern (f3v_fill_pattern (fun _ => 0) 1 0) 1 1).set 0 (expected_byte 1 0 0) 6
        ≠ expected_byte 1 0 6
      simp only [Buffer.set]
      rw [if_neg (by decide), fill_apply_lt _ 1 1 6 (by decide)]
      decide
  refine ⟨_, _, hreach, h5, hv1, hc2, ?_⟩
  rw [hv1]
  omega

/-- C8, counterexample. On `short_write_platform` (one write of a single byte,
then the device is full, then the read fails) the state after four iterations
of the loop of `main` has `bytes_written = 1` and `bytes_verified = 1048576`:
`bytes_verified <= bytes_written` fails in a reachable state. -/
theorem C8_counterexample :
    ∃ m w, Reachable short_write_platform m w ∧
      main_loop short_write_platform 0 4 (boot one_device 1) 0 = some (m, w) ∧
      m.g_ctx.bytes_written = 1 ∧ m.g_ctx.bytes_verified = 1048576 ∧
      ¬ m.g_ctx.bytes_verified ≤ m.g_ctx.bytes_written := by
  have h : counters (main_loop short_write_platform 0 4 (boot one_device 1) 0)
      = some (AppState.STATE_VERIFY, 1, 1048576, 1048576) := by decide
  obtain ⟨m, w, hm, _, h1, h2, _⟩ := counters_some _ _ _ _ _ h
  refine ⟨m, w, main_loop_reachable _ 0 4 _ 0 m w (Reachable.boot one_device 1 0) hm, hm, h1, h2, ?_⟩
  rw [h1, h2]
  decide

/-- C8, amended. In every reachable state, on a platform whose reads never
report more bytes than were asked for, `bytes_verified` is less than
`bytes_written + F3V_BLOCK_SIZE`; and when moreover every write and read either
fails or transfers exactly the bytes asked for, `bytes_verified <= bytes_written`. -/
theorem C8_verified_le_written_whole_blocks {W : Type} (P : Platform W) (m : Machine) (w : W)
    (hread : ReadsBounded P) (hreach : Reachable P m w) :
    m.g_ctx.bytes_verified < m.g_ctx.bytes_written + F3V_BLOCK_SIZE ∧
    (WholeBlocks P → m.g_ctx.bytes_verified ≤ m.g_ctx.bytes_written) := by
  have h := ledger_reachable P m w hread hreach
  exact ⟨h.2.1, fun hw => (h.2.2 hw).2.2.1⟩

/-- Witness of the amended C8 on `failing_read_platform` after five iterations
of the loop of `main`: two blocks written, the first read failed. -/
theorem C8_verified_le_written_whole_blocks_witness :
    ∃ m w, main_loop failing_read_platform 0 5 (boot one_device 1) 0 = some (m, w) ∧
      m.g_ctx.bytes_written = 2097152 ∧ m.g_ctx.bytes_verified = 1048576 ∧
      m.g_ctx.bytes_verified < m.g_ctx.bytes_written + F3V_BLOCK_SIZE ∧
      m.g_ctx.bytes_verified ≤ m.g_ctx.bytes_written := by
  have h : counters (main_loop failing_read_platform 0 5 (boot one_device 1) 0)
      = some (AppState.STATE_VERIFY, 2097152, 1048576, 1048576) := by decide
  obtain ⟨m, w, hm, _, h1, h2, _⟩ := counters_some _ _ _ _ _ h
  have hthm := C8_verified_le_written_whole_blocks failing_read_platform m w failing_read_bounded
    (main_loop_reachable _ 0 5 _ 0 m w (Reachable.boot one_device 1 0) hm)
  exact ⟨m, w, hm, h1, h2, hthm.1, hthm.2 failing_read_whole⟩

/-- C10. First-error immutability: a Write, Verify, Results or Cleanup tick
that starts with `has_first_error` set leaves the flag and the triple
`(first_error_file, first_error_block, first_error_offset)` as they were,
whatever the platform returns; Write, Verify and Results ticks always return. -/
theorem C10_first_error_immutable {W : Type} (P : Platform W) (fuel : Nat) (m : Machine) (w : W)
    (hstate : m.g_state = AppState.STATE_WRITE ∨ m.g_state = AppState.STATE_VERIFY ∨
      m.g_state = AppState.STATE_RESULTS ∨ m.g_state = AppState.STATE_CLEANUP)
    (hset : m.g_ctx.has_first_error = true) :
    (∀ r, tick P fuel m w = some r →
        first_error_record r.1.g_ctx = first_error_record m.g_ctx) ∧
    (m.g_state ≠ AppState.STATE_CLEANUP → ∃ r, tick P fuel m w = some r) := by
  rcases hstate with h | h | h | h
  · refine ⟨?_, fun _ => ⟨state_write P m w, by simp [tick, h]⟩⟩
    intro r hr
    simp only [tick, h, Option.some.injEq] at hr
    rw [← hr]
    exact first_error_record_state_write P m w
  · refine ⟨?_, fun _ => ⟨state_verify P m w, by simp [tick, h]⟩⟩
    intro r hr
    simp only [tick, h, Option.some.injEq] at hr
    rw [← hr]
    exact first_error_record_state_verify P m w hset
  · refine ⟨?_, fun _ => ⟨state_results P m w, by simp [tick, h]⟩⟩
    intro r hr
    simp only [tick, h, Option.some.injEq] at hr
    rw [← hr]
    exact first_error_record_state_results P m w
  · refine ⟨?_, fun hne => absurd h hne⟩
    intro r hr
    simp only [tick, h] at hr
    rw [g_ctx_state_cleanup P fuel m w r hr]

/-- Witness of C10: a verify tick of `verifying_machine`, whose first error is
recorded at (1, 0, 5), on a platform that returns a full block of wrong bytes;
the block is accounted for and the record stays (1, 0, 5). -/
theorem C10_first_error_immutable_witness :
    first_error_record (state_verify garbage_platform verifying_machine ()).1.g_ctx
      = (true, 1, 0, 5) ∧
    (state_verify garbage_platform verifying_machine ()).1.g_ctx.bytes_verified
      = 2 * F3V_BLOCK_SIZE :=
  ⟨(C10_first_error_immutable garbage_platform 0 verifying_machine ()
      (Or.inr (Or.inl rfl)) rfl).1 (state_verify garbage_platform verifying_machine ()) rfl,
   by
    rw [state_verify_same_file garbage_platform verifying_machine () (by decide) (by decide)
      (by decide)]
    exact (verify_block_read_ok garbage_platform _ _ _ _ (by decide)).1.trans (by decide)⟩

/-! ## Lemmas on the phases -/

theorem menu_start_state {W : Type} (P : Platform W) (fuel : Nat) (m : Machine) (btn : Nat)
    (w : W) (r : Machine × W) (hr : menu_start P fuel m btn w = some r) :
    r.1.g_state = m.g_state ∨ r.1.g_state = AppState.STATE_WRITE ∨
      r.1.g_state = AppState.STATE_EXIT := by
  unfold menu_start at hr
  dsimp only at hr
  split_ifs at hr
  · split at hr
    · exact absurd hr (by simp)
    · simp only [Option.some.injEq] at hr
      rw [← hr]
      exact Or.inl rfl
  · simp only [Option.some.injEq] at hr
    rw [← hr]
    exact Or.inr (Or.inr rfl)
  · simp only [Option.some.injEq] at hr
    rw [← hr]
    exact Or.inr (Or.inl rfl)

theorem state_menu_state {W : Type} (P : Platform W) (fuel : Nat) (m : Machine) (w : W)
    (r : Machine × W) (hr : state_menu P fuel m w = some r) :
    r.1.g_state = m.g_state ∨ r.1.g_state = AppState.STATE_WRITE ∨
      r.1.g_state = AppState.STATE_EXIT := by
  unfold state_menu at hr
  dsimp only at hr
  split_ifs at hr
  all_goals first
    | (rcases menu_start_state P fuel _ _ _ r hr with h | h | h
       · exact Or.inl (h.trans (menu_move_ctx _ _).2)
       · exact Or.inr (Or.inl h)
       · exact Or.inr (Or.inr h))
    | (simp only [Option.some.injEq] at hr
       rw [← hr]
       first
         | exact Or.inr (Or.inr rfl)
         | exact Or.inl rfl
         | exact Or.inl (menu_move_ctx _ _).2)

theorem enter_verify_state {W : Type} (P : Platform W) (m : Machine) (w : W) :
    (enter_verify P m w).1.g_state = AppState.STATE_VERIFY := rfl

theorem write_block_state {W : Type} (P : Platform W) (m : Machine) (f b : Nat) (w : W) :
    (write_block P m f b w).1.g_state = m.g_state ∨
    (write_block P m f b w).1.g_state = AppState.STATE_VERIFY := by
  unfold write_block
  dsimp only
  split_ifs
  · exact Or.inr rfl
  · exact Or.inl rfl

theorem state_write_state {W : Type} (P : Platform W) (m : Machine) (w : W) :
    (state_write P m w).1.g_state = m.g_state ∨
    (state_write P m w).1.g_state = AppState.STATE_VERIFY ∨
    ((state_write P m w).1.g_state = AppState.STATE_RESULTS ∧
      (state_write P m w).1.g_ctx.cancelled = true) := by
  unfold state_write
  dsimp only
  split_ifs
  all_goals first
    | exact Or.inr (Or.inr ⟨rfl, rfl⟩)
    | exact Or.inr (Or.inl rfl)
    | (rcases write_block_state P _ _ _ _ with h | h
       · exact Or.inl h
       · exact Or.inr (Or.inl h))

theorem state_results_state {W : Type} (P : Platform W) (m : Machine) (w : W) :
    (state_results P m w).1.g_state = m.g_state ∨
    (state_results P m w).1.g_state = AppState.STATE_CLEANUP ∨
    (state_results P m w).1.g_state = AppState.STATE_EXIT := by
  unfold state_results
  dsimp only
  split_ifs
  all_goals first
    | exact Or.inr (Or.inr rfl)
    | exact Or.inr (Or.inl rfl)
    | exact Or.inl rfl

/-! ## Lemmas on the exits of the write phase and on cancellation -/

theorem poll_traced {W : Type} (P : Platform W) (m : Machine) (w : W) (log : List Call) :
    poll_buttons (traced P) m (w, log) =
      ((poll_buttons P m w).1, (poll_buttons P m w).2.1,
        ((poll_buttons P m w).2.2,
          log ++ [Call.sceRtcGetCurrentTick, Call.sceCtrlPeekBufferPositive])) := by
  simp [poll_buttons, f3v_get_time_usec, f3v_ui_read_buttons, traced]

theorem state_write_cancel {W : Type} (P : Platform W) (m : Machine) (w : W)
    (hbtn : (poll_buttons P m w).1 &&& F3V_BTN_CIRCLE ≠ 0) :
    state_write P m w =
      ({ m with
          g_last_buttons := (poll_buttons P m w).2.1
          g_ctx := { m.g_ctx with cancelled := true }
          g_state := AppState.STATE_RESULTS },
       (poll_buttons P m w).2.2) := by
  unfold state_write
  dsimp only
  rw [if_pos hbtn]

theorem state_verify_cancel {W : Type} (P : Platform W) (m : Machine) (w : W)
    (hbtn : (poll_buttons P m w).1 &&& F3V_BTN_CIRCLE ≠ 0) :
    state_verify P m w =
      ({ m with
          g_last_buttons := (poll_buttons P m w).2.1
          g_ctx := { m.g_ctx with cancelled := true }
          g_state := AppState.STATE_RESULTS },
       (poll_buttons P m w).2.2) := by
  unfold state_verify
  dsimp only
  rw [if_pos hbtn]

theorem state_write_open_failed {W : Type} (P : Platform W) (m : Machine) (w : W)
    (hbtn : (poll_buttons P m w).1 &&& F3V_BTN_CIRCLE = 0)
    (hspace : (f3v_has_space P m.g_ctx (poll_buttons P m w).2.2).1 = true)
    (hidx : file_index m.g_ctx.bytes_written ≠ m.write_current_file_idx)
    (hopen : (reopen P m.write_fd (f3v_open_write P)
      (f3v_get_test_filename (f3v_has_space P m.g_ctx (poll_buttons P m w).2.2).2.1
        (file_index m.g_ctx.bytes_written))
      (f3v_has_space P m.g_ctx (poll_buttons P m w).2.2).2.2).1 < 0) :
    state_write P m w =
      enter_verify P
        { m with
          g_last_buttons := (poll_buttons P m w).2.1
          g_ctx := (f3v_has_space P m.g_ctx (poll_buttons P m w).2.2).2.1
          write_fd := (reopen P m.write_fd (f3v_open_write P)
            (f3v_get_test_filename (f3v_has_space P m.g_ctx (poll_buttons P m w).2.2).2.1
              (file_index m.g_ctx.bytes_written))
            (f3v_has_space P m.g_ctx (poll_buttons P m w).2.2).2.2).1 }
        (reopen P m.write_fd (f3v_open_write P)
            (f3v_get_test_filename (f3v_has_space P m.g_ctx (poll_buttons P m w).2.2).2.1
              (file_index m.g_ctx.bytes_written))
            (f3v_has_space P m.g_ctx (poll_buttons P m w).2.2).2.2).2 := by
  unfold state_write
  dsimp only
  rw [if_neg (not_not.2 hbtn), if_neg (by rw [hspace]; exact Bool.noConfusion)]
  simp only [has_space_bytes_written]
  rw [if_pos hidx, if_pos hopen]

theorem write_block_failed {W : Type} (P : Platform W) (m : Machine) (f b : Nat) (w : W)
    (hfail : (f3v_write_block P m.write_fd (f3v_fill_pattern m.g_buffer f b)
      F3V_BLOCK_SIZE w).1 ≤ 0) :
    EntersVerify m (write_block P m f b w).1 := by
  unfold write_block
  dsimp only
  rw [if_pos hfail]
  exact ⟨rfl, rfl, rfl, rfl, rfl⟩

/-! ## Lemmas on `files_written` -/

/-- C11. Result classification: for every ledger the result that
`state_results` computes is Cancelled when `cancelled` is set, whatever
`bytes_corrupted` is; otherwise Fail when `bytes_corrupted > 0`; otherwise
Pass; and it is never Unknown. -/
theorem C11_result_classification (ctx : TestContext) :
    (ctx.cancelled = true → classify_result ctx = TestResult.RESULT_CANCELLED) ∧
    (ctx.cancelled = false → 0 < ctx.bytes_corrupted →
      classify_result ctx = TestResult.RESULT_FAIL) ∧
    (ctx.cancelled = false → ctx.bytes_corrupted = 0 →
      classify_result ctx = TestResult.RESULT_PASS) ∧
    classify_result ctx ≠ TestResult.RESULT_UNKNOWN := by
  unfold classify_result
  refine ⟨fun h => by simp [h], fun h hc => by simp [h, hc], fun h hc => by simp [h, hc], ?_⟩
  split_ifs <;> simp

/-- C20. Phase order: a tick of the loop of `main` (which runs only while the
state is not Exit) that returns takes one of the steps Menu to Menu, Write or
Exit; Write to Write, Verify or Results; Verify to Verify or Results; Results
to Results, Cleanup or Exit; Cleanup to Exit. So no tick moves to an earlier
phase in the order Menu, Write, Verify, Results, Cleanup, Exit; a Write tick
that ends in Results has `cancelled` set; and Write, Verify and Results ticks
always return. -/
theorem C20_phase_order {W : Type} (P : Platform W) (fuel : Nat) (m : Machine) (w : W)
    (hrun : m.g_state ≠ AppState.STATE_EXIT) :
    (∀ r, tick P fuel m w = some r →
      allowed_step m.g_state r.1.g_state = true ∧
      phase_rank m.g_state ≤ phase_rank r.1.g_state ∧
      (m.g_state = AppState.STATE_WRITE → r.1.g_state = AppState.STATE_RESULTS →
        r.1.g_ctx.cancelled = true)) ∧
    (m.g_state = AppState.STATE_WRITE ∨ m.g_state = AppState.STATE_VERIFY ∨
      m.g_state = AppState.STATE_RESULTS → ∃ r, tick P fuel m w = some r) := by
  constructor
  · intro r hr
    unfold tick at hr
    split at hr
    next hs =>
      rcases state_menu_state P fuel m w r hr with h | h | h
      · rw [h, hs]; exact ⟨rfl, le_refl _, fun c => absurd c (by simp)⟩
      · rw [h, hs]; exact ⟨rfl, by decide, fun c => absurd c (by simp)⟩
      · rw [h, hs]; exact ⟨rfl, by decide, fun c => absurd c (by simp)⟩
    next hs =>
      simp only [Option.some.injEq] at hr
      rw [← hr]
      rcases state_write_state P m w with h | h | ⟨h, hc⟩
      · rw [h, hs]; exact ⟨rfl, le_refl _, fun _ c => absurd c (by simp)⟩
      · rw [h, hs]; exact ⟨rfl, by decide, fun _ c => absurd c (by simp)⟩
      · rw [h, hs]; exact ⟨rfl, by decide, fun _ _ => hc⟩
    next hs =>
      simp only [Option.some.injEq] at hr
      rw [← hr]
      rcases state_verify_state P m w hs with h | h
      · rw [h, hs]; exact ⟨rfl, le_refl _, fun c => absurd c (by simp)⟩
      · rw [h, hs]; exact ⟨rfl, by decide, fun c => absurd c (by simp)⟩
    next hs =>
      simp only [Option.some.injEq] at hr
      rw [← hr]
      rcases state_results_state P m w with h | h | h
      · rw [h, hs]; exact ⟨rfl, le_refl _, fun c => absurd c (by simp)⟩
      · rw [h, hs]; exact ⟨rfl, by decide, fun c => absurd c (by simp)⟩
      · rw [h, hs]; exact ⟨rfl, by decide, fun c => absurd c (by simp)⟩
    next hs =>
      rw [state_cleanup_state P fuel m w r hr, hs]
      exact ⟨rfl, by decide, fun c => absurd c (by simp)⟩
    next hs => exact absurd hs hrun
  · rintro (h | h | h)
    · exact ⟨state_write P m w, by simp [tick, h]⟩
    · exact ⟨state_verify P m w, by simp [tick, h]⟩
    · exact ⟨state_results P m w, by simp [tick, h]⟩

/-- Witness of C20: a write tick of `write_machine` with the circle button
pressed goes from Write to Results with `cancelled` set. -/
theorem C20_phase_order_witness :
    (state_write (fixed_platform pad_circle 0 3 1) (write_machine 0 (-1) 0) ()).1.g_state
      = AppState.STATE_RESULTS ∧
    (state_write (fixed_platform pad_circle 0 3 1) (write_machine 0 (-1) 0) ()).1.g_ctx.cancelled
      = true :=
  ⟨by decide,
   ((C20_phase_order (fixed_platform pad_circle 0 3 1) 0 (write_machine 0 (-1) 0) ()
      (by decide)).1 (state_write (fixed_platform pad_circle 0 3 1) (write_machine 0 (-1) 0) ())
      rfl).2.2 rfl (by decide)⟩

/-- C12. Write-phase termination: a write tick without cancellation ends in
state Verify with `bytes_written` unchanged, `current_file = 1`,
`current_block = 0` and `bytes_verified = 0` in each of these cases:
`f3v_has_space` finds less than one block free; a new file is due and its open
fails; the open of the new file succeeds and the block write returns zero or
less; no new file is due and the block write returns zero or less. The three
causes give the same transition. -/
theorem C12_write_termination {W : Type} (P : Platform W) (m : Machine) (w : W)
    (hbtn : (poll_buttons P m w).1 &&& F3V_BTN_CIRCLE = 0) :
    let h := f3v_has_space P m.g_ctx (poll_buttons P m w).2.2
    let f := file_index m.g_ctx.bytes_written
    let b := block_index m.g_ctx.bytes_written
    let o := reopen P m.write_fd (f3v_open_write P) (f3v_get_test_filename h.2.1 f) h.2.2
    let buf := f3v_fill_pattern m.g_buffer f b
    (h.1 = false → EntersVerify m (state_write P m w).1) ∧
    (h.1 = true → f ≠ m.write_current_file_idx → o.1 < 0 →
      EntersVerify m (state_write P m w).1) ∧
    (h.1 = true → f ≠ m.write_current_file_idx → 0 ≤ o.1 →
      (f3v_write_block P o.1 buf F3V_BLOCK_SIZE o.2).1 ≤ 0 →
      EntersVerify m (state_write P m w).1) ∧
    (h.1 = true → f = m.write_current_file_idx →
      (f3v_write_block P m.write_fd buf F3V_BLOCK_SIZE h.2.2).1 ≤ 0 →
      EntersVerify m (state_write P m w).1) := by
  intro h f b o buf
  refine ⟨?_, ?_, ?_, ?_⟩
  · intro hfull
    rw [state_write_full P m w hbtn hfull]
    exact ⟨rfl, rfl, rfl, rfl, rfl⟩
  · intro hspace hidx hopen
    rw [state_write_open_failed P m w hbtn hspace hidx hopen]
    exact ⟨rfl, rfl, rfl, rfl, rfl⟩
  · intro hspace hidx hopen hfail
    rw [state_write_new_file P m w hbtn hspace hidx hopen]
    exact write_block_failed P _ _ _ _ hfail
  · intro hspace hidx hfail
    rw [state_write_same_file P m w hbtn hspace hidx]
    exact write_block_failed P _ _ _ _ hfail

/-- Witness of C12 on `write_machine` with three blocks of file 1 written
(both verify cursors at 9 before the tick): a full device, a failing open of
file 1 when no file is open yet, and a block write that returns 0, each end in
state Verify with the cursors reset. -/
theorem C12_write_termination_witness :
    EntersVerify (write_machine 3145728 3 1)
      (state_write (fixed_platform pad_cross 0 3 1048576) (write_machine 3145728 3 1) ()).1 ∧
    EntersVerify (write_machine 0 (-1) 0)
      (state_write (fixed_platform pad_cross 1048576 (-1) 1048576) (write_machine 0 (-1) 0) ()).1 ∧
    EntersVerify (write_machine 3145728 3 1)
      (state_write (fixed_platform pad_cross 1048576 3 0) (write_machine 3145728 3 1) ()).1 :=
  ⟨(C12_write_termination (fixed_platform pad_cross 0 3 1048576) (write_machine 3145728 3 1) ()
      (by decide)).1 (by decide),
   (C12_write_termination (fixed_platform pad_cross 1048576 (-1) 1048576) (write_machine 0 (-1) 0)
      () (by decide)).2.1 (by decide) (by decide) (by decide),
   (C12_write_termination (fixed_platform pad_cross 1048576 3 0) (write_machine 3145728 3 1) ()
      (by decide)).2.2.2 (by decide) (by decide) (by decide)⟩

/-- C13. Cancellation: a Write or Verify tick whose button poll reports the
circle button returns, ends in state Results, and leaves a ledger that differs
from the ledger before the tick in `cancelled := true` only. On the platform
with a call log the tick appends exactly two calls, the time read and the pad
read: no storage call is made. -/
theorem C13_cancellation {W : Type} (P : Platform W) (fuel : Nat) (m : Machine) (w : W)
    (log : List Call)
    (hstate : m.g_state = AppState.STATE_WRITE ∨ m.g_state = AppState.STATE_VERIFY)
    (hcancel : (poll_buttons P m w).1 &&& F3V_BTN_CIRCLE ≠ 0) :
    (∃ r, tick P fuel m w = some r ∧ r.1.g_state = AppState.STATE_RESULTS ∧
      r.1.g_ctx = { m.g_ctx with cancelled := true }) ∧
    (∃ r, tick (traced P) fuel m (w, log) = some r ∧
      r.1.g_state = AppState.STATE_RESULTS ∧
      r.1.g_ctx = { m.g_ctx with cancelled := true } ∧
      r.2.2 = log ++ [Call.sceRtcGetCurrentTick, Call.sceCtrlPeekBufferPositive]) := by
  have hc2 : (poll_buttons (traced P) m (w, log)).1 &&& F3V_BTN_CIRCLE ≠ 0 := by
    rw [poll_traced]; exact hcancel
  rcases hstate with hs | hs
  · refine ⟨⟨state_write P m w, by simp [tick, hs], ?_⟩,
      ⟨state_write (traced P) m (w, log), by simp [tick, hs], ?_⟩⟩
    · rw [state_write_cancel P m w hcancel]
      exact ⟨rfl, rfl⟩
    · rw [state_write_cancel (traced P) m (w, log) hc2, poll_traced]
      exact ⟨rfl, rfl, rfl⟩
  · refine ⟨⟨state_verify P m w, by simp [tick, hs], ?_⟩,
      ⟨state_verify (traced P) m (w, log), by simp [tick, hs], ?_⟩⟩
    · rw [state_verify_cancel P m w hcancel]
      exact ⟨rfl, rfl⟩
    · rw [state_verify_cancel (traced P) m (w, log) hc2, poll_traced]
      exact ⟨rfl, rfl, rfl⟩

/-- Witness of C13: a write tick of `write_machine` with the circle button
pressed, on the platform with a call log started empty. -/
theorem C13_cancellation_witness :
    ∃ r, tick (traced (fixed_platform pad_circle 1048576 3 1048576)) 0
        (write_machine 3145728 3 1) ((), []) = some r ∧
      r.1.g_state = AppState.STATE_RESULTS ∧
      r.1.g_ctx = { (write_machine 3145728 3 1).g_ctx with cancelled := true } ∧
      r.2.2 = [] ++ [Call.sceRtcGetCurrentTick, Call.sceCtrlPeekBufferPositive] :=
  (C13_cancellation (fixed_platform pad_circle 1048576 3 1048576) 0 (write_machine 3145728 3 1)
    () [] (Or.inl rfl) (by decide)).2

/-- C19. Single open handle, refuted by the code. On the ideal storage with
one block free, run with a call log, the first four iterations of the loop of
`main` start the test, write block (1, 0), find the device full and enter the
verify phase, and open file 1 for reading. The file calls of the run are: open
for writing (descriptor 3), write, open for reading (descriptor 4), read. No
`sceIoClose` is called, so the read-side open happens while descriptor 3 is
still open, and descriptors 3 and 4 are both open afterwards, in the call log
and in the descriptor table of the storage. -/
theorem C19_two_handles_open :
    (main_loop (traced ideal_platform) 0 4 (boot ideal_devices 1) (ideal_small, [])).map
      (fun r => (r.1.g_state, file_calls r.2.2, open_handles r.2.2,
        (r.2.1.handles 3).isSome && (r.2.1.handles 4).isSome))
    = some (AppState.STATE_VERIFY,
        [Call.sceIoOpen "ux0:data/f3vita/f3vita_001.dat" OpenMode.wronly_creat_trunc 3,
         Call.sceIoWrite 3 1048576 1048576,
         Call.sceIoOpen "ux0:data/f3vita/f3vita_001.dat" OpenMode.rdonly 4,
         Call.sceIoRead 4 1048576 1048576],
        [3, 4], true) := by
  decide

/-! ## Lemmas on the bytes of the pattern word -/

theorem u8_shift_xor (a b s : Nat) :
    u8 ((a ^^^ b) >>> s) = u8 (a >>> s) ^^^ u8 (b >>> s) := by
  show ((a ^^^ b) >>> s) % 2 ^ 8 = (a >>> s) % 2 ^ 8 ^^^ (b >>> s) % 2 ^ 8
  apply Nat.eq_of_testBit_eq
  intro j
  simp only [Nat.testBit_mod_two_pow, Nat.testBit_xor, Nat.testBit_shiftRight]
  by_cases hj : j < 8 <;> simp [hj]

theorem expected_byte_parts (f b i : Nat) :
    expected_byte f b i =
      u8 (u32 (f <<< 24) >>> ((i &&& 3) * 8)) ^^^ u8 (u32 (b <<< 16) >>> ((i &&& 3) * 8)) ^^^
        u8 (i >>> ((i &&& 3) * 8)) := by
  unfold expected_byte
  dsimp only
  rw [u8_shift_xor, u8_shift_xor]

theorem and_three (i : Nat) : i &&& 3 = i % 4 :=
  Nat.and_pow_two_sub_one_eq_mod i 2

theorem file_part_low (f s : Nat) (hs : s = 0 ∨ s = 8 ∨ s = 16) :
    u8 (u32 (f <<< 24) >>> s) = 0 := by
  unfold u8 u32
  rw [Nat.shiftLeft_eq, Nat.shiftRight_eq_div_pow]
  rcases hs with h | h | h <;> subst h <;> omega

theorem block_part_low (b s : Nat) (hs : s = 0 ∨ s = 8) :
    u8 (u32 (b <<< 16) >>> s) = 0 := by
  unfold u8 u32
  rw [Nat.shiftLeft_eq, Nat.shiftRight_eq_div_pow]
  rcases hs with h | h <;> subst h <;> omega

theorem file_part_high (f : Nat) : u8 (u32 (f <<< 24) >>> 24) = f % 256 := by
  unfold u8 u32
  rw [Nat.shiftLeft_eq, Nat.shiftRight_eq_div_pow]
  omega

theorem block_part_16 (b : Nat) : u8 (u32 (b <<< 16) >>> 16) = b % 256 := by
  unfold u8 u32
  rw [Nat.shiftLeft_eq, Nat.shiftRight_eq_div_pow]
  omega

theorem block_part_24 (b : Nat) : u8 (u32 (b <<< 16) >>> 24) = b / 256 % 256 := by
  unfold u8 u32
  rw [Nat.shiftLeft_eq, Nat.shiftRight_eq_div_pow]
  omega

theorem offset_part_24 (i : Nat) (hi : i < F3V_BLOCK_SIZE) : u8 (i >>> 24) = 0 := by
  rw [block_size_val] at hi
  unfold u8
  rw [Nat.shiftRight_eq_div_pow]
  omega

theorem expected_byte_3 (f b i : Nat) (hi : i < F3V_BLOCK_SIZE) (h3 : i &&& 3 = 3) :
    expected_byte f b i = f % 256 ^^^ b / 256 % 256 := by
  rw [expected_byte_parts, h3]
  show u8 (u32 (f <<< 24) >>> 24) ^^^ u8 (u32 (b <<< 16) >>> 24) ^^^ u8 (i >>> 24) = _
  rw [file_part_high, block_part_24, offset_part_24 i hi, Nat.xor_zero]

theorem expected_byte_2 (f b i : Nat) (h2 : i &&& 3 = 2) :
    expected_byte f b i = b % 256 ^^^ u8 (i >>> 16) := by
  rw [expected_byte_parts, h2]
  show u8 (u32 (f <<< 24) >>> 16) ^^^ u8 (u32 (b <<< 16) >>> 16) ^^^ u8 (i >>> 16) = _
  rw [file_part_low f 16 (Or.inr (Or.inr rfl)), block_part_16, Nat.zero_xor]

theorem expected_byte_low (f b i : Nat) (h : i &&& 3 = 0 ∨ i &&& 3 = 1) :
    expected_byte f b i = u8 (i >>> ((i &&& 3) * 8)) := by
  rw [expected_byte_parts]
  rcases h with h | h
  · rw [h, file_part_low f (0 * 8) (Or.inl rfl), block_part_low b (0 * 8) (Or.inl rfl)]
    simp
  · rw [h, file_part_low f (1 * 8) (Or.inr (Or.inl rfl)),
      block_part_low b (1 * 8) (Or.inr rfl)]
    simp

theorem and_three_cases (i : Nat) :
    i &&& 3 = 0 ∨ i &&& 3 = 1 ∨ i &&& 3 = 2 ∨ i &&& 3 = 3 := by
  rw [and_three]
  omega

theorem expected_byte_file_indep (f1 f2 b i : Nat) (h : i &&& 3 ≠ 3) :
    expected_byte f1 b i = expected_byte f2 b i := by
  rcases and_three_cases i with c | c | c | c
  · rw [expected_byte_low f1 b i (Or.inl c), expected_byte_low f2 b i (Or.inl c)]
  · rw [expected_byte_low f1 b i (Or.inr c), expected_byte_low f2 b i (Or.inr c)]
  · rw [expected_byte_2 f1 b i c, expected_byte_2 f2 b i c]
  · exact absurd c h

theorem expected_byte_file_ne (f1 f2 b i : Nat) (hi : i < F3V_BLOCK_SIZE) (h3 : i &&& 3 = 3)
    (hne : f1 % 256 ≠ f2 % 256) : expected_byte f1 b i ≠ expected_byte f2 b i := by
  rw [expected_byte_3 f1 b i hi h3, expected_byte_3 f2 b i hi h3]
  exact fun h => hne (Nat.xor_left_inj.1 h)

theorem card_offsets_three :
    ((Finset.range F3V_BLOCK_SIZE).filter (fun i => i &&& 3 = 3)).card = 262144 := by
  have h := Nat.count_modEq_card (by norm_num : 0 < 4) 3 (b := F3V_BLOCK_SIZE)
  rw [Nat.count_eq_card_filter_range] at h
  have hset : (Finset.range F3V_BLOCK_SIZE).filter (fun i => i &&& 3 = 3)
      = (Finset.range F3V_BLOCK_SIZE).filter (fun i => i ≡ 3 [MOD 4]) := by
    apply Finset.filter_congr
    intro i _
    rw [and_three]
    exact Iff.rfl
  rw [hset, h, block_size_val]
  decide

theorem wrong_file_mismatch_set (buf0 : Buffer) (f1 f2 b : Nat) (hne : f1 % 256 ≠ f2 % 256) :
    mismatch_set (f3v_fill_pattern buf0 f1 b) f2 b
      = (Finset.range F3V_BLOCK_SIZE).filter (fun i => i &&& 3 = 3) := by
  unfold mismatch_set
  apply Finset.filter_congr
  intro i hi
  have hlt : i < F3V_BLOCK_SIZE := Finset.mem_range.1 hi
  rw [fill_apply_lt buf0 f1 b i hlt]
  constructor
  · intro h
    by_contra c
    exact h (expected_byte_file_indep f1 f2 b i c)
  · intro h3
    exact expected_byte_file_ne f1 f2 b i hlt h3 hne

/-! ## Theorems on the index sensitivity of the codec -/

/-- C15. Location uniqueness, refuted by the code: the index pairs (2, 256)
and (3, 0), both in the range the state machine generates, have the same
pattern word, because bit 8 of the block index lands on bit 24 of the word,
the lowest bit of the file index. So `f3v_fill_pattern` produces the same
block for both, and the block of (2, 256) verifies as clean at (3, 0). -/
theorem C15_location_alias :
    ((2 : Nat), (256 : Nat)) ≠ (3, 0) ∧
    pattern_base 2 256 = pattern_base 3 0 ∧
    (∀ buf : Buffer, f3v_fill_pattern buf 2 256 = f3v_fill_pattern buf 3 0) ∧
    (∀ (buf0 : Buffer) (p : Option Nat),
      f3v_verify_pattern (f3v_fill_pattern buf0 2 256) 3 0 p = (0, p)) := by
  have hb : pattern_base 2 256 = pattern_base 3 0 := by decide
  have hfill : ∀ buf : Buffer, f3v_fill_pattern buf 2 256 = f3v_fill_pattern buf 3 0 := by
    intro buf
    unfold f3v_fill_pattern
    dsimp only
    rw [hb]
  refine ⟨by decide, hb, hfill, fun buf0 p => ?_⟩
  rw [hfill]
  exact verify_clean _ 3 0 p (fun i hi => fill_apply_lt buf0 3 0 i hi)

/-- C16, counterexample: the file indices 1 and 257 give the same block at
block index 0, and the block indices 0 and 65536 give the same block in
file 1. -/
theorem C16_counterexample :
    (1 : Nat) ≠ 257 ∧ f3v_fill_pattern (fun _ => 0) 1 0 = f3v_fill_pattern (fun _ => 0) 257 0 ∧
    (0 : Nat) ≠ 65536 ∧ f3v_fill_pattern (fun _ => 0) 1 0 = f3v_fill_pattern (fun _ => 0) 1 65536 := by
  have h1 : pattern_base 1 0 = pattern_base 257 0 := by decide
  have h2 : pattern_base 1 0 = pattern_base 1 65536 := by decide
  refine ⟨by decide, ?_, by decide, ?_⟩
  · unfold f3v_fill_pattern
    dsimp only
    rw [h1]
  · unfold f3v_fill_pattern
    dsimp only
    rw [h2]

/-- C16, amended. Sensitivity: for file indices `f1`, `f2` that differ in
their low 8 bits (so for all `f1 ≠ f2` below 256) and every block index `b`,
the blocks of `(f1, b)` and `(f2, b)` differ in at least one byte; and for
block indices `b1`, `b2` that differ in their low 16 bits (so for all
`b1 ≠ b2` below 65536) and every file index `f`, the blocks of `(f, b1)` and
`(f, b2)` differ in at least one byte. -/
theorem C16_sensitivity (buf : Buffer) (f1 f2 b f b1 b2 : Nat)
    (hf : f1 % 256 ≠ f2 % 256) (hb : b1 % 65536 ≠ b2 % 65536) :
    (∃ i, i < F3V_BLOCK_SIZE ∧ f3v_fill_pattern buf f1 b i ≠ f3v_fill_pattern buf f2 b i) ∧
    (∃ i, i < F3V_BLOCK_SIZE ∧ f3v_fill_pattern buf f b1 i ≠ f3v_fill_pattern buf f b2 i) := by
  have h3 : (3 : Nat) < F3V_BLOCK_SIZE := by decide
  have h2 : (2 : Nat) < F3V_BLOCK_SIZE := by decide
  constructor
  · refine ⟨3, h3, ?_⟩
    rw [fill_apply_lt buf f1 b 3 h3, fill_apply_lt buf f2 b 3 h3]
    exact expected_byte_file_ne f1 f2 b 3 h3 rfl hf
  · by_cases hlow : b1 % 256 = b2 % 256
    · refine ⟨3, h3, ?_⟩
      rw [fill_apply_lt buf f b1 3 h3, fill_apply_lt buf f b2 3 h3,
        expected_byte_3 f b1 3 h3 rfl, expected_byte_3 f b2 3 h3 rfl]
      intro h
      have := Nat.xor_right_inj.1 h
      omega
    · refine ⟨2, h2, ?_⟩
      rw [fill_apply_lt buf f b1 2 h2, fill_apply_lt buf f b2 2 h2,
        expected_byte_2 f b1 2 rfl, expected_byte_2 f b2 2 rfl]
      exact fun h => hlow (Nat.xor_left_inj.1 h)

/-- Witness of C16 at the index pairs of the tests `test_fill_different_file`
and `test_fill_different_block`: (1, 0) against (2, 0), and (1, 0) against
(1, 1). -/
theorem C16_sensitivity_witness :
    (∃ i, i < F3V_BLOCK_SIZE ∧
      f3v_fill_pattern (fun _ => 0) 1 0 i ≠ f3v_fill_pattern (fun _ => 0) 2 0 i) ∧
    (∃ i, i < F3V_BLOCK_SIZE ∧
      f3v_fill_pattern (fun _ => 0) 1 0 i ≠ f3v_fill_pattern (fun _ => 0) 1 1 i) :=
  C16_sensitivity (fun _ => 0) 1 2 0 1 0 1 (by decide) (by decide)

/-- C17. Wrong file index: for every block index `b` and all file indices
`f1 ≠ f2` with `f1, f2 ≤ 255`, verifying the block of `(f1, b)` against
`(f2, b)` finds mismatches exactly at the offsets `i` of the block with
`(i & 3) == 3`; the returned count is `F3V_BLOCK_SIZE / 4 = 262144`, which is
greater than `F3V_BLOCK_SIZE / 8` and neither 0 nor `F3V_BLOCK_SIZE`, and the
first offset reported is 3. -/
theorem C17_wrong_file_index (buf0 : Buffer) (f1 f2 b v : Nat)
    (h1 : f1 ≤ 255) (h2 : f2 ≤ 255) (hne : f1 ≠ f2) :
    mismatch_set (f3v_fill_pattern buf0 f1 b) f2 b
      = (Finset.range F3V_BLOCK_SIZE).filter (fun i => i &&& 3 = 3) ∧
    f3v_verify_pattern (f3v_fill_pattern buf0 f1 b) f2 b (some v)
      = (F3V_BLOCK_SIZE / 4, some 3) ∧
    F3V_BLOCK_SIZE / 4 = 262144 ∧ F3V_BLOCK_SIZE / 8 < F3V_BLOCK_SIZE / 4 ∧
    F3V_BLOCK_SIZE / 4 ≠ 0 ∧ F3V_BLOCK_SIZE / 4 ≠ F3V_BLOCK_SIZE := by
  have hmod : f1 % 256 ≠ f2 % 256 := by omega
  have hset := wrong_file_mismatch_set buf0 f1 f2 b hmod
  have h3 : (3 : Nat) < F3V_BLOCK_SIZE := by decide
  have hmem : ∀ i, i < F3V_BLOCK_SIZE →
      (f3v_fill_pattern buf0 f1 b i ≠ expected_byte f2 b i ↔ i &&& 3 = 3) := by
    intro i hi
    have : i ∈ mismatch_set (f3v_fill_pattern buf0 f1 b) f2 b ↔
        i ∈ (Finset.range F3V_BLOCK_SIZE).filter (fun i => i &&& 3 = 3) := by rw [hset]
    unfold mismatch_set at this
    simp only [Finset.mem_filter, Finset.mem_range, hi, true_and] at this
    exact this
  refine ⟨hset, ?_, by decide, by decide, by decide, by decide⟩
  obtain ⟨m, hm, hmlt, hmne, hleast⟩ :=
    verify_first (f3v_fill_pattern buf0 f1 b) f2 b v ⟨3, h3, (hmem 3 h3).2 rfl⟩
  have hm3 : m &&& 3 = 3 := (hmem m hmlt).1 hmne
  have hle : m ≤ 3 := by
    by_contra c
    exact (hmem 3 h3).2 rfl (hleast 3 (by omega))
  have hge : 3 ≤ m := by
    rw [and_three] at hm3
    omega
  have hcount := verify_count_eq (f3v_fill_pattern buf0 f1 b) f2 b (some v)
  rw [hset, card_offsets_three] at hcount
  have hm_eq : m = 3 := by omega
  rw [hm_eq] at hm
  have hq : F3V_BLOCK_SIZE / 4 = 262144 := by decide
  rw [hq]
  exact Prod.ext hcount hm

/-- Witness of C17 at the call of the test `test_verify_wrong_file_index`:
the block of (1, 0) verified against (2, 0). -/
theorem C17_wrong_file_index_witness :
    f3v_verify_pattern (f3v_fill_pattern (fun _ => 0) 1 0) 2 0 (some 0)
      = (F3V_BLOCK_SIZE / 4, some 3) :=
  (C17_wrong_file_index (fun _ => 0) 1 2 0 0 (by decide) (by decide) (by decide)).2.1

theorem verify_null_out (buf : Buffer) (f b : Nat) :
    (f3v_verify_pattern buf f b none).2 = none := by
  rw [verify_eq_closed]
  simp [verify_closed]

/-- C21. Determinism: for every `(f, b)` and any two initial buffer contents,
the blocks `f3v_fill_pattern` leaves are byte-identical; in particular the
block does not depend on an earlier call for other indices `(f0, b0)` on the
same buffer. -/
theorem C21_fill_deterministic (buf1 buf2 : Buffer) (f b f0 b0 i : Nat)
    (hi : i < F3V_BLOCK_SIZE) :
    f3v_fill_pattern buf1 f b i = f3v_fill_pattern buf2 f b i ∧
    f3v_fill_pattern (f3v_fill_pattern buf1 f0 b0) f b i = f3v_fill_pattern buf2 f b i := by
  rw [fill_apply_lt buf1 f b i hi, fill_apply_lt buf2 f b i hi, fill_apply_lt _ f b i hi]
  exact ⟨rfl, rfl⟩

/-- Witness of C21 at the second pair of the test `test_fill_deterministic`,
(5, 10), on a cleared buffer and on a buffer of 0xAA bytes that held the block
of (1, 0) before, at the last offset of the block. -/
theorem C21_fill_deterministic_witness :
    f3v_fill_pattern (fun _ => 0) 5 10 1048575 = f3v_fill_pattern (fun _ => 0xAA) 5 10 1048575 ∧
    f3v_fill_pattern (f3v_fill_pattern (fun _ => 0) 1 0) 5 10 1048575
      = f3v_fill_pattern (fun _ => 0xAA) 5 10 1048575 :=
  C21_fill_deterministic (fun _ => 0) (fun _ => 0xAA) 5 10 1 0 1048575 (by decide)

/-- C22. Non-uniform block: for every `(f, b)`, zero indices included, the
block produced by `f3v_fill_pattern` has among its first 1000 bytes one that
differs from the byte at offset 0: the byte at offset 0 is 0 and the byte at
offset 4 is 4. -/
theorem C22_fill_not_uniform (buf : Buffer) (f b : Nat) :
    (∃ i, 1 ≤ i ∧ i < 1000 ∧ f3v_fill_pattern buf f b i ≠ f3v_fill_pattern buf f b 0) ∧
    f3v_fill_pattern buf f b 0 = 0 ∧ f3v_fill_pattern buf f b 4 = 4 := by
  have h0 : f3v_fill_pattern buf f b 0 = 0 := by
    rw [fill_apply_lt buf f b 0 (by decide), expected_byte_low f b 0 (Or.inl rfl)]
    decide
  have h4 : f3v_fill_pattern buf f b 4 = 4 := by
    rw [fill_apply_lt buf f b 4 (by decide), expected_byte_low f b 4 (Or.inl rfl)]
    decide
  refine ⟨⟨4, by decide, by decide, ?_⟩, h0, h4⟩
  rw [h0, h4]
  decide

/-- C23. Optional first offset: for every buffer and every
`(file_idx, block_idx)`, `f3v_verify_pattern` called with a NULL
`first_error_offset` returns the same count as when called with a cell to
write to, whatever the cell held, be there mismatches or not; with NULL
nothing is written. The function is total: the call completes in both
cases. -/
theorem C23_verify_null_offset (buf : Buffer) (f b v : Nat) :
    (f3v_verify_pattern buf f b none).1 = (f3v_verify_pattern buf f b (some v)).1 ∧
    (f3v_verify_pattern buf f b none).1 = (mismatch_set buf f b).card ∧
    (f3v_verify_pattern buf f b none).2 = none := by
  rw [verify_count_eq, verify_count_eq]
  exact ⟨rfl, rfl, verify_null_out buf f b⟩

theorem verify_positive_first (buf : Buffer) (f b : Nat)
    (h : 0 < (f3v_verify_pattern buf f b (some 0)).1) :
    ∃ off, (f3v_verify_pattern buf f b (some 0)).2 = some off ∧ off < F3V_BLOCK_SIZE ∧
      buf off ≠ expected_byte f b off ∧ ∀ j, j < off → buf j = expected_byte f b j := by
  rw [verify_count_eq] at h
  obtain ⟨i, hi⟩ := Finset.card_pos.1 h
  unfold mismatch_set at hi
  rw [Finset.mem_filter, Finset.mem_range] at hi
  exact verify_first buf f b 0 ⟨i, hi.1, hi.2⟩

theorem first_error_record_new (ctx : TestContext) (f b o : Nat)
    (h : ctx.has_first_error = false) :
    first_error_record (record_first_error ctx f b o) = (true, f, b, o) := by
  unfold record_first_error
  rw [if_pos h]
  rfl

theorem first_error_record_set_verified (c : TestContext) (x : Nat) :
    first_error_record { c with bytes_verified := x } = first_error_record c := rfl

theorem verify_block_advanced {W : Type} (P : Platform W) (m0 m : Machine) (f b : Nat) (w : W)
    (hs : m.g_state = AppState.STATE_VERIFY) (hctx : m.g_ctx = m0.g_ctx)
    (hpos : 0 < (f3v_read_block P m.verify_fd m.g_buffer F3V_BLOCK_SIZE w).1.1) :
    VerifyAdvanced m0 (verify_block P m f b w).1 f b
      (f3v_read_block P m.verify_fd m.g_buffer F3V_BLOCK_SIZE w).1.1
      (f3v_read_block P m.verify_fd m.g_buffer F3V_BLOCK_SIZE w).1.2 := by
  unfold VerifyAdvanced
  rw [← hctx]
  have hrec := first_error_record_verify_block P m f b w
  unfold verify_block at hrec ⊢
  dsimp only at hrec ⊢
  rw [if_neg (Int.not_le.2 hpos)] at hrec ⊢
  by_cases hc : 0 < (f3v_verify_pattern
      (f3v_read_block P m.verify_fd m.g_buffer F3V_BLOCK_SIZE w).1.2 f b (some 0)).1
  · rw [if_pos hc] at hrec ⊢
    refine ⟨hs, ?_, ?_, ?_, ?_, ?_⟩
    · exact record_first_error_bytes_corrupted _ _ _ _
    · show (((record_first_error _ _ _ _).bytes_verified + _ : Nat) : Int) = _
      rw [record_first_error_bytes_verified, Nat.cast_add, Int.toNat_of_nonneg (le_of_lt hpos)]
    · exact record_first_error_bytes_written _ _ _ _
    · intro _ hno
      obtain ⟨off, h1, h2, h3, h4⟩ := verify_positive_first _ f b hc
      refine ⟨off, ?_, h2, h3, h4⟩
      rw [first_error_record_set_verified, h1]
      exact first_error_record_new _ f b off hno
    · rintro (h0 | hset)
      · rw [h0] at hc
        exact absurd hc (Nat.lt_irrefl 0)
      · exact hrec hset
  · have h0 : (f3v_verify_pattern
      (f3v_read_block P m.verify_fd m.g_buffer F3V_BLOCK_SIZE w).1.2 f b (some 0)).1 = 0 :=
      Nat.eq_zero_of_not_pos hc
    rw [if_neg hc]
    refine ⟨hs, by rw [h0]; rfl, ?_, rfl, fun h => absurd h hc, fun _ => rfl⟩
    show ((m.g_ctx.bytes_verified + _ : Nat) : Int) = _
    rw [Nat.cast_add, Int.toNat_of_nonneg (le_of_lt hpos)]

theorem verify_block_read_failed {W : Type} (P : Platform W) (m0 m : Machine) (f b : Nat) (w : W)
    (hs : m.g_state = AppState.STATE_VERIFY) (hctx : m.g_ctx = m0.g_ctx)
    (hfail : (f3v_read_block P m.verify_fd m.g_buffer F3V_BLOCK_SIZE w).1.1 ≤ 0) :
    ReadFailed m0 (verify_block P m f b w).1 f b := by
  unfold ReadFailed
  rw [← hctx]
  have hrec := first_error_record_verify_block P m f b w
  unfold verify_block at hrec ⊢
  dsimp only at hrec ⊢
  rw [if_pos hfail] at hrec ⊢
  refine ⟨hs, ?_, ?_, ?_, fun hno => ?_, hrec⟩
  · exact record_first_error_bytes_corrupted _ _ _ _
  · exact record_first_error_bytes_verified _ _ _ _
  · exact record_first_error_bytes_written _ _ _ _
  · exact first_error_record_new _ f b 0 hno

theorem state_verify_open_failed {W : Type} (P : Platform W) (m : Machine) (w : W)
    (hbtn : (poll_buttons P m w).1 &&& F3V_BTN_CIRCLE = 0)
    (hlt : m.g_ctx.bytes_verified < m.g_ctx.bytes_written)
    (hidx : file_index m.g_ctx.bytes_verified ≠ m.verify_current_file_idx)
    (hopen : (reopen P m.verify_fd (f3v_open_read P)
        (f3v_get_test_filename m.g_ctx (file_index m.g_ctx.bytes_verified))
        (poll_buttons P m w).2.2).1 < 0) :
    OpenFailed m (state_verify P m w).1 (file_index m.g_ctx.bytes_verified)
      (block_index m.g_ctx.bytes_verified)
      (f3v_get_time_usec P (reopen P m.verify_fd (f3v_open_read P)
        (f3v_get_test_filename m.g_ctx (file_index m.g_ctx.bytes_verified))
        (poll_buttons P m w).2.2).2).1 := by
  have hrec := first_error_record_state_verify P m w
  unfold OpenFailed
  unfold state_verify at hrec ⊢
  dsimp only at hrec ⊢
  rw [if_neg (not_not.2 hbtn), if_neg (Nat.not_le.2 hlt), if_pos hidx, if_pos hopen] at hrec ⊢
  refine ⟨rfl, ?_, ?_, ?_, fun hno => ?_, hrec, rfl⟩
  · exact record_first_error_bytes_corrupted _ _ _ _
  · exact record_first_error_bytes_verified _ _ _ _
  · exact record_first_error_bytes_written _ _ _ _
  · exact first_error_record_new _ _ _ 0 hno

/-! ## Theorems on the verify phase -/

/-- C24. Verify success accounting: a verify tick (no cancellation,
`bytes_verified < bytes_written`) whose read returns `n > 0`, be it on the
file already open or after a successful open of the file that is due, stays in
Verify, adds to `bytes_corrupted` the count `f3v_verify_pattern` returns for
the buffer at the indices computed from the pre-tick `bytes_verified`,
advances `bytes_verified` by exactly `n`, and, when the count is positive and
no first error was recorded, records `(file_idx, block_idx, off)` with `off`
the lowest mismatching offset; otherwise the first-error record stays. -/
theorem C24_verify_success {W : Type} (P : Platform W) (m : Machine) (w : W)
    (hstate : m.g_state = AppState.STATE_VERIFY)
    (hbtn : (poll_buttons P m w).1 &&& F3V_BTN_CIRCLE = 0)
    (hlt : m.g_ctx.bytes_verified < m.g_ctx.bytes_written) :
    let f := file_index m.g_ctx.bytes_verified
    let b := block_index m.g_ctx.bytes_verified
    let p := poll_buttons P m w
    let o := reopen P m.verify_fd (f3v_open_read P) (f3v_get_test_filename m.g_ctx f) p.2.2
    (f = m.verify_current_file_idx →
      0 < (f3v_read_block P m.verify_fd m.g_buffer F3V_BLOCK_SIZE p.2.2).1.1 →
      VerifyAdvanced m (state_verify P m w).1 f b
        (f3v_read_block P m.verify_fd m.g_buffer F3V_BLOCK_SIZE p.2.2).1.1
        (f3v_read_block P m.verify_fd m.g_buffer F3V_BLOCK_SIZE p.2.2).1.2) ∧
    (f ≠ m.verify_current_file_idx → 0 ≤ o.1 →
      0 < (f3v_read_block P o.1 m.g_buffer F3V_BLOCK_SIZE o.2).1.1 →
      VerifyAdvanced m (state_verify P m w).1 f b
        (f3v_read_block P o.1 m.g_buffer F3V_BLOCK_SIZE o.2).1.1
        (f3v_read_block P o.1 m.g_buffer F3V_BLOCK_SIZE o.2).1.2) := by
  intro f b p o
  constructor
  · intro hidx hpos
    rw [state_verify_same_file P m w hbtn hlt hidx]
    exact verify_block_advanced P m _ f b _ (by exact hstate) (by rfl) hpos
  · intro hidx hopen hpos
    rw [state_verify_open_read P m w hbtn hlt hidx hopen]
    exact verify_block_advanced P m _ f b _ (by exact hstate) (by rfl) hpos

/-- Witness of C24: a verify tick of `verify_machine` with two blocks written
and one verified, file 1 open, on the platform whose reads return a full block
of 0xAA bytes. -/
theorem C24_verify_success_witness :
    VerifyAdvanced (verify_machine 2097152 1048576 3 1)
      (state_verify garbage_platform (verify_machine 2097152 1048576 3 1) ()).1 1 1
      (1048576 : Int) (fun _ => 0xAA) :=
  (C24_verify_success garbage_platform (verify_machine 2097152 1048576 3 1) () rfl (by decide)
    (by decide)).1 (by decide) (by decide)

/-- C25. Verify read failure: a verify tick (no cancellation,
`bytes_verified < bytes_written`) whose block read returns zero or a negative
count, be it on the file already open or after a successful open, adds exactly
`F3V_BLOCK_SIZE` to `bytes_corrupted` and to `bytes_verified`, records the
first error as `(file_idx, block_idx, 0)` if none was recorded and leaves the
record as it was otherwise, and stays in Verify. -/
theorem C25_verify_read_failure {W : Type} (P : Platform W) (m : Machine) (w : W)
    (hstate : m.g_state = AppState.STATE_VERIFY)
    (hbtn : (poll_buttons P m w).1 &&& F3V_BTN_CIRCLE = 0)
    (hlt : m.g_ctx.bytes_verified < m.g_ctx.bytes_written) :
    let f := file_index m.g_ctx.bytes_verified
    let b := block_index m.g_ctx.bytes_verified
    let p := poll_buttons P m w
    let o := reopen P m.verify_fd (f3v_open_read P) (f3v_get_test_filename m.g_ctx f) p.2.2
    (f = m.verify_current_file_idx →
      (f3v_read_block P m.verify_fd m.g_buffer F3V_BLOCK_SIZE p.2.2).1.1 ≤ 0 →
      ReadFailed m (state_verify P m w).1 f b) ∧
    (f ≠ m.verify_current_file_idx → 0 ≤ o.1 →
      (f3v_read_block P o.1 m.g_buffer F3V_BLOCK_SIZE o.2).1.1 ≤ 0 →
      ReadFailed m (state_verify P m w).1 f b) := by
  intro f b p o
  constructor
  · intro hidx hfail
    rw [state_verify_same_file P m w hbtn hlt hidx]
    exact verify_block_read_failed P m _ f b _ (by exact hstate) (by rfl) hfail
  · intro hidx hopen hfail
    rw [state_verify_open_read P m w hbtn hlt hidx hopen]
    exact verify_block_read_failed P m _ f b _ (by exact hstate) (by rfl) hfail

/-- Witness of C25: the first verify tick of `verify_machine` with two blocks
written on `failing_read_platform`: file 1 is opened, the read returns 0. -/
theorem C25_verify_read_failure_witness :
    ReadFailed (verify_machine 2097152 0 (-1) 0)
      (state_verify failing_read_platform (verify_machine 2097152 0 (-1) 0) 0).1 1 0 :=
  (C25_verify_read_failure failing_read_platform (verify_machine 2097152 0 (-1) 0) 0 rfl
    (by decide) (by decide)).2 (by decide) (by decide) (by decide)

/-- C26. Verify open failure: a verify tick (no cancellation,
`bytes_verified < bytes_written`) that has to open the file of the block that
is due and gets a negative descriptor ends in Results, adds exactly the
pre-tick `bytes_written - bytes_verified` to `bytes_corrupted`, sets
`bytes_verified = bytes_written`, records the first error as
`(file_idx, block_idx, 0)` if none was recorded and leaves the record as it
was otherwise, and sets `end_time` to the time read after the failed open. -/
theorem C26_verify_open_failure {W : Type} (P : Platform W) (m : Machine) (w : W)
    (hbtn : (poll_buttons P m w).1 &&& F3V_BTN_CIRCLE = 0)
    (hlt : m.g_ctx.bytes_verified < m.g_ctx.bytes_written)
    (hidx : file_index m.g_ctx.bytes_verified ≠ m.verify_current_file_idx)
    (hopen : (reopen P m.verify_fd (f3v_open_read P)
        (f3v_get_test_filename m.g_ctx (file_index m.g_ctx.bytes_verified))
        (poll_buttons P m w).2.2).1 < 0) :
    OpenFailed m (state_verify P m w).1 (file_index m.g_ctx.bytes_verified)
      (block_index m.g_ctx.bytes_verified)
      (f3v_get_time_usec P (reopen P m.verify_fd (f3v_open_read P)
        (f3v_get_test_filename m.g_ctx (file_index m.g_ctx.bytes_verified))
        (poll_buttons P m w).2.2).2).1 :=
  state_verify_open_failed P m w hbtn hlt hidx hopen

/-- Witness of C26: the first verify tick of `verify_machine` with three blocks
written and one block of file 1 verified, no file open, on a platform whose
opens fail and whose clock stands at 7: two blocks are charged and `end_time`
is 7. -/
theorem C26_verify_open_failure_witness :
    OpenFailed (verify_machine 3145728 1048576 (-1) 0)
      (state_verify (fixed_platform pad_cross 0 (-1) 0) (verify_machine 3145728 1048576 (-1) 0)
        ()).1 1 1 7 :=
  C26_verify_open_failure (fixed_platform pad_cross 0 (-1) 0)
    (verify_machine 3145728 1048576 (-1) 0) () (by decide) (by decide) (by decide) (by decide)

/-! ## Lemmas on `files_written` at the open and on block alignment -/

theorem write_block_files_written {W : Type} (P : Platform W) (m : Machine) (f b : Nat) (w : W) :
    (write_block P m f b w).1.g_ctx.files_written = m.g_ctx.files_written := by
  unfold write_block
  dsimp only
  split_ifs <;> rfl

/-- C27, counterexample: on a platform whose opens succeed and whose writes
return 0, the first write tick of a test opens file 1, gets 0 from the block
write and ends in Verify with `files_written = 1`, while `files_written` was 0
before the tick. -/
theorem C27_counterexample :
    (write_machine 0 (-1) 0).g_ctx.files_written = 0 ∧
    (f3v_write_block (fixed_platform pad_cross 1048576 3 0) 3
      (f3v_fill_pattern (write_machine 0 (-1) 0).g_buffer 1 0) F3V_BLOCK_SIZE ()).1 ≤ 0 ∧
    (state_write (fixed_platform pad_cross 1048576 3 0) (write_machine 0 (-1) 0) ()).1.g_state
      = AppState.STATE_VERIFY ∧
    (state_write (fixed_platform pad_cross 1048576 3 0)
      (write_machine 0 (-1) 0) ()).1.g_ctx.files_written = 1 := by
  decide

/-- C27, amended. `files_written` is recorded when a file is opened for
writing: a write tick (no cancellation, space available) that opens the file
that is due leaves `files_written` at the index of that file, whatever the
block write returns, also zero or a negative count; a write tick on the file
already open whose block write returns zero or a negative count leaves
`files_written` as it was before the tick. -/
theorem C27_files_written_at_open {W : Type} (P : Platform W) (m : Machine) (w : W)
    (hbtn : (poll_buttons P m w).1 &&& F3V_BTN_CIRCLE = 0)
    (hspace : (f3v_has_space P m.g_ctx (poll_buttons P m w).2.2).1 = true) :
    let h := f3v_has_space P m.g_ctx (poll_buttons P m w).2.2
    let f := file_index m.g_ctx.bytes_written
    let b := block_index m.g_ctx.bytes_written
    let o := reopen P m.write_fd (f3v_open_write P) (f3v_get_test_filename h.2.1 f) h.2.2
    let buf := f3v_fill_pattern m.g_buffer f b
    (f ≠ m.write_current_file_idx → 0 ≤ o.1 →
      (state_write P m w).1.g_ctx.files_written = f) ∧
    (f = m.write_current_file_idx →
      (f3v_write_block P m.write_fd buf F3V_BLOCK_SIZE h.2.2).1 ≤ 0 →
      (state_write P m w).1.g_ctx.files_written = m.g_ctx.files_written) := by
  intro h f b o buf
  constructor
  · intro hidx hopen
    rw [state_write_new_file P m w hbtn hspace hidx hopen, write_block_files_written]
  · intro hidx _
    rw [state_write_same_file P m w hbtn hspace hidx, write_block_files_written]
    rfl

/-- Witness of C27: the tick of the counterexample, a failed first write into
file 1 just opened, leaves `files_written = 1`. -/
theorem C27_files_written_at_open_witness :
    (state_write (fixed_platform pad_cross 1048576 3 0)
      (write_machine 0 (-1) 0) ()).1.g_ctx.files_written = file_index 0 :=
  (C27_files_written_at_open (fixed_platform pad_cross 1048576 3 0) (write_machine 0 (-1) 0) ()
    (by decide) (by decide)).1 (by decide) (by decide)

theorem wait_release_stuck {W : Type} (P : Platform W) (last : Nat) (h : last ≠ 0)
    (fuel : Nat) : ∀ w : W, wait_release P last fuel w = none := by
  induction fuel with
  | zero => intro w; rfl
  | succ g ih =>
    intro w
    unfold wait_release
    dsimp only
    rw [if_pos h]
    exact ih _

theorem wait_button_stuck {W : Type} (P : Platform W) (fuel mask last : Nat) (w : W)
    (h : last ≠ 0) : f3v_ui_wait_button P fuel mask last w = none := by
  unfold f3v_ui_wait_button
  rw [wait_release_stuck P last h fuel w]

theorem state_cleanup_stuck {W : Type} (P : Platform W) (fuel : Nat) (m : Machine) (w : W)
    (h : m.g_last_buttons ≠ 0) : state_cleanup P fuel m w = none := by
  unfold state_cleanup
  cases f3v_cleanup_files P fuel m.g_ctx w with
  | none => rfl
  | some d =>
    dsimp only
    rw [wait_button_stuck P fuel F3V_BTN_ANY m.g_last_buttons d.2 h]

theorem read_buttons_pressed {W : Type} (P : Platform W) (last : Nat) (w : W) (mask : Nat)
    (h : (f3v_ui_read_buttons P last w).1 &&& mask ≠ 0) :
    (f3v_ui_read_buttons P last w).2.1 ≠ 0 := by
  unfold f3v_ui_read_buttons at h ⊢
  dsimp only at h ⊢
  intro hz
  rw [hz] at h
  simp at h

theorem state_results_cleanup {W : Type} (P : Platform W) (m : Machine) (w : W)
    (hs : m.g_state ≠ AppState.STATE_CLEANUP)
    (hc : (state_results P m w).1.g_state = AppState.STATE_CLEANUP) :
    (state_results P m w).1.g_last_buttons ≠ 0 := by
  unfold state_results at hc ⊢
  dsimp only at hc ⊢
  split_ifs at hc ⊢ with c1 c2
  all_goals first
    | exact absurd hc hs
    | exact read_buttons_pressed P _ _ _ c2

theorem cleanup_pressed_tick {W : Type} (P : Platform W) (fuel : Nat) (m : Machine) (w : W)
    (r : Machine × W) (hne : m.g_state ≠ AppState.STATE_EXIT) (hr : tick P fuel m w = some r)
    (hc : r.1.g_state = AppState.STATE_CLEANUP) : r.1.g_last_buttons ≠ 0 := by
  unfold tick at hr
  split at hr
  next hs =>
    rcases state_menu_state P fuel m w r hr with h | h | h
    · rw [h, hs] at hc; exact absurd hc (by simp)
    · rw [h] at hc; exact absurd hc (by simp)
    · rw [h] at hc; exact absurd hc (by simp)
  next hs =>
    simp only [Option.some.injEq] at hr
    rw [← hr] at hc
    rcases state_write_state P m w with h | h | ⟨h, _⟩
    · rw [h, hs] at hc; exact absurd hc (by simp)
    · rw [h] at hc; exact absurd hc (by simp)
    · rw [h] at hc; exact absurd hc (by simp)
  next hs =>
    simp only [Option.some.injEq] at hr
    rw [← hr] at hc
    rcases state_verify_state P m w hs with h | h
    · rw [h] at hc; exact absurd hc (by simp)
    · rw [h] at hc; exact absurd hc (by simp)
  next hs =>
    simp only [Option.some.injEq] at hr
    rw [← hr] at hc ⊢
    exact state_results_cleanup P m w (by rw [hs]; simp) hc
  next hs =>
    rw [state_cleanup_state P fuel m w r hr] at hc
    exact absurd hc (by simp)
  next hs => exact absurd hs hne

theorem cleanup_pressed_reachable {W : Type} (P : Platform W) (m : Machine) (w : W)
    (hreach : Reachable P m w) (hc : m.g_state = AppState.STATE_CLEANUP) :
    m.g_last_buttons ≠ 0 := by
  cases hreach with
  | boot devices count w => exact absurd hc (by simp [boot])
  | step fuel m0 w0 m2 w2 _ hne ht => exact cleanup_pressed_tick P fuel m0 w0 (m, w) hne ht hc

/-! ## Theorem on the button wait -/

/-- C31. Button wait, refuted by the code: the wait-for-release loop of
`f3v_ui_wait_button` tests `g_last_buttons`, which only `f3v_ui_read_buttons`
assigns and which the loop never calls, so entered with `g_last_buttons != 0`
the function does not return, whatever the pad reports and whatever the fuel.
A Cleanup state is reached only by the X press in Results, which leaves
`g_last_buttons != 0`: in every run the Cleanup tick does not return and the
state is never set to Exit. On `scripted_platform pads_cleanup 0` the first
four iterations of the loop of `main` end in Cleanup with `g_last_buttons = 1`
and the pad reports all buttons released from then on; the fifth iteration
does not return. -/
theorem C31_wait_button_never_returns :
    (∀ (W : Type) (P : Platform W) (fuel mask last : Nat) (w : W), last ≠ 0 →
      f3v_ui_wait_button P fuel mask last w = none) ∧
    (∀ (W : Type) (P : Platform W) (m : Machine) (w : W), Reachable P m w →
      m.g_state = AppState.STATE_CLEANUP → ∀ fuel, tick P fuel m w = none) ∧
    (∃ m w, main_loop (scripted_platform pads_cleanup 0) 0 4 (boot one_device 1) 0 = some (m, w) ∧
      m.g_state = AppState.STATE_CLEANUP ∧ m.g_last_buttons = 1 ∧
      (∀ k, w ≤ k → pads_cleanup k = pad_none) ∧
      ∀ fuel, tick (scripted_platform pads_cleanup 0) fuel m w = none) := by
  have hgen : ∀ (W : Type) (P : Platform W) (m : Machine) (w : W), Reachable P m w →
      m.g_state = AppState.STATE_CLEANUP → ∀ fuel, tick P fuel m w = none := by
    intro W P m w hreach hc fuel
    unfold tick
    rw [hc]
    exact state_cleanup_stuck P fuel m w (cleanup_pressed_reachable P m w hreach hc)
  refine ⟨fun W P fuel mask last w h => wait_button_stuck P fuel mask last w h, hgen, ?_⟩
  have h : (main_loop (scripted_platform pads_cleanup 0) 0 4 (boot one_device 1) 0).map
      (fun r => (r.1.g_state, r.1.g_last_buttons, r.2))
      = some (AppState.STATE_CLEANUP, 1, 4) := by decide
  cases hm : main_loop (scripted_platform pads_cleanup 0) 0 4 (boot one_device 1) 0 with
  | none => rw [hm] at h; simp at h
  | some r =>
    rw [hm] at h
    simp only [Option.map_some', Option.some.injEq, Prod.mk.injEq] at h
    refine ⟨r.1, r.2, rfl, h.1, h.2.1, ?_, ?_⟩
    · intro k hk
      rw [h.2.2] at hk
      unfold pads_cleanup
      rw [if_neg (by omega)]
    · exact hgen Nat (scripted_platform pads_cleanup 0) r.1 r.2
        (main_loop_reachable _ 0 4 _ 0 r.1 r.2 (Reachable.boot one_device 1 0) hm) h.1

/-! ## Lemmas on the collisions of the pattern word -/

theorem card_offsets_two :
    ((Finset.range F3V_BLOCK_SIZE).filter (fun i => i &&& 3 = 2)).card = 262144 := by
  have h := Nat.count_modEq_card (by norm_num : 0 < 4) 2 (b := F3V_BLOCK_SIZE)
  rw [Nat.count_eq_card_filter_range] at h
  have hset : (Finset.range F3V_BLOCK_SIZE).filter (fun i => i &&& 3 = 2)
      = (Finset.range F3V_BLOCK_SIZE).filter (fun i => i ≡ 2 [MOD 4]) := by
    apply Finset.filter_congr
    intro i _
    rw [and_three]
    exact Iff.rfl
  rw [hset, h, block_size_val]
  decide

theorem u8_xor (a b : Nat) : u8 (a ^^^ b) = u8 a ^^^ u8 b := by
  have h := u8_shift_xor a b 0
  simpa using h

theorem base_byte_2 (f b : Nat) : u8 (pattern_base f b >>> 16) = b % 256 := by
  unfold pattern_base
  rw [u8_shift_xor, file_part_low f 16 (Or.inr (Or.inr rfl)), block_part_16, Nat.zero_xor]

theorem base_byte_3 (f b : Nat) :
    u8 (pattern_base f b >>> 24) = f % 256 ^^^ b / 256 % 256 := by
  unfold pattern_base
  rw [u8_shift_xor, file_part_high, block_part_24]

theorem base_low (f b : Nat) : pattern_base f b % 65536 = 0 := by
  have h0 : u8 (pattern_base f b >>> 0) = 0 := by
    unfold pattern_base
    rw [u8_shift_xor, file_part_low f 0 (Or.inl rfl), block_part_low b 0 (Or.inl rfl)]
    rfl
  have h8 : u8 (pattern_base f b >>> 8) = 0 := by
    unfold pattern_base
    rw [u8_shift_xor, file_part_low f 8 (Or.inr (Or.inl rfl)), block_part_low b 8 (Or.inr rfl)]
    rfl
  unfold u8 at h0 h8
  rw [Nat.shiftRight_eq_div_pow] at h0 h8
  omega

theorem base_lt (f b : Nat) : pattern_base f b < 2 ^ 32 := by
  unfold pattern_base u32
  exact Nat.xor_lt_two_pow (Nat.mod_lt _ (by norm_num)) (Nat.mod_lt _ (by norm_num))

theorem base_of_bytes (f b : Nat) :
    pattern_base f b = (f % 256 ^^^ b / 256 % 256) * 16777216 + b % 256 * 65536 := by
  have h2 := base_byte_2 f b
  have h3 := base_byte_3 f b
  have hl := base_low f b
  have ht := base_lt f b
  unfold u8 at h2 h3
  rw [Nat.shiftRight_eq_div_pow] at h2 h3
  rw [← h2, ← h3]
  omega

theorem base_eq_iff (f1 b1 f2 b2 : Nat) :
    pattern_base f1 b1 = pattern_base f2 b2 ↔
      b1 % 256 = b2 % 256 ∧ (f1 ^^^ (b1 >>> 8)) % 256 = (f2 ^^^ (b2 >>> 8)) % 256 := by
  have hx : ∀ f b : Nat, (f ^^^ (b >>> 8)) % 256 = f % 256 ^^^ b / 256 % 256 := by
    intro f b
    have := u8_xor f (b >>> 8)
    unfold u8 at this
    rw [this, Nat.shiftRight_eq_div_pow]
  rw [hx, hx]
  constructor
  · intro h
    have h2 := base_byte_2 f1 b1
    have h3 := base_byte_3 f1 b1
    rw [h, base_byte_2] at h2
    rw [h, base_byte_3] at h3
    exact ⟨h2.symm, h3.symm⟩
  · rintro ⟨h2, h3⟩
    rw [base_of_bytes f1 b1, base_of_bytes f2 b2, h2, h3]

theorem fill_eq_of_base (buf1 buf2 : Buffer) (f1 b1 f2 b2 i : Nat) (hi : i < F3V_BLOCK_SIZE)
    (h : pattern_base f1 b1 = pattern_base f2 b2) :
    f3v_fill_pattern buf1 f1 b1 i = f3v_fill_pattern buf2 f2 b2 i := by
  rw [fill_apply_lt buf1 f1 b1 i hi, fill_apply_lt buf2 f2 b2 i hi, expected_byte_eq,
    expected_byte_eq, h]

theorem fill_differ_of_base (buf1 buf2 : Buffer) (f1 b1 f2 b2 : Nat)
    (h : pattern_base f1 b1 ≠ pattern_base f2 b2) :
    (∀ i, i < F3V_BLOCK_SIZE → i &&& 3 = 2 →
      f3v_fill_pattern buf1 f1 b1 i ≠ f3v_fill_pattern buf2 f2 b2 i) ∨
    (∀ i, i < F3V_BLOCK_SIZE → i &&& 3 = 3 →
      f3v_fill_pattern buf1 f1 b1 i ≠ f3v_fill_pattern buf2 f2 b2 i) := by
  by_cases h2 : b1 % 256 = b2 % 256
  · right
    intro i hi h3
    rw [fill_apply_lt buf1 f1 b1 i hi, fill_apply_lt buf2 f2 b2 i hi,
      expected_byte_3 f1 b1 i hi h3, expected_byte_3 f2 b2 i hi h3]
    intro c
    apply h
    rw [base_of_bytes f1 b1, base_of_bytes f2 b2, h2, c]
  · left
    intro i hi hi2
    rw [fill_apply_lt buf1 f1 b1 i hi, fill_apply_lt buf2 f2 b2 i hi,
      expected_byte_2 f1 b1 i hi2, expected_byte_2 f2 b2 i hi2]
    exact fun c => h2 (Nat.xor_left_inj.1 c)

/-! ## Theorem on the collisions of the codec -/

/-- C32. Collision characterisation: for all indices `(f1, b1)` and
`(f2, b2)` and any initial buffers, the blocks `f3v_fill_pattern` produces are
byte-identical if and only if the pattern words
`(f << 24) ^ (b << 16)` (32-bit) are equal, which holds if and only if `b1` and
`b2` agree in their low 8 bits and `f1 ^ (b1 >> 8)` and `f2 ^ (b2 >> 8)` agree
in their low 8 bits; when the words differ, the blocks differ in at least
`F3V_BLOCK_SIZE / 4 = 262144` bytes. -/
theorem C32_collision_characterisation (buf1 buf2 : Buffer) (f1 b1 f2 b2 : Nat) :
    ((∀ i, i < F3V_BLOCK_SIZE →
        f3v_fill_pattern buf1 f1 b1 i = f3v_fill_pattern buf2 f2 b2 i) ↔
      pattern_base f1 b1 = pattern_base f2 b2) ∧
    (pattern_base f1 b1 = pattern_base f2 b2 ↔
      b1 % 256 = b2 % 256 ∧ (f1 ^^^ (b1 >>> 8)) % 256 = (f2 ^^^ (b2 >>> 8)) % 256) ∧
    (pattern_base f1 b1 ≠ pattern_base f2 b2 →
      F3V_BLOCK_SIZE / 4 ≤ ((Finset.range F3V_BLOCK_SIZE).filter
        (fun i => f3v_fill_pattern buf1 f1 b1 i ≠ f3v_fill_pattern buf2 f2 b2 i)).card) := by
  have hq : F3V_BLOCK_SIZE / 4 = 262144 := by decide
  have hcount : pattern_base f1 b1 ≠ pattern_base f2 b2 →
      F3V_BLOCK_SIZE / 4 ≤ ((Finset.range F3V_BLOCK_SIZE).filter
        (fun i => f3v_fill_pattern buf1 f1 b1 i ≠ f3v_fill_pattern buf2 f2 b2 i)).card := by
    intro hne
    rw [hq]
    rcases fill_differ_of_base buf1 buf2 f1 b1 f2 b2 hne with h | h
    · rw [← card_offsets_two]
      apply Finset.card_le_card
      intro i hi
      rw [Finset.mem_filter, Finset.mem_range] at hi ⊢
      exact ⟨hi.1, h i hi.1 hi.2⟩
    · rw [← card_offsets_three]
      apply Finset.card_le_card
      intro i hi
      rw [Finset.mem_filter, Finset.mem_range] at hi ⊢
      exact ⟨hi.1, h i hi.1 hi.2⟩
  refine ⟨⟨fun hall => ?_, fun hb i hi => fill_eq_of_base buf1 buf2 f1 b1 f2 b2 i hi hb⟩,
    base_eq_iff f1 b1 f2 b2, hcount⟩
  by_contra hne
  rcases fill_differ_of_base buf1 buf2 f1 b1 f2 b2 hne with h | h
  · exact h 2 (by decide) rfl (hall 2 (by decide))
  · exact h 3 (by decide) rfl (hall 3 (by decide))

/-! ## Lemmas on located failures and on the scan behind a result -/

theorem record_first_error_flag (ctx : TestContext) (f b o : Nat) :
    (record_first_error ctx f b o).has_first_error = true := by
  unfold record_first_error
  split_ifs with h
  · rfl
  · simpa using h

theorem located_verify_block {W : Type} (P : Platform W) (m : Machine) (f b : Nat) (w : W)
    (h : Located m.g_ctx) : Located (verify_block P m f b w).1.g_ctx := by
  unfold verify_block
  dsimp only
  split_ifs
  · exact fun _ => record_first_error_flag _ _ _ _
  · exact fun _ => record_first_error_flag _ _ _ _
  · exact h

theorem located_state_verify {W : Type} (P : Platform W) (m : Machine) (w : W)
    (h : Located m.g_ctx) : Located (state_verify P m w).1.g_ctx := by
  unfold state_verify
  dsimp only
  split_ifs
  all_goals first
    | exact h
    | exact located_verify_block P _ _ _ _ h
    | exact fun _ => record_first_error_flag _ _ _ _

theorem located_write_block {W : Type} (P : Platform W) (m : Machine) (f b : Nat) (w : W)
    (h : Located m.g_ctx) : Located (write_block P m f b w).1.g_ctx := by
  unfold write_block
  dsimp only
  split_ifs
  all_goals exact h

theorem located_state_write {W : Type} (P : Platform W) (m : Machine) (w : W)
    (h : Located m.g_ctx) : Located (state_write P m w).1.g_ctx := by
  unfold state_write
  dsimp only
  split_ifs
  all_goals first
    | exact h
    | exact located_write_block P _ _ _ _ h

theorem located_state_results {W : Type} (P : Platform W) (m : Machine) (w : W)
    (h : Located m.g_ctx) : Located (state_results P m w).1.g_ctx := by
  unfold state_results
  dsimp only
  split_ifs
  all_goals exact h

theorem located_tick {W : Type} (P : Platform W) (fuel : Nat) (m : Machine) (w : W)
    (r : Machine × W) (hr : tick P fuel m w = some r) (h : Located m.g_ctx) :
    Located r.1.g_ctx := by
  unfold tick at hr
  split at hr
  next =>
    rcases state_menu_ctx P fuel m w r hr with hf | ⟨hc, _⟩
    · intro hpos
      rw [hf.2.2.1] at hpos
      exact absurd hpos (Nat.lt_irrefl 0)
    · rw [hc]
      exact h
  next =>
    simp only [Option.some.injEq] at hr
    rw [← hr]
    exact located_state_write P m w h
  next =>
    simp only [Option.some.injEq] at hr
    rw [← hr]
    exact located_state_verify P m w h
  next =>
    simp only [Option.some.injEq] at hr
    rw [← hr]
    exact located_state_results P m w h
  next =>
    rw [g_ctx_state_cleanup P fuel m w r hr]
    exact h
  next =>
    simp only [Option.some.injEq] at hr
    rw [← hr]
    exact h

theorem located_reachable {W : Type} (P : Platform W) (m : Machine) (w : W)
    (hreach : Reachable P m w) : Located m.g_ctx := by
  induction hreach with
  | boot devices count w => exact fun hpos => absurd hpos (Nat.lt_irrefl 0)
  | step fuel m w m2 w2 _ _ ht ih => exact located_tick P fuel m w (m2, w2) ht ih

theorem scan_state_verify {W : Type} (P : Platform W) (m : Machine) (w : W)
    (hs : m.g_state = AppState.STATE_VERIFY) : ScanComplete (state_verify P m w).1 := by
  unfold ScanComplete state_verify
  dsimp only
  split_ifs with c1 c2 c3 c4
  · exact fun _ => Or.inl rfl
  · exact fun _ => Or.inr c2
  · intro _
    right
    show (record_first_error _ _ _ _).bytes_written ≤ (record_first_error _ _ _ _).bytes_verified
    rw [record_first_error_bytes_written, record_first_error_bytes_verified]
  · intro hres
    rw [verify_block_state] at hres
    exact absurd (hs.symm.trans hres) (by simp)
  · intro hres
    rw [verify_block_state] at hres
    exact absurd (hs.symm.trans hres) (by simp)

theorem scan_state_results {W : Type} (P : Platform W) (m : Machine) (w : W)
    (hs : m.g_state = AppState.STATE_RESULTS) (h : ScanComplete m) :
    ScanComplete (state_results P m w).1 := by
  have hm := h hs
  unfold ScanComplete state_results
  dsimp only
  split_ifs
  all_goals exact fun _ => hm

theorem scan_tick {W : Type} (P : Platform W) (fuel : Nat) (m : Machine) (w : W)
    (r : Machine × W) (hr : tick P fuel m w = some r) (h : ScanComplete m) :
    ScanComplete r.1 := by
  unfold tick at hr
  split at hr
  next hs =>
    intro hres
    rcases state_menu_state P fuel m w r hr with c | c | c
    · rw [c, hs] at hres; exact absurd hres (by simp)
    · rw [c] at hres; exact absurd hres (by simp)
    · rw [c] at hres; exact absurd hres (by simp)
  next hs =>
    simp only [Option.some.injEq] at hr
    rw [← hr]
    intro hres
    rcases state_write_state P m w with c | c | ⟨_, c⟩
    · rw [c, hs] at hres; exact absurd hres (by simp)
    · rw [c] at hres; exact absurd hres (by simp)
    · exact Or.inl c
  next hs =>
    simp only [Option.some.injEq] at hr
    rw [← hr]
    exact scan_state_verify P m w hs
  next hs =>
    simp only [Option.some.injEq] at hr
    rw [← hr]
    exact scan_state_results P m w hs h
  next hs =>
    intro hres
    rw [state_cleanup_state P fuel m w r hr] at hres
    exact absurd hres (by simp)
  next hs =>
    simp only [Option.some.injEq] at hr
    rw [← hr]
    intro hres
    exact absurd hres (by simp)

theorem scan_reachable {W : Type} (P : Platform W) (m : Machine) (w : W)
    (hreach : Reachable P m w) : ScanComplete m := by
  induction hreach with
  | boot devices count w => exact fun hres => absurd hres (by simp [boot])
  | step fuel m w m2 w2 _ _ ht ih => exact scan_tick P fuel m w (m2, w2) ht ih

/-! ## Theorems on the result -/

/-- C33. Every failure has a location: in every reachable state
`bytes_corrupted > 0` implies that `has_first_error` is set; equivalently a
state without a recorded first error has `bytes_corrupted = 0`, so at the tick
that records the first error `bytes_corrupted` was 0 before the tick and is
positive after it: the recorded location belongs to the first block charged
with corruption. -/
theorem C33_failure_located {W : Type} (P : Platform W) (m : Machine) (w : W)
    (hreach : Reachable P m w) :
    (0 < m.g_ctx.bytes_corrupted → m.g_ctx.has_first_error = true) ∧
    (m.g_ctx.has_first_error = false → m.g_ctx.bytes_corrupted = 0) ∧
    (∀ (fuel : Nat) (r : Machine × W), m.g_state ≠ AppState.STATE_EXIT →
      tick P fuel m w = some r →
      m.g_ctx.has_first_error = false → r.1.g_ctx.has_first_error = true →
      m.g_ctx.bytes_corrupted = 0 ∧ 0 < r.1.g_ctx.bytes_corrupted) := by
  have hloc := located_reachable P m w hreach
  have hzero : m.g_ctx.has_first_error = false → m.g_ctx.bytes_corrupted = 0 := by
    intro hno
    by_contra hne
    have := hloc (Nat.pos_of_ne_zero hne)
    rw [hno] at this
    exact absurd this (by simp)
  refine ⟨hloc, hzero, fun fuel r hne hr hno hset => ⟨hzero hno, ?_⟩⟩
  exact flag_backed_reachable P r.1 r.2 (Reachable.step fuel m w r.1 r.2 hreach hne hr) hset

/-- Witness of C33 on `failing_read_platform` after six iterations of the loop
of `main`: both reads failed, `bytes_corrupted` is two blocks and the first
error is recorded. -/
theorem C33_failure_located_witness :
    ∃ m w, main_loop failing_read_platform 0 6 (boot one_device 1) 0 = some (m, w) ∧
      m.g_ctx.bytes_corrupted = 2097152 ∧ m.g_ctx.has_first_error = true := by
  have h : (main_loop failing_read_platform 0 6 (boot one_device 1) 0).map
      (fun r => r.1.g_ctx.bytes_corrupted) = some 2097152 := by decide
  cases hm : main_loop failing_read_platform 0 6 (boot one_device 1) 0 with
  | none => rw [hm] at h; simp at h
  | some r =>
    rw [hm] at h
    simp only [Option.map_some', Option.some.injEq] at h
    exact ⟨r.1, r.2, rfl, h,
      (C33_failure_located failing_read_platform r.1 r.2
        (main_loop_reachable _ 0 6 _ 0 r.1 r.2 (Reachable.boot one_device 1 0) hm)).1
        (by rw [h]; decide)⟩

/-- C34. Pass is backed by a full scan: in every reachable Results state with
`cancelled` clear, `bytes_verified >= bytes_written`; in particular when the
result is Pass (`cancelled` clear and `bytes_corrupted = 0`): Pass is never
reported while written bytes remain unverified. -/
theorem C34_pass_full_scan {W : Type} (P : Platform W) (m : Machine) (w : W)
    (hreach : Reachable P m w) (hstate : m.g_state = AppState.STATE_RESULTS) :
    (m.g_ctx.cancelled = false → m.g_ctx.bytes_written ≤ m.g_ctx.bytes_verified) ∧
    (classify_result m.g_ctx = TestResult.RESULT_PASS →
      m.g_ctx.cancelled = false ∧ m.g_ctx.bytes_corrupted = 0 ∧
      m.g_ctx.bytes_written ≤ m.g_ctx.bytes_verified) := by
  have hscan := scan_reachable P m w hreach hstate
  have h1 : m.g_ctx.cancelled = false → m.g_ctx.bytes_written ≤ m.g_ctx.bytes_verified := by
    intro hc
    rcases hscan with h | h
    · rw [hc] at h; exact absurd h (by simp)
    · exact h
  refine ⟨h1, fun hpass => ?_⟩
  unfold classify_result at hpass
  split_ifs at hpass with c1 c2
  have hc : m.g_ctx.cancelled = false := by simpa using c1
  exact ⟨hc, by omega, h1 hc⟩

/-- Witness of C34 on a device that is full at the start: after three
iterations of the loop of `main` the state is Results, the result is Pass and
nothing written is left unverified. -/
theorem C34_pass_full_scan_witness :
    ∃ m w, main_loop (fixed_platform pad_cross 0 3 0) 0 3 (boot one_device 1) () = some (m, w) ∧
      m.g_state = AppState.STATE_RESULTS ∧
      classify_result m.g_ctx = TestResult.RESULT_PASS ∧
      m.g_ctx.bytes_written ≤ m.g_ctx.bytes_verified := by
  have h : (main_loop (fixed_platform pad_cross 0 3 0) 0 3 (boot one_device 1) ()).map
      (fun r => (r.1.g_state, classify_result r.1.g_ctx))
      = some (AppState.STATE_RESULTS, TestResult.RESULT_PASS) := by decide
  cases hm : main_loop (fixed_platform pad_cross 0 3 0) 0 3 (boot one_device 1) () with
  | none => rw [hm] at h; simp at h
  | some r =>
    rw [hm] at h
    simp only [Option.map_some', Option.some.injEq, Prod.mk.injEq] at h
    exact ⟨r.1, r.2, rfl, h.1, h.2,
      ((C34_pass_full_scan (fixed_platform pad_cross 0 3 0) r.1 r.2
        (main_loop_reachable _ 0 3 _ () r.1 r.2 (Reachable.boot one_device 1 ()) hm) h.1).2
        h.2).2.2⟩

/-! ## Lemmas on a device that is full at the start -/

theorem has_space_traced {W : Type} (P : Platform W) (ctx : TestContext) (w : W)
    (log : List Call) :
    f3v_has_space (traced P) ctx (w, log) =
      ((f3v_has_space P ctx w).1, (f3v_has_space P ctx w).2.1,
        ((f3v_has_space P ctx w).2.2, log ++ [Call.sceAppMgrGetDevInfo ctx.target.path])) := by
  unfold f3v_has_space f3v_get_storage_info
  dsimp only [traced]
  split_ifs <;> rfl

theorem time_traced {W : Type} (P : Platform W) (w : W) (log : List Call) :
    f3v_get_time_usec (traced P) (w, log) =
      ((f3v_get_time_usec P w).1,
        ((f3v_get_time_usec P w).2, log ++ [Call.sceRtcGetCurrentTick])) := rfl

theorem state_write_full_traced {W : Type} (P : Platform W) (m : Machine) (w : W)
    (log : List Call)
    (hbtn : (poll_buttons P m w).1 &&& F3V_BTN_CIRCLE = 0)
    (hfull : (f3v_has_space P m.g_ctx (poll_buttons P m w).2.2).1 = false) :
    state_write (traced P) m (w, log) =
      ((state_write P m w).1,
        ((state_write P m w).2,
          log ++ [Call.sceRtcGetCurrentTick, Call.sceCtrlPeekBufferPositive,
            Call.sceAppMgrGetDevInfo m.g_ctx.target.path, Call.sceRtcGetCurrentTick])) := by
  rw [state_write_full P m w hbtn hfull,
    state_write_full (traced P) m (w, log) (by rw [poll_traced]; exact hbtn)
      (by rw [poll_traced, has_space_traced]; exact hfull)]
  simp only [enter_verify, poll_traced, has_space_traced, time_traced, List.append_assoc,
    List.cons_append, List.nil_append]

theorem state_verify_done_traced {W : Type} (P : Platform W) (m : Machine) (w : W)
    (log : List Call)
    (hbtn : (poll_buttons P m w).1 &&& F3V_BTN_CIRCLE = 0)
    (hge : m.g_ctx.bytes_written ≤ m.g_ctx.bytes_verified) :
    state_verify (traced P) m (w, log) =
      ((state_verify P m w).1,
        ((state_verify P m w).2,
          log ++ [Call.sceRtcGetCurrentTick, Call.sceCtrlPeekBufferPositive,
            Call.sceRtcGetCurrentTick])) := by
  rw [state_verify_done P m w hbtn hge,
    state_verify_done (traced P) m (w, log) (by rw [poll_traced]; exact hbtn) hge]
  simp only [poll_traced, time_traced, List.append_assoc, List.cons_append, List.nil_append]

theorem create_test_dir_ctx {W : Type} (P : Platform W) (ctx : TestContext) (w : W) :
    (f3v_create_test_dir P ctx w).2.1 = { ctx with test_dir := ctx.target.path ++ F3V_TEST_DIR } := by
  unfold f3v_create_test_dir
  dsimp only
  split_ifs <;> rfl

theorem menu_start_started {W : Type} (P : Platform W) (fuel : Nat) (m : Machine) (btn : Nat)
    (w : W) (r : Machine × W) (hr : menu_start P fuel m btn w = some r)
    (hw : r.1.g_state = AppState.STATE_WRITE) :
    r.1.g_ctx.bytes_written = 0 ∧ r.1.g_ctx.bytes_corrupted = 0 ∧
      r.1.g_ctx.cancelled = false ∨ m.g_state = AppState.STATE_WRITE := by
  unfold menu_start at hr
  dsimp only at hr
  split_ifs at hr
  · split at hr
    · exact absurd hr (by simp)
    · simp only [Option.some.injEq] at hr
      rw [← hr] at hw
      exact Or.inr hw
  · simp only [Option.some.injEq] at hr
    rw [← hr] at hw
    exact absurd hw (by simp)
  · simp only [Option.some.injEq] at hr
    rw [← hr]
    dsimp only
    rw [create_test_dir_ctx]
    exact Or.inl ⟨rfl, rfl, rfl⟩

theorem state_menu_started {W : Type} (P : Platform W) (fuel : Nat) (m : Machine) (w : W)
    (r : Machine × W) (hr : state_menu P fuel m w = some r)
    (hm : m.g_state = AppState.STATE_MENU) (hw : r.1.g_state = AppState.STATE_WRITE) :
    r.1.g_ctx.bytes_written = 0 ∧ r.1.g_ctx.bytes_corrupted = 0 ∧
      r.1.g_ctx.cancelled = false := by
  unfold state_menu at hr
  dsimp only at hr
  split_ifs at hr
  all_goals first
    | (rcases menu_start_started P fuel _ _ _ r hr hw with h | h
       · exact h
       · rw [(menu_move_ctx _ _).2] at h
         dsimp only at h
         rw [hm] at h
         cases h)
    | (simp only [Option.some.injEq] at hr
       rw [← hr] at hw
       dsimp only at hw
       first
         | cases hw
         | (rw [hm] at hw
            cases hw)
         | (rw [(menu_move_ctx _ _).2] at hw
            dsimp only at hw
            rw [hm] at hw
            cases hw))

/-! ## Theorems on the full device and on the end time -/

/-- C35. Full device at start: let a Menu tick start a test (it ends in state
Write). If the first write tick finds less than one block free and no
cancellation is signalled in it nor in the tick after it, the two ticks go
Write, Verify, Results and end with `bytes_written = 0`, `bytes_verified = 0`,
`bytes_corrupted = 0` and result Pass. On the platform with a call log the two
ticks append the time read, the pad read, the device query, the time read,
and the time read, the pad read, the time read: there is no open, write or
read. -/
theorem C35_full_device_at_start {W : Type} (P : Platform W) (fuel : Nat) (m0 : Machine)
    (w0 : W) (m : Machine) (w : W) (log : List Call)
    (hmenu : m0.g_state = AppState.STATE_MENU) (hstart : tick P fuel m0 w0 = some (m, w))
    (hwrite : m.g_state = AppState.STATE_WRITE)
    (hbtn : (poll_buttons P m w).1 &&& F3V_BTN_CIRCLE = 0)
    (hfull : (f3v_has_space P m.g_ctx (poll_buttons P m w).2.2).1 = false)
    (hbtn2 : (poll_buttons P (state_write P m w).1 (state_write P m w).2).1
      &&& F3V_BTN_CIRCLE = 0) :
    (state_write P m w).1.g_state = AppState.STATE_VERIFY ∧
    main_loop P fuel 2 m w = some (state_verify P (state_write P m w).1 (state_write P m w).2) ∧
    (state_verify P (state_write P m w).1 (state_write P m w).2).1.g_state
      = AppState.STATE_RESULTS ∧
    (state_verify P (state_write P m w).1 (state_write P m w).2).1.g_ctx.bytes_written = 0 ∧
    (state_verify P (state_write P m w).1 (state_write P m w).2).1.g_ctx.bytes_verified = 0 ∧
    (state_verify P (state_write P m w).1 (state_write P m w).2).1.g_ctx.bytes_corrupted = 0 ∧
    classify_result (state_verify P (state_write P m w).1 (state_write P m w).2).1.g_ctx
      = TestResult.RESULT_PASS ∧
    (main_loop (traced P) fuel 2 m (w, log)).map (fun x => x.2.2)
      = some (log ++ [Call.sceRtcGetCurrentTick, Call.sceCtrlPeekBufferPositive,
          Call.sceAppMgrGetDevInfo m.g_ctx.target.path, Call.sceRtcGetCurrentTick,
          Call.sceRtcGetCurrentTick, Call.sceCtrlPeekBufferPositive,
          Call.sceRtcGetCurrentTick]) := by
  have hst : state_menu P fuel m0 w0 = some (m, w) := by
    unfold tick at hstart
    rw [hmenu] at hstart
    exact hstart
  obtain ⟨hbw, hbc, hcan⟩ := state_menu_started P fuel m0 w0 (m, w) hst hmenu hwrite
  have hwv : (state_write P m w).1.g_state = AppState.STATE_VERIFY := by
    rw [state_write_full P m w hbtn hfull]
    rfl
  have hw_bw : (state_write P m w).1.g_ctx.bytes_written = 0 := by
    rw [state_write_full P m w hbtn hfull]
    exact hbw
  have hw_bv : (state_write P m w).1.g_ctx.bytes_verified = 0 := by
    rw [state_write_full P m w hbtn hfull]
    rfl
  have hw_bc : (state_write P m w).1.g_ctx.bytes_corrupted = 0 := by
    rw [state_write_full P m w hbtn hfull]
    exact hbc
  have hw_can : (state_write P m w).1.g_ctx.cancelled = false := by
    rw [state_write_full P m w hbtn hfull]
    exact hcan
  have hge : (state_write P m w).1.g_ctx.bytes_written
      ≤ (state_write P m w).1.g_ctx.bytes_verified := by
    rw [hw_bw]
    exact Nat.zero_le _
  have hv := state_verify_done P (state_write P m w).1 (state_write P m w).2 hbtn2 hge
  have hloop : ∀ {V : Type} (Q : Platform V) (v : V),
      main_loop Q fuel 2 m v = some (state_verify Q (state_write Q m v).1 (state_write Q m v).2) ∨
      (state_write Q m v).1.g_state ≠ AppState.STATE_VERIFY := by
    intro V Q v
    by_cases hq : (state_write Q m v).1.g_state = AppState.STATE_VERIFY
    · left
      have h1 : main_loop Q fuel 1 m v = some ((state_write Q m v).1, (state_write Q m v).2) := by
        rw [main_loop_snoc Q fuel 0 m v m v rfl (by rw [hwrite]; simp), tick_write Q fuel m v hwrite]
      rw [main_loop_snoc Q fuel 1 m v _ _ h1 (by rw [hq]; simp), tick_verify Q fuel _ _ hq]
    · exact Or.inr hq
  refine ⟨hwv, ?_, ?_, ?_, ?_, ?_, ?_, ?_⟩
  · rcases hloop P w with h | h
    · exact h
    · exact absurd hwv h
  · rw [hv]
  · rw [hv]; exact hw_bw
  · rw [hv]; exact hw_bv
  · rw [hv]; exact hw_bc
  · rw [hv]
    unfold classify_result
    dsimp only
    rw [hw_can, hw_bc]
    rfl
  · have hwt := state_write_full_traced P m w log hbtn hfull
    rcases hloop (traced P) (w, log) with h | h
    · rw [h, hwt]
      dsimp only
      rw [state_verify_done_traced P _ _ _ hbtn2 hge]
      simp only [Option.map_some', List.append_assoc, List.cons_append, List.nil_append]
    · rw [hwt] at h
      exact absurd hwv h

/-- Witness of C35 on a platform whose device is full, with cross held at the
menu: the menu tick starts the test and the next two iterations end in
Results with result Pass and nothing written. -/
theorem C35_full_device_at_start_witness :
    ∃ m w, tick (fixed_platform pad_cross 0 3 0) 0 (boot one_device 1) () = some (m, w) ∧
      (main_loop (fixed_platform pad_cross 0 3 0) 0 2 m w).map
        (fun r => (r.1.g_state, r.1.g_ctx.bytes_written, classify_result r.1.g_ctx))
        = some (AppState.STATE_RESULTS, 0, TestResult.RESULT_PASS) := by
  have h : (tick (fixed_platform pad_cross 0 3 0) 0 (boot one_device 1) ()).map
      (fun r =>
        decide (r.1.g_state = AppState.STATE_WRITE) &&
        decide ((poll_buttons (fixed_platform pad_cross 0 3 0) r.1 r.2).1
          &&& F3V_BTN_CIRCLE = 0) &&
        !(f3v_has_space (fixed_platform pad_cross 0 3 0) r.1.g_ctx
          (poll_buttons (fixed_platform pad_cross 0 3 0) r.1 r.2).2.2).1 &&
        decide ((poll_buttons (fixed_platform pad_cross 0 3 0)
          (state_write (fixed_platform pad_cross 0 3 0) r.1 r.2).1
          (state_write (fixed_platform pad_cross 0 3 0) r.1 r.2).2).1 &&& F3V_BTN_CIRCLE = 0))
      = some true := by decide
  cases hm : tick (fixed_platform pad_cross 0 3 0) 0 (boot one_device 1) () with
  | none => rw [hm] at h; simp at h
  | some r =>
    rw [hm] at h
    simp only [Option.map_some', Option.some.injEq, Bool.and_eq_true, decide_eq_true_eq,
      Bool.not_eq_true'] at h
    obtain ⟨⟨⟨h1, h2⟩, h3⟩, h4⟩ := h
    have hthm := C35_full_device_at_start (fixed_platform pad_cross 0 3 0) 0
      (boot one_device 1) () r.1 r.2 [] rfl hm h1 h2 h3 h4
    refine ⟨r.1, r.2, rfl, ?_⟩
    rw [hthm.2.1, Option.map_some', hthm.2.2.1, hthm.2.2.2.1, hthm.2.2.2.2.2.2.1]

/-- C36. End time, refuted by the code: the cancel exits of `state_write` and
`state_verify` go to Results without assigning `end_time`. On
`scripted_platform pads_cancel`, whose clock never goes back, the test is
started at time 5000001 and cancelled in the first write tick: the state after
two iterations of the loop of `main` is Results with `cancelled` set,
`start_time = 5000001` and `end_time = 0` as the `memset` of the start left
it. `end_time - start_time` wraps around on `uint64_t` and the results screen
computes `total_secs = 4154504680`. -/
theorem C36_end_time_not_recorded :
    (main_loop (scripted_platform pads_cancel 1048576) 0 2 (boot one_device 1) 0).map
      (fun r => (r.1.g_state, r.1.g_ctx.cancelled, r.1.g_ctx.start_time, r.1.g_ctx.end_time,
        total_secs r.1.g_ctx))
    = some (AppState.STATE_RESULTS, true, 5000001, 0, 4154504680) := by
  decide

end F3Vita
